import Mathlib

/-! go-nexentastor: the paginated collection walker of `pkg/ns/api.go`.

A shallow embedding of the listing functions of the NexentaStor provider
(`GetVolumesSlice`, `GetFilesystemsSlice`, `GetLunMappingsSlice`,
`GetLogicalUnitsSlice`, `GetVolumes`, `GetFilesystems`,
`GetVolumesWithStartingToken`, `GetFilesystemsWithStartingToken`) and the
properties of the walker built on them.

Conventions of the embedding:

* Go `int` is `Int`. The only arithmetic on it is `limit + 1` with
  `limit < 100` and `offset += len(slice)`, where `offset` is the number of
  records received so far (plus one for filesystems), so no 64-bit wrap-around
  is reachable.
* A Go `(value, error)` result whose value is `nil` on error is `Except GoError value`.
* Every function that talks to the appliance takes the list of requests sent so
  far and returns it extended by the requests it sent.
* A `for` loop whose number of rounds depends on the appliance takes a `fuel`
  argument and answers `none` when the fuel runs out before the loop ends.
-/

namespace ns

/-! ## Data model (`pkg/ns/types.go`) -/

/-- NexentaStor filesystem list limit (<=). -/
def nsFilesystemListLimit : Int := 100

/-- Filesystem - NexentaStor filesystem. -/
structure Filesystem where
  Path : String
  MountPoint : String
  SharedOverNfs : Bool
  SharedOverSmb : Bool
  BytesAvailable : Int
  BytesUsed : Int
  deriving DecidableEq, Repr

/-- Volume - NexentaStor volume. -/
structure Volume where
  Path : String
  BytesAvailable : Int
  BytesUsed : Int
  VolumeSize : Int
  deriving DecidableEq, Repr

/-- LunMapping - NexentaStor lunmapping. -/
structure LunMapping where
  Id : String
  Volume : String
  TargetGroup : String
  HostGroup : String
  Lun : Int
  deriving DecidableEq, Repr

/-- LogicalUnit - NexentaStor logicalUnit. -/
structure LogicalUnit where
  Guid : String
  Alias : String
  Volume : String
  VolSize : Int
  BlockSize : Int
  WriteProtect : Bool
  WritebackCacheDisabled : Bool
  State : String
  AccessState : String
  MappingCount : Int
  ExposedOverIscsi : Bool
  ExposedOverFC : Bool
  Href : String
  deriving DecidableEq, Repr

/-- Snapshot - NexentaStor snapshot. `CreationTime` (a `time.Time`) is kept as the text
it is decoded from. -/
structure Snapshot where
  Path : String
  Name : String
  Parent : String
  Clones : List String
  CreationTxg : String
  CreationTime : String
  deriving DecidableEq, Repr

/-- Portal of an iSCSI target. -/
structure Portal where
  Address : String
  Port : Int
  deriving DecidableEq, Repr

/-- Response body of `storage/snapshots`. -/
structure nefStorageSnapshotsResponse where
  Data : List Snapshot
  deriving DecidableEq, Repr

/-- Response body of `storage/filesystems`. -/
structure nefStorageFilesystemsResponse where
  Data : List Filesystem
  deriving DecidableEq, Repr

/-- Response body of `storage/volumes`. -/
structure nefStorageVolumesResponse where
  Data : List Volume
  deriving DecidableEq, Repr

/-- Response body of `san/logicalUnits`. -/
structure nefSanLogicalUnitsResponse where
  Data : List LogicalUnit
  deriving DecidableEq, Repr

/-- Response body of `san/lunMappings`. -/
structure nefLunMappingsResponse where
  Data : List LunMapping
  deriving DecidableEq, Repr

/-! ## Errors and transport -/

/-- A Go `error` as far as the client tells errors apart: a plain error made by
`fmt.Errorf`, or a `*NefError` carrying the symbolic code of the appliance. -/
inductive GoError where
  | errorf (msg : String)
  | nef (Code : String) (Err : String)
  deriving DecidableEq, Repr

/-- HTTP methods used by the provider. -/
inductive Method where
  | GET
  | POST
  | PUT
  | DELETE
  deriving DecidableEq, Repr

/-- Value of a query parameter. `fmt.Sprint(n)` of an `int` is kept as the number
it prints (the decimal rendering is injective), a string stays a string. -/
inductive QueryValue where
  | str (s : String)
  | int (n : Int)
  deriving DecidableEq, Repr

/-- URI built by `RestClient.BuildURI(path, params)`: the path and the parameters, in
the order in which the source lists them. -/
structure URI where
  path : String
  params : List (String × QueryValue)
  deriving DecidableEq, Repr

/-- Modelled from the spec: `RestClient.BuildURI` is declared outside `api.go`; it joins
a REST path and its query parameters into one URI. -/
def BuildURI (path : String) (params : List (String × QueryValue)) : URI :=
  ⟨path, params⟩

/-- CreateFilesystemParams - params to create filesystem. -/
structure CreateFilesystemParams where
  Path : String
  ReferencedQuotaSize : Int
  deriving DecidableEq, Repr

/-- UpdateFilesystemParams - params to update filesystem. -/
structure UpdateFilesystemParams where
  ReferencedQuotaSize : Int
  deriving DecidableEq, Repr

/-- DestroyFilesystemParams - filesystem deletion parameters. -/
structure DestroyFilesystemParams where
  DestroySnapshots : Bool
  PromoteMostRecentCloneIfExists : Bool
  deriving DecidableEq, Repr

/-- CloneSnapshotParams - params to clone snapshot to filesystem. -/
structure CloneSnapshotParams where
  TargetPath : String
  ReferencedQuotaSize : Int
  deriving DecidableEq, Repr

/-- CreateVolumeParams - params to create a volume. -/
structure CreateVolumeParams where
  Path : String
  VolumeSize : Int
  SparseVolume : Bool
  deriving DecidableEq, Repr

/-- UpdateVolumeParams - params to update volume. -/
structure UpdateVolumeParams where
  VolumeSize : Int
  deriving DecidableEq, Repr

/-- DestroyVolumeParams - volume deletion parameters. -/
structure DestroyVolumeParams where
  DestroySnapshots : Bool
  PromoteMostRecentCloneIfExists : Bool
  deriving DecidableEq, Repr

/-- CreateISCSITargetParams - params to create new iSCSI target. -/
structure CreateISCSITargetParams where
  Name : String
  Portals : List Portal
  deriving DecidableEq, Repr

/-- CreateLunMappingParams - params to create new lun. -/
structure CreateLunMappingParams where
  HostGroup : String
  Volume : String
  TargetGroup : String
  deriving DecidableEq, Repr

/-- CreateHostGroupParams - params to create a hostGroup. -/
structure CreateHostGroupParams where
  Members : List String
  Name : String
  deriving DecidableEq, Repr

/-- One rule of an NFS access list. -/
structure NfsRuleList where
  Etype : String
  Entity : String
  Mask : Int
  deriving DecidableEq, Repr

/-- CreateNfsShareParams - params to create NFS share. -/
structure CreateNfsShareParams where
  Filesystem : String
  ReadWriteList : List NfsRuleList
  ReadOnlyList : List NfsRuleList
  deriving DecidableEq, Repr

/-- One security context of the request that creates an NFS share. -/
structure nefNasNfsRequestSecurityContext where
  SecurityModes : List String
  ReadWriteList : List NfsRuleList
  ReadOnlyList : List NfsRuleList
  deriving DecidableEq, Repr

/-- The request body that creates an NFS share. -/
structure nefNasNfsRequest where
  Filesystem : String
  Anon : String
  SecurityContexts : List nefNasNfsRequestSecurityContext
  deriving DecidableEq, Repr

/-- JSON body handed to a request: `nil`, or the parameter structure that is encoded. -/
inductive Body where
  | nil
  | createFilesystem (params : CreateFilesystemParams)
  | updateFilesystem (params : UpdateFilesystemParams)
  | cloneSnapshot (params : CloneSnapshotParams)
  | createVolume (params : CreateVolumeParams)
  | updateVolume (params : UpdateVolumeParams)
  | createISCSITarget (params : CreateISCSITargetParams)
  | createLunMapping (params : CreateLunMappingParams)
  | createHostGroup (params : CreateHostGroupParams)
  | nasNfs (data : nefNasNfsRequest)
  deriving DecidableEq, Repr

/-- One request handed to the transport. -/
structure Request where
  method : Method
  uri : URI
  data : Body
  deriving DecidableEq, Repr

/-- Requests sent so far, oldest first. -/
abbrev Trace := List Request

/-- What a request leaves in the response structure passed by reference: the decoded
body, tagged by the response type it decodes to, or nothing. -/
inductive Payload where
  | unset
  | storageFilesystems (r : nefStorageFilesystemsResponse)
  | storageVolumes (r : nefStorageVolumesResponse)
  | sanLogicalUnits (r : nefSanLogicalUnitsResponse)
  | lunMappings (r : nefLunMappingsResponse)
  | storageSnapshots (r : nefStorageSnapshotsResponse)
  | snapshot (r : Snapshot)
  deriving DecidableEq, Repr

/-- Outcome of one request: the error returned (`none` is Go's `nil`) and what was
decoded into the response structure. -/
structure Reply where
  err : Option GoError
  body : Payload
  deriving DecidableEq, Repr

/-- Outcome of `RestClient.Send`: the status code, the raw response body and the
transport error (`none` is Go's `nil`). -/
structure RawReply where
  statusCode : Int
  bodyBytes : String
  err : Option GoError
  deriving DecidableEq, Repr

/-- NefError - the error shape of the appliance: a symbolic code and a message. -/
structure NefError where
  Code : String
  Err : String
  deriving DecidableEq, Repr

/-- The provider as the walker sees it: the REST client together with the appliance
behind it, answering a request given the requests sent before it. `respond` is the
answer seen through `sendRequest` and `sendRequestWithStruct`, `Send` the answer of a raw
`RestClient.Send`, `parseNefError` the error classifier applied to a response body. -/
structure Provider where
  respond : Trace → Request → Reply
  Send : Trace → Request → RawReply := fun _ _ => ⟨0, "", some (.errorf "no route to host")⟩
  parseNefError : String → String → Option NefError := fun _ _ => none

/-- Decoding into a `nefStorageFilesystemsResponse{}`: a body of another shape leaves
the zero value. -/
def Payload.asStorageFilesystems : Payload → nefStorageFilesystemsResponse
  | .storageFilesystems r => r
  | _ => ⟨[]⟩

/-- Decoding into a `nefStorageVolumesResponse{}`. -/
def Payload.asStorageVolumes : Payload → nefStorageVolumesResponse
  | .storageVolumes r => r
  | _ => ⟨[]⟩

/-- Decoding into a `nefSanLogicalUnitsResponse{}`. -/
def Payload.asSanLogicalUnits : Payload → nefSanLogicalUnitsResponse
  | .sanLogicalUnits r => r
  | _ => ⟨[]⟩

/-- Decoding into a `nefLunMappingsResponse{}`. -/
def Payload.asLunMappings : Payload → nefLunMappingsResponse
  | .lunMappings r => r
  | _ => ⟨[]⟩

/-- Modelled from the spec: `Provider.sendRequestWithStruct` is declared outside `api.go`;
it performs one round trip (`sendDecoded(method, path, jsonBody, &outStruct) → error`),
decoding a success body into the response structure. The request is appended to the
trace. -/
def Provider.sendRequestWithStruct (p : Provider) (method : Method) (uri : URI) (data : Body)
    (log : Trace) : Reply × Trace :=
  (p.respond log ⟨method, uri, data⟩, log ++ [⟨method, uri, data⟩])

/-- Modelled from the spec: `Provider.sendRequest` is declared outside `api.go`; it performs
one round trip and returns its error (`send(method, path, jsonBody)` with the status and
body folded into the error). The request is appended to the trace. -/
def Provider.sendRequest (p : Provider) (method : Method) (uri : URI) (data : Body)
    (log : Trace) : Option GoError × Trace :=
  ((p.respond log ⟨method, uri, data⟩).err, log ++ [⟨method, uri, data⟩])

/-- Modelled from the spec: `RestClient.Send` is declared outside `api.go`; it performs one
HTTP round trip and returns `(statusCode, rawBody, transportError)`. The request is
appended to the trace. -/
def Provider.RestClientSend (p : Provider) (method : Method) (uri : URI) (data : Body)
    (log : Trace) : RawReply × Trace :=
  (p.Send log ⟨method, uri, data⟩, log ++ [⟨method, uri, data⟩])

/-- A URI given as a plain string, as `fmt.Sprintf` builds it: no query parameters. -/
def URI.ofString (path : String) : URI := ⟨path, []⟩

/-- Decoding into a `nefStorageSnapshotsResponse{}`. -/
def Payload.asStorageSnapshots : Payload → nefStorageSnapshotsResponse
  | .storageSnapshots r => r
  | _ => ⟨[]⟩

/-- Decoding into a `Snapshot{}`. -/
def Payload.asSnapshot : Payload → Snapshot
  | .snapshot r => r
  | _ => ⟨"", "", "", [], "", ""⟩

/-- Modelled from the spec: `NefError.Error` is declared outside `api.go`; the text of a
classified error carries its message and its symbolic code. The text of a plain error is
the text it was made with. -/
def GoError.Error : GoError → String
  | .errorf msg => msg
  | .nef code err => err ++ " [code: " ++ code ++ "]"

/-- The `%s` rendering of an `error` variable by `fmt`: the text of the error, or the
marker `fmt` prints for `nil`. -/
def sprintError : Option GoError → String
  | some err => err.Error
  | none => "%!s(<nil>)"

/-- Modelled from the spec: `IsNefError` is declared outside `api.go`; it tells whether an
error is a classified appliance error. -/
def IsNefError : Option GoError → Bool
  | some (.nef _ _) => true
  | _ => false

/-- Modelled from the spec: `IsAlreadyExistNefError` is declared outside `api.go`; the
*is-already-exists* predicate of the error classifier (code "EEXIST"). -/
def IsAlreadyExistNefError : Option GoError → Bool
  | some (.nef code _) => code == "EEXIST"
  | _ => false

/-- Modelled from the spec: `IsNotExistNefError` is declared outside `api.go`; the
*is-not-found* predicate of the error classifier (code "ENOENT"). -/
def IsNotExistNefError : Option GoError → Bool
  | some (.nef code _) => code == "ENOENT"
  | _ => false

/-! ## Library functions the provider calls -/

/-- The Go test `shouldEscape(c, encodePathSegment)` of `net/url` on an ASCII character. -/
def shouldEscapePathSegment (c : Char) : Bool :=
  if c.isAlphanum then false
  else if c = '-' ∨ c = '_' ∨ c = '.' ∨ c = '~' then false
  else if c = '$' ∨ c = '&' ∨ c = '+' ∨ c = ':' ∨ c = '=' ∨ c = '@' then false
  else true

/-- Upper-case hexadecimal digit. -/
def upperHexDigit (n : Nat) : Char :=
  if n < 10 then Char.ofNat (48 + n) else Char.ofNat (55 + n)

/-- The escape `%XX` of one byte. -/
def percentEncode (b : UInt8) : List Char :=
  ['%', upperHexDigit (b.toNat / 16), upperHexDigit (b.toNat % 16)]

/-- Go `url.PathEscape`: every byte of the UTF-8 text that is not allowed in a path segment
becomes `%XX`. -/
def PathEscape (s : String) : String :=
  ⟨s.data.flatMap (fun c =>
    if c.toNat < 128 ∧ shouldEscapePathSegment c = false then [c]
    else (String.utf8EncodeChar c).flatMap percentEncode)⟩

/-- Go `strconv.FormatBool`. -/
def FormatBool (b : Bool) : String := if b then "true" else "false"

/-- Value of a run of decimal digits read after `acc`; `none` when a character is not a
digit. -/
def parseDigits : List Char → Nat → Option Nat
  | [], acc => some acc
  | c :: cs, acc => if c.isDigit then parseDigits cs (10 * acc + (c.toNat - 48)) else none

/-- Go `strconv.Atoi`: an optional sign and at least one decimal digit, within the range
of a 64-bit `int`. -/
def Atoi (s : String) : Except GoError Int :=
  let syntaxError : GoError :=
    .errorf ("strconv.Atoi: parsing " ++ String.singleton '"' ++ s ++ String.singleton '"'
      ++ ": invalid syntax")
  let rangeError : GoError :=
    .errorf ("strconv.Atoi: parsing " ++ String.singleton '"' ++ s ++ String.singleton '"'
      ++ ": value out of range")
  let digits : List Char := match s.data with
    | '+' :: ds => ds
    | '-' :: ds => ds
    | ds => ds
  let negative : Bool := match s.data with
    | '-' :: _ => true
    | _ => false
  match digits with
  | [] => .error syntaxError
  | d :: ds =>
    match parseDigits (d :: ds) 0 with
    | none => .error syntaxError
    | some n =>
      if negative then
        if n ≤ 2 ^ 63 then .ok (-(n : Int)) else .error rangeError
      else
        if n < 2 ^ 63 then .ok (n : Int) else .error rangeError

/-- Go `strings.TrimPrefix(s, lead)`: `s` without the leading `lead`, or `s` itself when
it does not start with `lead`. -/
def TrimPrefix (s lead : String) : String :=
  if lead.data.isPrefixOf s.data then ⟨s.data.drop lead.data.length⟩ else s

/-- The scan of `strings.Replace` for a non-empty `old`: `n` is the number of
replacements still allowed (negative: no bound), `skip` the number of characters of the
instance just replaced that are still to be passed over. -/
def replaceChars (old new : List Char) : Int → Nat → List Char → List Char
  | _, _, [] => []
  | n, skip + 1, _ :: cs => replaceChars old new n skip cs
  | n, 0, c :: cs =>
    if n ≠ 0 ∧ old.isPrefixOf (c :: cs) then
      new ++ replaceChars old new (if n < 0 then n else n - 1) (old.length - 1) cs
    else c :: replaceChars old new n 0 cs

/-- Go `strings.Replace(s, old, new, n)` for a non-empty `old`: the first `n`
non-overlapping instances of `old` become `new`, all of them when `n < 0`. -/
def Replace (s old new : String) (n : Int) : String :=
  ⟨replaceChars old.data new.data n 0 s.data⟩

/-! ## Slice primitives (`api.go`) -/

/-- The field list asked for by the filesystem listing. -/
def filesystemFields : String :=
  "path,mountPoint,bytesAvailable,bytesUsed,sharedOverNfs,sharedOverSmb"

/-- GetFilesystemsSlice returns a slice of filesystems by parent filesystem with
specified limit and offset. -/
def GetFilesystemsSlice (p : Provider) (parent : String) (limit offset : Int) (log : Trace) :
    Except GoError (List Filesystem) × Trace :=
  if limit ≤ 0 ∨ limit ≥ nsFilesystemListLimit then
    (.error (.errorf ("GetFilesystemsSlice(): parameter 'limit' must be greater that 0 and less than "
      ++ toString nsFilesystemListLimit ++ ", got: " ++ toString limit)), log)
  else if offset < 0 then
    (.error (.errorf ("GetFilesystemsSlice(): parameter 'offset' must be greater or equal to 0, got: "
      ++ toString offset)), log)
  else
    let uri := BuildURI "storage/filesystems"
      [("parent", .str parent),
       ("limit", .int (limit + 1)), -- the result includes parent itself
       ("offset", .int offset),
       ("fields", .str filesystemFields)]
    let r := p.sendRequestWithStruct .GET uri .nil log
    match r.1.err with
    | some err => (.error err, r.2)
    | none =>
      (.ok (r.1.body.asStorageFilesystems.Data.foldl
        (fun filesystems fs => if fs.Path ≠ parent then filesystems ++ [fs] else filesystems) []),
       r.2)

/-- GetVolumesSlice returns a slice of volumes by parent volumeGroup with specified
limit and offset. -/
def GetVolumesSlice (p : Provider) (parent : String) (limit offset : Int) (log : Trace) :
    Except GoError (List Volume) × Trace :=
  if limit ≤ 0 ∨ limit ≥ nsFilesystemListLimit then
    (.error (.errorf ("GetVolumesSlice(): parameter 'limit' must be greater that 0 and less than "
      ++ toString nsFilesystemListLimit ++ ", got: " ++ toString limit)), log)
  else if offset < 0 then
    (.error (.errorf ("GetVolumesSlice(): parameter 'offset' must be greater or equal to 0, got: "
      ++ toString offset)), log)
  else
    let uri := BuildURI "storage/volumes"
      [("parent", .str parent),
       ("limit", .int limit),
       ("offset", .int offset)]
    let r := p.sendRequestWithStruct .GET uri .nil log
    match r.1.err with
    | some err => (.error err, r.2)
    | none =>
      (.ok (r.1.body.asStorageVolumes.Data.foldl (fun volumes fs => volumes ++ [fs]) []), r.2)

/-- GetLunMappingsSlice returns a slice of lunMappings with specified limit and offset. -/
def GetLunMappingsSlice (p : Provider) (limit offset : Int) (log : Trace) :
    Except GoError (List LunMapping) × Trace :=
  if limit ≤ 0 ∨ limit ≥ nsFilesystemListLimit then
    (.error (.errorf ("GetLunMappingsSlice(): parameter 'limit' must be greater that 0 and less than "
      ++ toString nsFilesystemListLimit ++ ", got: " ++ toString limit)), log)
  else if offset < 0 then
    (.error (.errorf ("GetLunMappingsSlice(): parameter 'offset' must be greater or equal to 0, got: "
      ++ toString offset)), log)
  else
    let uri := BuildURI "san/lunMappings"
      [("limit", .int limit),
       ("offset", .int offset)]
    let r := p.sendRequestWithStruct .GET uri .nil log
    match r.1.err with
    | some err => (.error err, r.2)
    | none =>
      (.ok (r.1.body.asLunMappings.Data.foldl (fun lunMappings fs => lunMappings ++ [fs]) []), r.2)

/-- GetLogicalUnitsSlice returns a slice of logicalUnits with specified limit and offset. -/
def GetLogicalUnitsSlice (p : Provider) (limit offset : Int) (log : Trace) :
    Except GoError (List LogicalUnit) × Trace :=
  if limit ≤ 0 ∨ limit ≥ nsFilesystemListLimit then
    (.error (.errorf ("GetLogicalUnitsSlice(): parameter 'limit' must be greater that 0 and less than "
      ++ toString nsFilesystemListLimit ++ ", got: " ++ toString limit)), log)
  else if offset < 0 then
    (.error (.errorf ("GetLogicalUnitsSlice(): parameter 'offset' must be greater or equal to 0, got: "
      ++ toString offset)), log)
  else
    let uri := BuildURI "san/logicalUnits"
      [("limit", .int limit),
       ("offset", .int offset)]
    let r := p.sendRequestWithStruct .GET uri .nil log
    match r.1.err with
    | some err => (.error err, r.2)
    | none =>
      (.ok (r.1.body.asSanLogicalUnits.Data.foldl (fun logicalUnits fs => logicalUnits ++ [fs]) []),
       r.2)

/-! ## Full enumeration (`api.go`) -/

/-- The `for lastResultCount >= nsFilesystemListLimit-1` loop of `GetVolumes`, from the
state `(volumes, offset, lastResultCount)`. -/
def GetVolumes.loop (p : Provider) (parent : String) :
    Nat → List Volume → Int → Int → Trace → Option (Except GoError (List Volume)) × Trace
  | 0, volumes, _, lastResultCount, log =>
    if lastResultCount ≥ nsFilesystemListLimit - 1 then (none, log) else (some (.ok volumes), log)
  | fuel + 1, volumes, offset, lastResultCount, log =>
    if lastResultCount ≥ nsFilesystemListLimit - 1 then
      match GetVolumesSlice p parent (nsFilesystemListLimit - 1) offset log with
      | (.error err, log1) => (some (.error err), log1)
      | (.ok volumesSlice, log1) =>
        GetVolumes.loop p parent fuel
          (volumesSlice.foldl (fun volumes vol => volumes ++ [vol]) volumes)
          (offset + volumesSlice.length) volumesSlice.length log1
    else (some (.ok volumes), log)

/-- GetVolumes returns all NexentaStor volumes by parent volumeGroup. -/
def GetVolumes (p : Provider) (parent : String) (fuel : Nat) (log : Trace) :
    Option (Except GoError (List Volume)) × Trace :=
  GetVolumes.loop p parent fuel [] 0 nsFilesystemListLimit log

/-- The `for lastResultCount >= nsFilesystemListLimit-1` loop of `GetFilesystems`. -/
def GetFilesystems.loop (p : Provider) (parent : String) :
    Nat → List Filesystem → Int → Int → Trace → Option (Except GoError (List Filesystem)) × Trace
  | 0, filesystems, _, lastResultCount, log =>
    if lastResultCount ≥ nsFilesystemListLimit - 1 then (none, log)
    else (some (.ok filesystems), log)
  | fuel + 1, filesystems, offset, lastResultCount, log =>
    if lastResultCount ≥ nsFilesystemListLimit - 1 then
      match GetFilesystemsSlice p parent (nsFilesystemListLimit - 1) offset log with
      | (.error err, log1) => (some (.error err), log1)
      | (.ok filesystemsSlice, log1) =>
        GetFilesystems.loop p parent fuel
          (filesystemsSlice.foldl (fun filesystems fs => filesystems ++ [fs]) filesystems)
          (offset + filesystemsSlice.length) filesystemsSlice.length log1
    else (some (.ok filesystems), log)

/-- GetFilesystems returns all NexentaStor filesystems by parent filesystem. -/
def GetFilesystems (p : Provider) (parent : String) (fuel : Nat) (log : Trace) :
    Option (Except GoError (List Filesystem)) × Trace :=
  GetFilesystems.loop p parent fuel [] 1 nsFilesystemListLimit log

/-! ## Resumable windowed enumeration (`api.go`) -/

/-- The `for _, fs := range volumesSlice` loop of `GetVolumesWithStartingToken`, on the
state `(volumes, nextToken, startingTokenFound)`; the `break` leaves the rest of the
slice unread. -/
def GetVolumesWithStartingToken.scan (startingToken : String) (limit : Int) :
    List Volume → List Volume × String × Bool → List Volume × String × Bool
  | [], st => st
  | fs :: rest, (volumes, nextToken, startingTokenFound) =>
    if startingTokenFound then
      if ((volumes ++ [fs]).length : Int) = limit then
        (volumes ++ [fs], fs.Path, startingTokenFound)
      else
        GetVolumesWithStartingToken.scan startingToken limit rest
          (volumes ++ [fs], nextToken, startingTokenFound)
    else if fs.Path = startingToken then
      GetVolumesWithStartingToken.scan startingToken limit rest (volumes, nextToken, true)
    else
      GetVolumesWithStartingToken.scan startingToken limit rest
        (volumes, nextToken, startingTokenFound)

/-- The `for (noLimit || len(volumes) < limit) && lastResultCount >= nsFilesystemListLimit-1`
loop of `GetVolumesWithStartingToken`. -/
def GetVolumesWithStartingToken.loop (p : Provider) (parent startingToken : String) (limit : Int) :
    Nat → List Volume × String × Bool → Int → Int → Trace →
      Option (Except GoError (List Volume × String)) × Trace
  | 0, st, _, lastResultCount, log =>
    if (limit = 0 ∨ (st.1.length : Int) < limit) ∧ lastResultCount ≥ nsFilesystemListLimit - 1 then
      (none, log)
    else (some (.ok (st.1, st.2.1)), log)
  | fuel + 1, st, offset, lastResultCount, log =>
    if (limit = 0 ∨ (st.1.length : Int) < limit) ∧ lastResultCount ≥ nsFilesystemListLimit - 1 then
      match GetVolumesSlice p parent (nsFilesystemListLimit - 1) offset log with
      | (.error err, log1) => (some (.error err), log1)
      | (.ok volumesSlice, log1) =>
        GetVolumesWithStartingToken.loop p parent startingToken limit fuel
          (GetVolumesWithStartingToken.scan startingToken limit volumesSlice st)
          (offset + volumesSlice.length) volumesSlice.length log1
    else (some (.ok (st.1, st.2.1)), log)

/-- GetVolumesWithStartingToken returns volumes by parent volumeGroup after specified
starting token; the result is `(volumes, nextToken)`. -/
def GetVolumesWithStartingToken (p : Provider) (parent startingToken : String) (limit : Int)
    (fuel : Nat) (log : Trace) : Option (Except GoError (List Volume × String)) × Trace :=
  GetVolumesWithStartingToken.loop p parent startingToken limit fuel
    ([], "", decide (startingToken = "")) 0 nsFilesystemListLimit log

/-- The `for _, fs := range filesystemsSlice` loop of `GetFilesystemsWithStartingToken`. -/
def GetFilesystemsWithStartingToken.scan (startingToken : String) (limit : Int) :
    List Filesystem → List Filesystem × String × Bool → List Filesystem × String × Bool
  | [], st => st
  | fs :: rest, (filesystems, nextToken, startingTokenFound) =>
    if startingTokenFound then
      if ((filesystems ++ [fs]).length : Int) = limit then
        (filesystems ++ [fs], fs.Path, startingTokenFound)
      else
        GetFilesystemsWithStartingToken.scan startingToken limit rest
          (filesystems ++ [fs], nextToken, startingTokenFound)
    else if fs.Path = startingToken then
      GetFilesystemsWithStartingToken.scan startingToken limit rest (filesystems, nextToken, true)
    else
      GetFilesystemsWithStartingToken.scan startingToken limit rest
        (filesystems, nextToken, startingTokenFound)

/-- The outer `for` loop of `GetFilesystemsWithStartingToken`. -/
def GetFilesystemsWithStartingToken.loop (p : Provider) (parent startingToken : String)
    (limit : Int) :
    Nat → List Filesystem × String × Bool → Int → Int → Trace →
      Option (Except GoError (List Filesystem × String)) × Trace
  | 0, st, _, lastResultCount, log =>
    if (limit = 0 ∨ (st.1.length : Int) < limit) ∧ lastResultCount ≥ nsFilesystemListLimit - 1 then
      (none, log)
    else (some (.ok (st.1, st.2.1)), log)
  | fuel + 1, st, offset, lastResultCount, log =>
    if (limit = 0 ∨ (st.1.length : Int) < limit) ∧ lastResultCount ≥ nsFilesystemListLimit - 1 then
      match GetFilesystemsSlice p parent (nsFilesystemListLimit - 1) offset log with
      | (.error err, log1) => (some (.error err), log1)
      | (.ok filesystemsSlice, log1) =>
        GetFilesystemsWithStartingToken.loop p parent startingToken limit fuel
          (GetFilesystemsWithStartingToken.scan startingToken limit filesystemsSlice st)
          (offset + filesystemsSlice.length) filesystemsSlice.length log1
    else (some (.ok (st.1, st.2.1)), log)

/-- GetFilesystemsWithStartingToken returns filesystems by parent filesystem after
specified starting token; the result is `(filesystems, nextToken)`. -/
def GetFilesystemsWithStartingToken (p : Provider) (parent startingToken : String) (limit : Int)
    (fuel : Nat) (log : Trace) : Option (Except GoError (List Filesystem × String)) × Trace :=
  GetFilesystemsWithStartingToken.loop p parent startingToken limit fuel
    ([], "", decide (startingToken = "")) 1 nsFilesystemListLimit log

/-! ## Filesystems, snapshots and volumes (`api.go`) -/

/-- A Go call that returns its results, or faults at run time. -/
inductive Outcome (α : Type) where
  | returned (results : α)
  | panicked (reason : String)

/-- GetFilesystem returns NexentaStor filesystem by its path; the result is
`(filesystem, err)`. -/
def GetFilesystem (p : Provider) (path : String) (log : Trace) :
    (Filesystem × Option GoError) × Trace :=
  let filesystem : Filesystem := ⟨"", "", false, false, 0, 0⟩
  if path = "" then ((filesystem, some (.errorf "Filesystem path is empty")), log)
  else
    let uri := BuildURI "storage/filesystems"
      [("path", .str path),
       ("fields", .str filesystemFields)]
    let r := p.sendRequestWithStruct .GET uri .nil log
    match r.1.err with
    | some err => ((filesystem, some err), r.2)
    | none =>
      match r.1.body.asStorageFilesystems.Data with
      | [] => ((filesystem, some (.nef "ENOENT" ("Filesystem '" ++ path ++ "' not found"))), r.2)
      | first :: _ => ((first, none), r.2)

/-- CreateFilesystem creates filesystem by path. -/
def CreateFilesystem (p : Provider) (params : CreateFilesystemParams) (log : Trace) :
    Option GoError × Trace :=
  if params.Path = "" then
    (some (.errorf "Parameter 'CreateFilesystemParams.Path' is required"), log)
  else p.sendRequest .POST (URI.ofString "storage/filesystems") (.createFilesystem params) log

/-- UpdateFilesystem updates filesystem by path. -/
def UpdateFilesystem (p : Provider) (path : String) (params : UpdateFilesystemParams)
    (log : Trace) : Option GoError × Trace :=
  if path = "" then (some (.errorf "Parameter 'path' is required"), log)
  else
    let uri := URI.ofString ("storage/filesystems/" ++ PathEscape path)
    p.sendRequest .PUT uri (.updateFilesystem params) log

/-- The plain destroy request of a filesystem. -/
def destroyFilesystem (p : Provider) (path : String) (destroySnapshots : Bool) (log : Trace) :
    Option GoError × Trace :=
  if path = "" then (some (.errorf "Filesystem path is required"), log)
  else
    let uri := BuildURI ("storage/filesystems/" ++ PathEscape path)
      [("force", .str "true"),
       ("snapshots", .str (FormatBool destroySnapshots))]
    p.sendRequest .DELETE uri .nil log

/-- PromoteFilesystem promotes a cloned filesystem to be no longer dependent on its
original snapshot. -/
def PromoteFilesystem (p : Provider) (path : String) (log : Trace) : Option GoError × Trace :=
  if path = "" then (some (.errorf "Filesystem path is required"), log)
  else
    let uri := URI.ofString ("storage/filesystems/" ++ PathEscape path ++ "/promote")
    p.sendRequest .POST uri .nil log

/-- PromoteVolume promotes a cloned volume to be no longer dependent on its original
snapshot. -/
def PromoteVolume (p : Provider) (path : String) (log : Trace) : Option GoError × Trace :=
  if path = "" then (some (.errorf "Volume path is required"), log)
  else
    let uri := URI.ofString ("storage/volumes/" ++ PathEscape path ++ "/promote")
    p.sendRequest .POST uri .nil log

/-- GetSnapshot returns snapshot by its path; the result is `(snapshot, err)`. -/
def GetSnapshot (p : Provider) (path : String) (log : Trace) :
    (Snapshot × Option GoError) × Trace :=
  let snapshot : Snapshot := ⟨"", "", "", [], "", ""⟩
  if path = "" then ((snapshot, some (.errorf "Snapshot path is empty")), log)
  else
    let uri := BuildURI ("storage/snapshots/" ++ PathEscape path)
      [("fields", .str "path,name,parent,creationTime,clones,creationTxg")]
    let r := p.sendRequestWithStruct .GET uri .nil log
    ((r.1.body.asSnapshot, r.1.err), r.2)

/-- GetSnapshots returns snapshots by volume path. -/
def GetSnapshots (p : Provider) (volumePath : String) (recursive : Bool) (log : Trace) :
    Except GoError (List Snapshot) × Trace :=
  if volumePath = "" then (.error (.errorf "Snapshots volume path is empty"), log)
  else
    let uri := BuildURI "storage/snapshots"
      [("parent", .str volumePath),
       ("fields", .str "path,name,parent,creationTime"),
       ("recursive", .str (FormatBool recursive))]
    let r := p.sendRequestWithStruct .GET uri .nil log
    match r.1.err with
    | some err => (.error err, r.2)
    | none => (.ok r.1.body.asStorageSnapshots.Data, r.2)

/-- DestroySnapshot destroys snapshot by path. -/
def DestroySnapshot (p : Provider) (path : String) (log : Trace) : Option GoError × Trace :=
  if path = "" then (some (.errorf "Snapshot path is required"), log)
  else
    let uri := URI.ofString ("storage/snapshots/" ++ PathEscape path)
    p.sendRequest .DELETE uri .nil log

/-- CloneSnapshot clones snapshot to FS. -/
def CloneSnapshot (p : Provider) (path : String) (params : CloneSnapshotParams) (log : Trace) :
    Option GoError × Trace :=
  if path = "" then (some (.errorf "Snapshot path is required"), log)
  else if params.TargetPath = "" then
    (some (.errorf "Parameter 'CloneSnapshotParams.TargetPath' is required"), log)
  else
    let uri := URI.ofString ("storage/snapshots/" ++ PathEscape path ++ "/clone")
    p.sendRequest .POST uri (.cloneSnapshot params) log

/-- How one round of a promotion loop ends: with `return nil`, with `break`, or by going
on to the next round (`continue`, or the end of the loop body); the last two carry the
value of `mostRecentError`. -/
inductive Round where
  | returnedNil
  | broke (mostRecentError : Option GoError)
  | continued (mostRecentError : Option GoError)

/-- How a promotion loop ends: with `return nil` from inside, or by leaving the loop with
some value of `mostRecentError`. -/
inductive LoopExit where
  | returnedNil
  | ended (mostRecentError : Option GoError)

/-- The `for _, s := range snapshots` loop of `DestroyFilesystem`, from the state
`(maxCreationTxg, mostRecentClone)`; the result is
`(mostRecentError, maxCreationTxg, mostRecentClone)`. -/
def DestroyFilesystem.scanSnapshots (p : Provider) :
    List Snapshot → Int × String → Trace → (Option GoError × Int × String) × Trace
  | [], (maxCreationTxg, mostRecentClone), log => ((none, maxCreationTxg, mostRecentClone), log)
  | s :: rest, (maxCreationTxg, mostRecentClone), log =>
    -- to get "clones" and "creationTxg" fields that are not presented in the list response
    match GetSnapshot p s.Path log with
    | ((_, some err), log1) =>
      ((some (.errorf ("failed to get '" ++ s.Path ++ "' snapshost's info: " ++ err.Error)),
        maxCreationTxg, mostRecentClone), log1)
    | ((snapshot, none), log1) =>
      match Atoi snapshot.CreationTxg with
      | .error err =>
        ((some (.errorf ("snapshot '" ++ s.Path ++ "': failed to convert 'creationTxg' value '"
            ++ snapshot.CreationTxg ++ "' to integer: " ++ err.Error)),
          maxCreationTxg, mostRecentClone), log1)
      | .ok creationTxg =>
        if snapshot.Clones.length > 0 ∧ creationTxg > maxCreationTxg then
          DestroyFilesystem.scanSnapshots p rest (creationTxg, snapshot.Clones.headD "") log1
        else DestroyFilesystem.scanSnapshots p rest (maxCreationTxg, mostRecentClone) log1

/-- One round of the promotion loop of `DestroyFilesystem`. -/
def DestroyFilesystem.round (p : Provider) (path : String) (params : DestroyFilesystemParams)
    (log : Trace) : Round × Trace :=
  match GetSnapshots p path true log with
  | (.error err, log1) =>
    (.broke (some (.errorf ("failed to get snapshot list: " ++ err.Error))), log1)
  | (.ok snapshots, log1) =>
    match DestroyFilesystem.scanSnapshots p snapshots (0, "") log1 with
    | ((some mostRecentError, _, _), log2) =>
      -- Failed to determine the most recent clone.
      (.continued (some mostRecentError), log2)
    | ((none, _, mostRecentClone), log2) =>
      match (if mostRecentClone ≠ "" then PromoteFilesystem p mostRecentClone log2
             else (none, log2)) with
      | (some err, log3) =>
        (.continued (some (.errorf ("failed to promote clone '" ++ mostRecentClone ++ "': "
          ++ err.Error))), log3)
      | (none, log3) =>
        match destroyFilesystem p path params.DestroySnapshots log3 with
        | (none, log4) => (.returnedNil, log4)
        | (some mostRecentError, log4) =>
          -- if EEXIST code - filesystem still has dependent clones
          if !IsAlreadyExistNefError (some mostRecentError) then
            (.broke (some mostRecentError), log4)
          else (.continued (some mostRecentError), log4)

/-- The loop `for i := 0; i < maxAttemptCount; i++` of `DestroyFilesystem`, with
`remaining = maxAttemptCount - i` rounds still allowed and the current value of
`mostRecentError`. -/
def DestroyFilesystem.loop (p : Provider) (path : String) (params : DestroyFilesystemParams) :
    Nat → Option GoError → Trace → LoopExit × Trace
  | 0, mostRecentError, log => (.ended mostRecentError, log)
  | remaining + 1, _, log =>
    match DestroyFilesystem.round p path params log with
    | (.returnedNil, log1) => (.returnedNil, log1)
    | (.broke mostRecentError, log1) => (.ended mostRecentError, log1)
    | (.continued mostRecentError, log1) =>
      DestroyFilesystem.loop p path params remaining mostRecentError log1

/-- DestroyFilesystem destroys filesystem on NS, may destroy snapshots and promote clones
(see DestroyFilesystemParams). -/
def DestroyFilesystem (p : Provider) (path : String) (params : DestroyFilesystemParams)
    (log : Trace) : Option GoError × Trace :=
  match destroyFilesystem p path params.DestroySnapshots log with
  | (none, log1) => (none, log1)
  | (some err, log1) =>
    if !params.PromoteMostRecentCloneIfExists || !IsAlreadyExistNefError (some err) then
      (some err, log1)
    else
      let maxAttemptCount := 3
      match DestroyFilesystem.loop p path params maxAttemptCount none log1 with
      | (.returnedNil, log2) => (none, log2)
      | (.ended mostRecentError, log2) =>
        -- if not a NefError, wrap it into an explanation
        if !IsNefError mostRecentError then
          (some (.errorf ("Failed to delete filesystem '" ++ path ++ "': "
            ++ sprintError mostRecentError)), log2)
        else (mostRecentError, log2)

/-- CreateNfsShare creates NFS share on specified filesystem. -/
def CreateNfsShare (p : Provider) (params : CreateNfsShareParams) (log : Trace) :
    Option GoError × Trace :=
  if params.Filesystem = "" then
    (some (.errorf "CreateNfsShareParams.Filesystem is required"), log)
  else
    let defaultEtype := "fqdn"
    let params : CreateNfsShareParams :=
      if params.ReadWriteList.length = 0 then
        if params.ReadOnlyList.length = 0 then
          { params with
            ReadOnlyList := [⟨defaultEtype, "none", 0⟩]
            ReadWriteList := [⟨defaultEtype, "*", 0⟩] }
        else { params with ReadWriteList := [⟨defaultEtype, "none", 0⟩] }
      else if params.ReadOnlyList.length = 0 then
        { params with ReadOnlyList := [⟨defaultEtype, "none", 0⟩] }
      else params
    let data : nefNasNfsRequest :=
      { Filesystem := params.Filesystem
        Anon := "root"
        SecurityContexts :=
          [{ SecurityModes := ["sys"]
             ReadWriteList := params.ReadWriteList
             ReadOnlyList := params.ReadOnlyList }] }
    p.sendRequest .POST (URI.ofString "nas/nfs") (.nasNfs data) log

/-- IsJobDone checks if job is done by jobId; the result is `(done, err)`. -/
def IsJobDone (p : Provider) (jobID : String) (log : Trace) : (Bool × Option GoError) × Trace :=
  let uri := URI.ofString ("jobStatus/" ++ jobID)
  let r := p.RestClientSend .GET uri .nil log
  match r.1.err with
  | some err => ((false, some err), r.2) -- request failed
  | none =>
    if r.1.statusCode = 200 ∨ r.1.statusCode = 201 then ((true, none), r.2) -- job is completed
    else if r.1.statusCode = 202 then ((false, none), r.2) -- job is in progress
    else
      -- job is failed
      match p.parseNefError r.1.bodyBytes "Job was finished with error" with
      | some nefError => ((false, some (.nef nefError.Code nefError.Err)), r.2)
      | none =>
        ((false, some (.errorf ("Job request returned " ++ toString r.1.statusCode
          ++ " code, but response body doesn't contain explanation: " ++ r.1.bodyBytes))), r.2)

/-- GetVolume - returns NexentaStor volume properties; the result is `(volume, err)`. -/
def GetVolume (p : Provider) (path : String) (log : Trace) :
    Outcome (Volume × Option GoError) × Trace :=
  let volume : Volume := ⟨"", 0, 0, 0⟩
  if path = "" then (.returned (volume, some (.errorf "Volume path is empty")), log)
  else
    let uri := BuildURI "storage/volumes" [("path", .str path)]
    let r := p.sendRequestWithStruct .GET uri .nil log
    match r.1.err with
    | some err =>
      match r.1.body.asStorageVolumes.Data with
      | [] => (.panicked "index out of range [0] with length 0", r.2)
      | first :: _ => (.returned (first, some err), r.2)
    | none =>
      match r.1.body.asStorageVolumes.Data with
      | [] =>
        (.returned (volume, some (.nef "ENOENT" ("VolumeGroup '" ++ path ++ "' not found"))), r.2)
      | first :: _ => (.returned (first, none), r.2)

/-- The `%+v` rendering of `CreateVolumeParams`. -/
def CreateVolumeParams.sprint (params : CreateVolumeParams) : String :=
  "\x7bPath:" ++ params.Path ++ " VolumeSize:" ++ toString params.VolumeSize
    ++ " SparseVolume:" ++ FormatBool params.SparseVolume ++ "\x7d"

/-- CreateVolume creates volume by path and size. -/
def CreateVolume (p : Provider) (params : CreateVolumeParams) (log : Trace) :
    Option GoError × Trace :=
  if params.Path = "" then
    (some (.errorf ("Parameters 'Volume.Path' is required, received " ++ params.sprint)), log)
  else p.sendRequest .POST (URI.ofString "storage/volumes") (.createVolume params) log

/-- UpdateVolume updates volume by path. -/
def UpdateVolume (p : Provider) (path : String) (params : UpdateVolumeParams) (log : Trace) :
    Option GoError × Trace :=
  if path = "" then (some (.errorf "Parameter 'path' is required"), log)
  else
    let uri := URI.ofString ("storage/volumes/" ++ PathEscape path)
    p.sendRequest .PUT uri (.updateVolume params) log

/-- The plain destroy request of a volume. -/
def destroyVolume (p : Provider) (path : String) (destroySnapshots : Bool) (log : Trace) :
    Option GoError × Trace :=
  if path = "" then (some (.errorf "Filesystem path is required"), log)
  else
    let uri := BuildURI ("storage/volumes/" ++ PathEscape path)
      [("snapshots", .str (FormatBool destroySnapshots))]
    p.sendRequest .DELETE uri .nil log

/-- The `for _, s := range snapshots` loop of `DestroyVolume`. -/
def DestroyVolume.scanSnapshots (p : Provider) :
    List Snapshot → Int × String → Trace → (Option GoError × Int × String) × Trace
  | [], (maxCreationTxg, mostRecentClone), log => ((none, maxCreationTxg, mostRecentClone), log)
  | s :: rest, (maxCreationTxg, mostRecentClone), log =>
    match GetSnapshot p s.Path log with
    | ((_, some err), log1) =>
      ((some (.errorf ("failed to get '" ++ s.Path ++ "' snapshost's info: " ++ err.Error)),
        maxCreationTxg, mostRecentClone), log1)
    | ((snapshot, none), log1) =>
      match Atoi snapshot.CreationTxg with
      | .error err =>
        ((some (.errorf ("snapshot '" ++ s.Path ++ "': failed to convert 'creationTxg' value '"
            ++ snapshot.CreationTxg ++ "' to integer: " ++ err.Error)),
          maxCreationTxg, mostRecentClone), log1)
      | .ok creationTxg =>
        if snapshot.Clones.length > 0 ∧ creationTxg > maxCreationTxg then
          DestroyVolume.scanSnapshots p rest (creationTxg, snapshot.Clones.headD "") log1
        else DestroyVolume.scanSnapshots p rest (maxCreationTxg, mostRecentClone) log1

/-- One round of the promotion loop of `DestroyVolume`. -/
def DestroyVolume.round (p : Provider) (path : String) (params : DestroyVolumeParams)
    (log : Trace) : Round × Trace :=
  match GetSnapshots p path true log with
  | (.error err, log1) =>
    (.broke (some (.errorf ("failed to get snapshot list: " ++ err.Error))), log1)
  | (.ok snapshots, log1) =>
    match DestroyVolume.scanSnapshots p snapshots (0, "") log1 with
    | ((some mostRecentError, _, _), log2) => (.continued (some mostRecentError), log2)
    | ((none, _, mostRecentClone), log2) =>
      match (if mostRecentClone ≠ "" then PromoteVolume p mostRecentClone log2
             else (none, log2)) with
      | (some err, log3) =>
        (.continued (some (.errorf ("failed to promote clone '" ++ mostRecentClone ++ "': "
          ++ err.Error))), log3)
      | (none, log3) =>
        match destroyVolume p path params.DestroySnapshots log3 with
        | (none, log4) => (.returnedNil, log4)
        | (some mostRecentError, log4) =>
          -- if EEXIST code - volume still has dependent clones
          if !IsAlreadyExistNefError (some mostRecentError) then
            (.broke (some mostRecentError), log4)
          else (.continued (some mostRecentError), log4)

/-- The loop `for i := 0; i < maxAttemptCount; i++` of `DestroyVolume`. -/
def DestroyVolume.loop (p : Provider) (path : String) (params : DestroyVolumeParams) :
    Nat → Option GoError → Trace → LoopExit × Trace
  | 0, mostRecentError, log => (.ended mostRecentError, log)
  | remaining + 1, _, log =>
    match DestroyVolume.round p path params log with
    | (.returnedNil, log1) => (.returnedNil, log1)
    | (.broke mostRecentError, log1) => (.ended mostRecentError, log1)
    | (.continued mostRecentError, log1) =>
      DestroyVolume.loop p path params remaining mostRecentError log1

/-- DestroyVolume destroys a volume, may destroy snapshots and promote clones. -/
def DestroyVolume (p : Provider) (path : String) (params : DestroyVolumeParams) (log : Trace) :
    Option GoError × Trace :=
  match destroyVolume p path params.DestroySnapshots log with
  | (none, log1) => (none, log1)
  | (some err, log1) =>
    if !params.PromoteMostRecentCloneIfExists || !IsAlreadyExistNefError (some err) then
      (some err, log1)
    else
      let maxAttemptCount := 3
      match DestroyVolume.loop p path params maxAttemptCount none log1 with
      | (.returnedNil, log2) => (none, log2)
      | (.ended mostRecentError, log2) =>
        -- if not a NefError, wrap it into an explanation
        if !IsNefError mostRecentError then
          (some (.errorf ("Failed to delete volume '" ++ path ++ "': "
            ++ sprintError mostRecentError)), log2)
        else (mostRecentError, log2)

/-- The `%+v` rendering of a list of strings. -/
def sprintStrings (xs : List String) : String := "[" ++ " ".intercalate xs ++ "]"

/-- The `%+v` rendering of `Portal`. -/
def Portal.sprint (portal : Portal) : String :=
  "\x7bAddress:" ++ portal.Address ++ " Port:" ++ toString portal.Port ++ "\x7d"

/-- The `%+v` rendering of `CreateISCSITargetParams`. -/
def CreateISCSITargetParams.sprint (params : CreateISCSITargetParams) : String :=
  "\x7bName:" ++ params.Name ++ " Portals:" ++ sprintStrings (params.Portals.map Portal.sprint)
    ++ "\x7d"

/-- CreateISCSITarget - create new iSCSI target on NexentaStor. -/
def CreateISCSITarget (p : Provider) (params : CreateISCSITargetParams) (log : Trace) :
    Option GoError × Trace :=
  if params.Name = "" then
    (some (.errorf ("Parameters 'Name' and 'Portal' are required, received: " ++ params.sprint)),
     log)
  else
    let r := p.sendRequest .POST (URI.ofString "san/iscsi/targets") (.createISCSITarget params) log
    if !IsAlreadyExistNefError r.1 then (r.1, r.2) else (none, r.2)

/-- The `%+v` rendering of `CreateLunMappingParams`. -/
def CreateLunMappingParams.sprint (params : CreateLunMappingParams) : String :=
  "\x7bHostGroup:" ++ params.HostGroup ++ " Volume:" ++ params.Volume ++ " TargetGroup:"
    ++ params.TargetGroup ++ "\x7d"

/-- CreateLunMapping - creates lun for given volume. -/
def CreateLunMapping (p : Provider) (params : CreateLunMappingParams) (log : Trace) :
    Option GoError × Trace :=
  if params.HostGroup = "" ∨ params.Volume = "" ∨ params.TargetGroup = "" then
    (some (.errorf ("Parameters 'HostGroup', 'Target' and 'TargetGroup' are required, received: "
      ++ params.sprint)), log)
  else
    let r := p.sendRequest .POST (URI.ofString "san/lunMappings") (.createLunMapping params) log
    if !IsAlreadyExistNefError r.1 then (r.1, r.2) else (none, r.2)

/-- The `%+v` rendering of `CreateHostGroupParams`. -/
def CreateHostGroupParams.sprint (params : CreateHostGroupParams) : String :=
  "\x7bMembers:" ++ sprintStrings params.Members ++ " Name:" ++ params.Name ++ "\x7d"

/-- CreateHostGroup creates a hostGroup. -/
def CreateHostGroup (p : Provider) (params : CreateHostGroupParams) (log : Trace) :
    Option GoError × Trace :=
  if params.Name = "" ∨ params.Members.length = 0 then
    (some (.errorf ("HostGroup name and members cannot be empty, got " ++ params.sprint)), log)
  else
    let r := p.sendRequest .POST (URI.ofString "san/hostgroups") (.createHostGroup params) log
    if !IsAlreadyExistNefError r.1 then (r.1, r.2) else (none, r.2)

/-- GetDefaultSmbShareName - get default SMB share name (all slashes get replaced by
underscore). Converts '/pool/dataset/fs' to 'pool_dataset_fs'. -/
def Filesystem.GetDefaultSmbShareName (fs : Filesystem) : String :=
  Replace (TrimPrefix fs.Path "/") "/" "_" (-1)

/-! ## The walker, once for every record type

The four loops above are the same two loops over a slice primitive. The definitions
below state them once, over any record type with a path; each source function is shown
equal to its instance before anything is proved about it. -/

/-- Slice primitive at the page size the walker uses: offset and trace in, page and
trace out. -/
abbrev Fetch (α : Type) := Int → Trace → Except GoError (List α) × Trace

/-- The full-enumeration loop over a slice primitive. -/
def walkAll {α : Type} (fetch : Fetch α) :
    Nat → List α → Int → Int → Trace → Option (Except GoError (List α)) × Trace
  | 0, acc, _, lastResultCount, log =>
    if lastResultCount ≥ nsFilesystemListLimit - 1 then (none, log) else (some (.ok acc), log)
  | fuel + 1, acc, offset, lastResultCount, log =>
    if lastResultCount ≥ nsFilesystemListLimit - 1 then
      match fetch offset log with
      | (.error err, log1) => (some (.error err), log1)
      | (.ok slice, log1) =>
        walkAll fetch fuel (acc ++ slice) (offset + slice.length) slice.length log1
    else (some (.ok acc), log)

/-- The skip/collect pass over one slice. -/
def scanSlice {α : Type} (path : α → String) (startingToken : String) (limit : Int) :
    List α → List α × String × Bool → List α × String × Bool
  | [], st => st
  | fs :: rest, (acc, nextToken, found) =>
    if found then
      if ((acc ++ [fs]).length : Int) = limit then (acc ++ [fs], path fs, found)
      else scanSlice path startingToken limit rest (acc ++ [fs], nextToken, found)
    else if path fs = startingToken then scanSlice path startingToken limit rest (acc, nextToken, true)
    else scanSlice path startingToken limit rest (acc, nextToken, found)

/-- The windowed-enumeration loop over a slice primitive. -/
def walkToken {α : Type} (path : α → String) (fetch : Fetch α) (startingToken : String)
    (limit : Int) :
    Nat → List α × String × Bool → Int → Int → Trace →
      Option (Except GoError (List α × String)) × Trace
  | 0, st, _, lastResultCount, log =>
    if (limit = 0 ∨ (st.1.length : Int) < limit) ∧ lastResultCount ≥ nsFilesystemListLimit - 1 then
      (none, log)
    else (some (.ok (st.1, st.2.1)), log)
  | fuel + 1, st, offset, lastResultCount, log =>
    if (limit = 0 ∨ (st.1.length : Int) < limit) ∧ lastResultCount ≥ nsFilesystemListLimit - 1 then
      match fetch offset log with
      | (.error err, log1) => (some (.error err), log1)
      | (.ok slice, log1) =>
        walkToken path fetch startingToken limit fuel (scanSlice path startingToken limit slice st)
          (offset + slice.length) slice.length log1
    else (some (.ok (st.1, st.2.1)), log)

/-- The request `GetVolumesSlice` sends for an accepted `(limit, offset)`. -/
def volumesRequest (parent : String) (limit offset : Int) : Request :=
  ⟨.GET, BuildURI "storage/volumes"
    [("parent", .str parent), ("limit", .int limit), ("offset", .int offset)], .nil⟩

/-- A request for `limit` records of the filesystem listing of `parent` from `offset` on;
`GetFilesystemsSlice(parent, limit, offset)` sends `filesystemsRequest parent (limit + 1) offset`. -/
def filesystemsRequest (parent : String) (limit offset : Int) : Request :=
  ⟨.GET, BuildURI "storage/filesystems"
    [("parent", .str parent), ("limit", .int limit), ("offset", .int offset),
     ("fields", .str filesystemFields)], .nil⟩

/-- The appliance holds the volumes `all` under `parent` and answers every request for
`limit` records from `offset` on with the records at positions
`offset .. offset+limit-1`, whatever was requested before. -/
def ServesVolumes (p : Provider) (parent : String) (all : List Volume) : Prop :=
  ∀ (log : Trace) (limit offset : Int), 0 < limit → 0 ≤ offset →
    p.respond log (volumesRequest parent limit offset)
      = ⟨none, .storageVolumes ⟨(all.drop offset.toNat).take limit.toNat⟩⟩

/-- The appliance holds the filesystem listing `listing` for `parent` and answers every
request for `limit` records from `offset` on with the records at positions
`offset .. offset+limit-1`, whatever was requested before. -/
def ServesFilesystems (p : Provider) (parent : String) (listing : List Filesystem) : Prop :=
  ∀ (log : Trace) (limit offset : Int), 0 < limit → 0 ≤ offset →
    p.respond log (filesystemsRequest parent limit offset)
      = ⟨none, .storageFilesystems ⟨(listing.drop offset.toNat).take limit.toNat⟩⟩

/-- An appliance that holds the volumes `volumes` and the filesystem listing `listing` and
serves both by offset and limit; every other request fails. -/
def storageAppliance (volumes : List Volume) (listing : List Filesystem) : Provider where
  respond := fun _ req =>
    match req.uri.params with
    | [(_, _), (_, .int limit), (_, .int offset)] =>
      if req.uri.path = "storage/volumes" then
        ⟨none, .storageVolumes ⟨(volumes.drop offset.toNat).take limit.toNat⟩⟩
      else ⟨some (.errorf "not found"), .unset⟩
    | [(_, _), (_, .int limit), (_, .int offset), (_, _)] =>
      if req.uri.path = "storage/filesystems" then
        ⟨none, .storageFilesystems ⟨(listing.drop offset.toNat).take limit.toNat⟩⟩
      else ⟨some (.errorf "not found"), .unset⟩
    | _ => ⟨some (.errorf "not found"), .unset⟩

/-- Volume with the given path, the other fields zero. -/
def volumeAt (path : String) : Volume := ⟨path, 0, 0, 0⟩

/-- Filesystem with the given path, the other fields zero. -/
def filesystemAt (path : String) : Filesystem := ⟨path, "", false, false, 0, 0⟩

/-- Three volumes of the volume group `pool/vg`. -/
def sampleVolumes : List Volume :=
  [volumeAt "pool/vg/v1", volumeAt "pool/vg/v2", volumeAt "pool/vg/v3"]

/-- Five children of the filesystem `pool/fs`. -/
def sampleChildren : List Filesystem :=
  [filesystemAt "pool/fs/child-1", filesystemAt "pool/fs/child-2", filesystemAt "pool/fs/child-3",
   filesystemAt "pool/fs/child-4", filesystemAt "pool/fs/child-5"]

/-- The volumes `pool/vg/v0 .. pool/vg/v(n-1)`. -/
def volumesUpTo (n : Nat) : List Volume :=
  (List.range n).map (fun i => volumeAt ("pool/vg/v" ++ toString i))

/-- The children `pool/fs/child-1 .. pool/fs/child-n`, as the pagination test creates them. -/
def childrenUpTo (n : Nat) : List Filesystem :=
  (List.range n).map (fun i => filesystemAt ("pool/fs/child-" ++ toString (i + 1)))

/-- The appliance of the examples: the volumes of `pool/vg`, and `pool/fs` listed first
among its own children. -/
def sampleAppliance : Provider :=
  storageAppliance sampleVolumes (filesystemAt "pool/fs" :: sampleChildren)

/-- The window the spec describes: the records after the first one whose path is
`startingToken`, all records when `startingToken` is empty. -/
def windowAfter {α : Type} (path : α → String) (startingToken : String) (all : List α) : List α :=
  if startingToken = "" then all
  else (all.dropWhile (fun r => decide (path r ≠ startingToken))).drop 1

/-- The request `GetLunMappingsSlice` sends for an accepted `(limit, offset)`. -/
def lunMappingsRequest (limit offset : Int) : Request :=
  ⟨.GET, BuildURI "san/lunMappings" [("limit", .int limit), ("offset", .int offset)], .nil⟩

/-- The request `GetLogicalUnitsSlice` sends for an accepted `(limit, offset)`. -/
def logicalUnitsRequest (limit offset : Int) : Request :=
  ⟨.GET, BuildURI "san/logicalUnits" [("limit", .int limit), ("offset", .int offset)], .nil⟩

/-- The replies of the provider to the requests `sent`, sent one after the other after
the requests of `log`. -/
def repliesAlong (p : Provider) : Trace → List Request → List Reply
  | _, [] => []
  | log, r :: rest => p.respond log r :: repliesAlong p (log ++ [r]) rest

/-- The records of a filesystem response other than the parent, in response order. -/
def nonParentRecords (parent : String) (r : Reply) : List Filesystem :=
  r.body.asStorageFilesystems.Data.filter (fun fs => decide (fs.Path ≠ parent))

/-- The `nextToken` the spec describes for a returned list: the path of its last record
when `limit > 0` and the list has exactly `limit` records, the empty string otherwise. -/
def nextTokenOf {α : Type} (path : α → String) (limit : Int) (records : List α) : String :=
  if 0 < limit ∧ (records.length : Int) = limit then (records.getLast?.map path).getD "" else ""

/-! ## Requests and appliances of the destroy and lookup claims -/

/-- The request `destroyFilesystem` sends for a non-empty path. -/
def destroyFilesystemRequest (path : String) (destroySnapshots : Bool) : Request :=
  ⟨.DELETE, BuildURI ("storage/filesystems/" ++ PathEscape path)
    [("force", .str "true"), ("snapshots", .str (FormatBool destroySnapshots))], .nil⟩

/-- The request `PromoteFilesystem` sends for a non-empty path. -/
def promoteFilesystemRequest (path : String) : Request :=
  ⟨.POST, URI.ofString ("storage/filesystems/" ++ PathEscape path ++ "/promote"), .nil⟩

/-- The request `GetSnapshots` sends for a non-empty volume path. -/
def snapshotsRequest (volumePath : String) (recursive : Bool) : Request :=
  ⟨.GET, BuildURI "storage/snapshots"
    [("parent", .str volumePath), ("fields", .str "path,name,parent,creationTime"),
     ("recursive", .str (FormatBool recursive))], .nil⟩

/-- The request `GetSnapshot` sends for a non-empty path. -/
def snapshotRequest (path : String) : Request :=
  ⟨.GET, BuildURI ("storage/snapshots/" ++ PathEscape path)
    [("fields", .str "path,name,parent,creationTime,clones,creationTxg")], .nil⟩

/-- The request `GetFilesystem` sends for a non-empty path. -/
def filesystemRequest (path : String) : Request :=
  ⟨.GET, BuildURI "storage/filesystems"
    [("path", .str path), ("fields", .str filesystemFields)], .nil⟩

/-- The request `IsJobDone` sends. -/
def jobStatusRequest (jobID : String) : Request :=
  ⟨.GET, URI.ofString ("jobStatus/" ++ jobID), .nil⟩

/-- The error the spec describes for a job that is neither complete nor running: the
transport error, else the classified error parsed from the body, else a generic error
carrying the status code and the body. -/
def jobFailure (p : Provider) (reply : RawReply) : GoError :=
  match reply.err with
  | some err => err
  | none =>
    match p.parseNefError reply.bodyBytes "Job was finished with error" with
    | some nefError => .nef nefError.Code nefError.Err
    | none =>
      .errorf ("Job request returned " ++ toString reply.statusCode
        ++ " code, but response body doesn't contain explanation: " ++ reply.bodyBytes)

/-- The result the spec describes for an idempotent create: `nil` when the request
succeeded or failed with an already-exists error, the error of the request otherwise. -/
def idempotentCreateResult (err : Option GoError) : Option GoError :=
  match err with
  | none => none
  | some e => if IsAlreadyExistNefError (some e) then none else some e

/-- The share name the spec describes: the path without one leading slash, every
remaining slash replaced by an underscore. -/
def smbShareNameSpec (path : String) : String :=
  ⟨(match path.data with
    | '/' :: rest => rest
    | cs => cs).map (fun c => if c = '/' then '_' else c)⟩

/-- An appliance given by a table: the reply to each request it knows, whatever was sent
before; every other request is answered with a not-found error. -/
def tableAppliance (table : List (Request × Reply)) : Provider where
  respond := fun _ req =>
    (table.lookup req).getD ⟨some (.nef "ENOENT" "not found"), .unset⟩

/-- An appliance that answers every raw request with the given status code and body, and
classifies a body as an error with code "EFAILED" exactly when it is not empty. -/
def jobAppliance (statusCode : Int) (bodyBytes : String) : Provider where
  respond := fun _ _ => ⟨some (.errorf "unused"), .unset⟩
  Send := fun _ _ => ⟨statusCode, bodyBytes, none⟩
  parseNefError := fun body _ => if body = "" then none else some ⟨"EFAILED", body⟩

/-- What the promotion loop of `DestroyFilesystem` leaves in `mostRecentError` when a round
fails, by the step that failed last; `final` is the trace right after that step. An error
of the snapshot listing, of a detail fetch, of a `creationTxg` conversion or of a promotion
is replaced by a plain error naming the step; the error of the plain destroy is kept. -/
inductive LoopFailure (p : Provider) (path : String) (destroySnapshots : Bool) :
    Trace → Option GoError → Prop where
  | listing (log : Trace) (err : GoError) (final : Trace) :
      GetSnapshots p path true log = (.error err, final) →
      LoopFailure p path destroySnapshots final
        (some (.errorf ("failed to get snapshot list: " ++ err.Error)))
  | detail (log : Trace) (s snapshot : Snapshot) (err : GoError) (final : Trace) :
      GetSnapshot p s.Path log = ((snapshot, some err), final) →
      LoopFailure p path destroySnapshots final
        (some (.errorf ("failed to get '" ++ s.Path ++ "' snapshost's info: " ++ err.Error)))
  | conversion (log : Trace) (s snapshot : Snapshot) (err : GoError) (final : Trace) :
      GetSnapshot p s.Path log = ((snapshot, none), final) →
      Atoi snapshot.CreationTxg = .error err →
      LoopFailure p path destroySnapshots final
        (some (.errorf ("snapshot '" ++ s.Path ++ "': failed to convert 'creationTxg' value '"
          ++ snapshot.CreationTxg ++ "' to integer: " ++ err.Error)))
  | promotion (log : Trace) (clone : String) (err : GoError) (final : Trace) :
      PromoteFilesystem p clone log = (some err, final) →
      LoopFailure p path destroySnapshots final
        (some (.errorf ("failed to promote clone '" ++ clone ++ "': " ++ err.Error)))
  | destroy (log : Trace) (err : GoError) (final : Trace) :
      destroyFilesystem p path destroySnapshots log = (some err, final) →
      LoopFailure p path destroySnapshots final (some err)

/-- A snapshot listing request: a GET of `storage/snapshots`. -/
def isSnapshotListing (r : Request) : Bool :=
  r.method == .GET && r.uri.path == "storage/snapshots"

/-- A promotion request: the destroy functions send a POST only to promote a clone. -/
def isPromotion (r : Request) : Bool := r.method == .POST

/-- A plain destroy request: the destroy functions send a DELETE only to destroy their
target. -/
def isPlainDestroy (r : Request) : Bool := r.method == .DELETE

/-- The requests `sent` hold at most `listings` snapshot listings, `promotions` promotions
and `destroys` plain destroys. -/
def Tally (sent : List Request) (listings promotions destroys : Nat) : Prop :=
  sent.countP isSnapshotListing ≤ listings ∧ sent.countP isPromotion ≤ promotions ∧
    sent.countP isPlainDestroy ≤ destroys

/-- The appliance lists the snapshots `listed` for `path` and answers the detail fetch of
each of them with `detail` of its path, whatever was requested before. -/
def ServesSnapshots (p : Provider) (path : String) (listed : List Snapshot)
    (detail : String → Snapshot) : Prop :=
  (∀ log : Trace,
    p.respond log (snapshotsRequest path true) = ⟨none, .storageSnapshots ⟨listed⟩⟩) ∧
  ∀ s ∈ listed, s.Path ≠ "" ∧
    ∀ log : Trace, p.respond log (snapshotRequest s.Path) = ⟨none, .snapshot (detail s.Path)⟩

/-- The snapshot `best` of the listing has clones, and no snapshot of the listing that has
clones has a greater creation-transaction number. -/
def MostRecentWithClones (listed : List Snapshot) (detail : String → Snapshot)
    (txg : String → Int) (best : Snapshot) : Prop :=
  best ∈ listed ∧ (detail best.Path).Clones ≠ [] ∧
    ∀ s ∈ listed, (detail s.Path).Clones ≠ [] → txg s.Path ≤ txg best.Path

/-- The candidate `(maxCreationTxg, mostRecentClone)` after the snapshots of the list,
when every detail fetch succeeds with `detail` and every `creationTxg` converts to `txg`. -/
def selectClone (detail : String → Snapshot) (txg : String → Int) :
    List Snapshot → Int × String → Int × String
  | [], st => st
  | s :: rest, (maxCreationTxg, mostRecentClone) =>
    if (detail s.Path).Clones.length > 0 ∧ txg s.Path > maxCreationTxg then
      selectClone detail txg rest (txg s.Path, (detail s.Path).Clones.headD "")
    else selectClone detail txg rest (maxCreationTxg, mostRecentClone)

/-- The candidate `st` goes with the snapshots `seen`: it is the initial one when none of
them has clones, and otherwise that of a snapshot with clones whose creation-transaction
number no other snapshot with clones exceeds. -/
def SelectInv (detail : String → Snapshot) (txg : String → Int) (seen : List Snapshot)
    (st : Int × String) : Prop :=
  (st = (0, "") ∧ ∀ s ∈ seen, (detail s.Path).Clones = []) ∨
  ∃ s ∈ seen, (detail s.Path).Clones ≠ [] ∧
    st = (txg s.Path, (detail s.Path).Clones.headD "") ∧ 0 < txg s.Path ∧
    ∀ s1 ∈ seen, (detail s1.Path).Clones ≠ [] → txg s1.Path ≤ txg s.Path

/-- The requests of a round that lists the snapshots, fetches the detail of each and
promotes `clone`. -/
def promotionBlock (path : String) (listed : List Snapshot) (clone : String) : List Request :=
  snapshotsRequest path true :: listed.map (fun s => snapshotRequest s.Path)
    ++ [promoteFilesystemRequest clone]

/-- The creation-transaction numbers of the snapshots of the spec's example. -/
def snapshotTxg (path : String) : Int :=
  if path = "pool/fs@s1" then 1
  else if path = "pool/fs@s2" then 2
  else if path = "pool/fs@s3" then 3
  else 0

/-- The snapshots of the spec's example, as the listing returns them: without clones and
creation-transaction number. -/
def listedSnapshots : List Snapshot :=
  [⟨"pool/fs@s1", "s1", "pool/fs", [], "", ""⟩, ⟨"pool/fs@s2", "s2", "pool/fs", [], "", ""⟩,
   ⟨"pool/fs@s3", "s3", "pool/fs", [], "", ""⟩]

/-- The details of the snapshots of the spec's example: `s1 (txg=1, no clones)`,
`s2 (txg=2, clone=c1)`, `s3 (txg=3, clone=c2)`; any other path has no detail. -/
def snapshotDetail (path : String) : Snapshot :=
  if path = "pool/fs@s1" then ⟨"pool/fs@s1", "s1", "pool/fs", [], "1", ""⟩
  else if path = "pool/fs@s2" then ⟨"pool/fs@s2", "s2", "pool/fs", ["pool/c1"], "2", ""⟩
  else if path = "pool/fs@s3" then ⟨"pool/fs@s3", "s3", "pool/fs", ["pool/c2"], "3", ""⟩
  else ⟨"", "", "", [], "", ""⟩

/-- The replies of the example appliance that do not depend on what was sent before: the
snapshot listing of `pool/fs` and the details of its three snapshots. -/
def snapshotTable : List (Request × Reply) :=
  [(snapshotsRequest "pool/fs" true, ⟨none, .storageSnapshots ⟨listedSnapshots⟩⟩),
   (snapshotRequest "pool/fs@s1", ⟨none, .snapshot (snapshotDetail "pool/fs@s1")⟩),
   (snapshotRequest "pool/fs@s2", ⟨none, .snapshot (snapshotDetail "pool/fs@s2")⟩),
   (snapshotRequest "pool/fs@s3", ⟨none, .snapshot (snapshotDetail "pool/fs@s3")⟩)]

/-- The appliance of the spec's example: destroying `pool/fs` is refused with EEXIST until
the clone `pool/c2` has been promoted; promoting `pool/c2` succeeds. -/
def cloneBlockedAppliance : Provider where
  respond := fun log req =>
    if req = destroyFilesystemRequest "pool/fs" true then
      if promoteFilesystemRequest "pool/c2" ∈ log then ⟨none, .unset⟩
      else ⟨some (.nef "EEXIST" "filesystem has dependent clones"), .unset⟩
    else if req = promoteFilesystemRequest "pool/c2" then ⟨none, .unset⟩
    else (snapshotTable.lookup req).getD ⟨some (.nef "ENOENT" "not found"), .unset⟩

/-- An appliance on which `pool/fs` stays blocked: destroying it is always refused with
EEXIST, the listing and the details of its snapshots are served, and every other
request, promotions included, fails with a not-found error. -/
def promotionFailsAppliance : Provider :=
  tableAppliance
    ((destroyFilesystemRequest "pool/fs" true,
      ⟨some (.nef "EEXIST" "filesystem has dependent clones"), .unset⟩) :: snapshotTable)

/-- An appliance on which `pool/fs` is blocked and nothing else is known: destroying it is
refused with EEXIST, every other request fails with a not-found error. -/
def listingFailsAppliance : Provider :=
  tableAppliance
    [(destroyFilesystemRequest "pool/fs" true,
      ⟨some (.nef "EEXIST" "filesystem has dependent clones"), .unset⟩)]

/-- An appliance on which the detail of `pool/fs@s3` cannot be fetched: destroying
`pool/fs` is refused with EEXIST, the listing and the details of `s1` and `s2` are
served, every other request fails with a not-found error. -/
def detailFailsAppliance : Provider :=
  tableAppliance
    [(destroyFilesystemRequest "pool/fs" true,
      ⟨some (.nef "EEXIST" "filesystem has dependent clones"), .unset⟩),
     (snapshotsRequest "pool/fs" true, ⟨none, .storageSnapshots ⟨listedSnapshots⟩⟩),
     (snapshotRequest "pool/fs@s1", ⟨none, .snapshot (snapshotDetail "pool/fs@s1")⟩),
     (snapshotRequest "pool/fs@s2", ⟨none, .snapshot (snapshotDetail "pool/fs@s2")⟩)]

/-- In the round of the promotion loop of `DestroyFilesystem` that starts after `log`, the
promotion is attempted and fails: the listing and the scan of the snapshots succeed, the
scan leaves the candidate `clone`, and `PromoteFilesystem` of it fails with `err`, the
trace then being `final`. -/
def PromotionFails (p : Provider) (path : String) (log : Trace) (clone : String)
    (err : GoError) (final : Trace) : Prop :=
  ∃ (snapshots : List Snapshot) (log1 : Trace) (maxCreationTxg : Int) (log2 : Trace),
    GetSnapshots p path true log = (.ok snapshots, log1) ∧
    DestroyFilesystem.scanSnapshots p snapshots (0, "") log1
      = ((none, maxCreationTxg, clone), log2) ∧
    clone ≠ "" ∧ PromoteFilesystem p clone log2 = (some err, final)

/-- The request `CreateNfsShare` sends for a filesystem with the two access lists. -/
def nfsShareRequest (filesystem : String) (readWriteList readOnlyList : List NfsRuleList) :
    Request :=
  ⟨.POST, URI.ofString "nas/nfs",
    .nasNfs ⟨filesystem, "root", [⟨["sys"], readWriteList, readOnlyList⟩]⟩⟩

/-- The request `GetVolume` sends for a non-empty path. -/
def volumeRequest (path : String) : Request :=
  ⟨.GET, BuildURI "storage/volumes" [("path", .str path)], .nil⟩

/-- The promotion loop of `DestroyFilesystem`, entered with the trace `start`, begins its
iteration `i` (counted from 0) with the trace `log`, `mostRecentError` holding `m` from
the iteration before: the first iteration begins with `nil`, and an iteration that goes on
to the next round while `i + 1 < maxAttemptCount` is followed by the next one. -/
inductive Iteration (p : Provider) (path : String) (params : DestroyFilesystemParams)
    (start : Trace) : Nat → Option GoError → Trace → Prop where
  | first : Iteration p path params start 0 none start
  | next (i : Nat) (m : Option GoError) (log : Trace) (m1 : Option GoError) (log1 : Trace) :
      Iteration p path params start i m log → i + 1 < 3 →
      DestroyFilesystem.round p path params log = (.continued m1, log1) →
      Iteration p path params start (i + 1) m1 log1

/-- The round of the promotion loop of `DestroyFilesystem` that starts after `log` reaches
the plain destroy with the trace `log3`: the listing and the scan of the snapshots
succeed, and the promotion, when there is a candidate, succeeds too. -/
def ReachesDestroy (p : Provider) (path : String) (log log3 : Trace) : Prop :=
  ∃ (snapshots : List Snapshot) (log1 : Trace) (maxCreationTxg : Int) (mostRecentClone : String)
    (log2 : Trace),
    GetSnapshots p path true log = (.ok snapshots, log1) ∧
    DestroyFilesystem.scanSnapshots p snapshots (0, "") log1
      = ((none, maxCreationTxg, mostRecentClone), log2) ∧
    (if mostRecentClone ≠ "" then PromoteFilesystem p mostRecentClone log2 else (none, log2))
      = (none, log3)

/-- The candidate `st` of a scan of `snapshots` is the initial one, or that of a listed
snapshot whose detail fetch succeeded, which has clones and whose `creationTxg` converts
to a positive number: the number and the first clone of that snapshot. -/
def Candidate (p : Provider) (snapshots : List Snapshot) (st : Int × String) : Prop :=
  st = (0, "") ∨
  ∃ s ∈ snapshots, ∃ (before : Trace) (snapshot : Snapshot) (after : Trace) (creationTxg : Int),
    GetSnapshot p s.Path before = ((snapshot, none), after) ∧
    Atoi snapshot.CreationTxg = .ok creationTxg ∧ 0 < creationTxg ∧
    snapshot.Clones ≠ [] ∧ st = (creationTxg, snapshot.Clones.headD "")

/-- Two snapshots of `pool/fs`, as the listing returns them. -/
def tiedSnapshots : List Snapshot :=
  [⟨"pool/fs@a", "a", "pool/fs", [], "", ""⟩, ⟨"pool/fs@b", "b", "pool/fs", [], "", ""⟩]

/-- The details of the two snapshots: both carry the creation-transaction number
`creationTxg`, `a` has the clone `pool/ca` and `b` the clone `pool/cb`. -/
def tiedDetail (creationTxg : String) (path : String) : Snapshot :=
  if path = "pool/fs@a" then ⟨"pool/fs@a", "a", "pool/fs", ["pool/ca"], creationTxg, ""⟩
  else if path = "pool/fs@b" then ⟨"pool/fs@b", "b", "pool/fs", ["pool/cb"], creationTxg, ""⟩
  else ⟨"", "", "", [], "", ""⟩

/-- An appliance on which `pool/fs` has the two snapshots `a` and `b`, listed in this
order, both with the creation-transaction number `creationTxg`; destroying `pool/fs` is
always refused with EEXIST and every promotion succeeds. -/
def tiedAppliance (creationTxg : String) : Provider where
  respond := fun _ req =>
    if req.method = .POST then ⟨none, .unset⟩
    else
      ([(destroyFilesystemRequest "pool/fs" true,
          (⟨some (.nef "EEXIST" "filesystem has dependent clones"), .unset⟩ : Reply)),
        (snapshotsRequest "pool/fs" true, ⟨none, .storageSnapshots ⟨tiedSnapshots⟩⟩),
        (snapshotRequest "pool/fs@a", ⟨none, .snapshot (tiedDetail creationTxg "pool/fs@a")⟩),
        (snapshotRequest "pool/fs@b", ⟨none, .snapshot (tiedDetail creationTxg "pool/fs@b")⟩)].lookup
        req).getD ⟨some (.nef "ENOENT" "not found"), .unset⟩

/-- The request `destroyVolume` sends for a non-empty path. -/
def destroyVolumeRequest (path : String) (destroySnapshots : Bool) : Request :=
  ⟨.DELETE, BuildURI ("storage/volumes/" ++ PathEscape path)
    [("snapshots", .str (FormatBool destroySnapshots))], .nil⟩

/-- The request `PromoteVolume` sends for a non-empty path. -/
def promoteVolumeRequest (path : String) : Request :=
  ⟨.POST, URI.ofString ("storage/volumes/" ++ PathEscape path ++ "/promote"), .nil⟩

/-- A call of one of the primitives of the destroy state machine, with its arguments:
the plain destroy, the recursive snapshot listing, the snapshot detail fetch and the
promotion of a clone. -/
inductive PrimitiveCall where
  | destroy (path : String) (destroySnapshots : Bool)
  | listSnapshots (path : String)
  | getSnapshot (path : String)
  | promote (path : String)
  deriving DecidableEq, Repr

/-- The request the filesystem primitive sends for a call. -/
def PrimitiveCall.ofFilesystem : PrimitiveCall → Request
  | .destroy path destroySnapshots => destroyFilesystemRequest path destroySnapshots
  | .listSnapshots path => snapshotsRequest path true
  | .getSnapshot path => snapshotRequest path
  | .promote path => promoteFilesystemRequest path

/-- The request the volume primitive sends for a call. -/
def PrimitiveCall.ofVolume : PrimitiveCall → Request
  | .destroy path destroySnapshots => destroyVolumeRequest path destroySnapshots
  | .listSnapshots path => snapshotsRequest path true
  | .getSnapshot path => snapshotRequest path
  | .promote path => promoteVolumeRequest path

/-- The primitives of the two appliances have the same outcomes: after the same calls,
the volume primitive is answered on `pv` as the filesystem primitive is on `pf`. -/
def SameOutcomes (pf pv : Provider) : Prop :=
  ∀ (calls : List PrimitiveCall) (c : PrimitiveCall),
    pv.respond (calls.map PrimitiveCall.ofVolume) c.ofVolume
      = pf.respond (calls.map PrimitiveCall.ofFilesystem) c.ofFilesystem

/-- After the calls `calls`, a step of the filesystem state machine and the same step of
the volume state machine give the same result and make the same further calls. -/
def SameStep {α : Type} (calls : List PrimitiveCall) (f v : α × Trace) : Prop :=
  ∃ (r : α) (sent : List PrimitiveCall),
    f = (r, (calls ++ sent).map PrimitiveCall.ofFilesystem) ∧
    v = (r, (calls ++ sent).map PrimitiveCall.ofVolume)

/-- The outcome of the destroy state machine: done, failed with an error returned as it
is, or failed with an error wrapped into an explanation. -/
inductive ReaperOutcome where
  | done
  | failed (err : GoError)
  | wrapped (text : String)

/-- The error returned for an outcome by the state machine of the resource kind `noun`
(`filesystem` or `volume`). -/
def ReaperOutcome.render (noun path : String) : ReaperOutcome → Option GoError
  | .done => none
  | .failed err => some err
  | .wrapped text =>
    some (.errorf ("Failed to delete " ++ noun ++ " '" ++ path ++ "': " ++ text))

/-- An appliance that answers by the method of the request alone: every DELETE is refused
with EEXIST, every GET fails and every POST succeeds. -/
def blockedAppliance : Provider where
  respond := fun _ req =>
    match req.method with
    | .DELETE => ⟨some (.nef "EEXIST" "resource has dependent clones"), .unset⟩
    | .GET => ⟨some (.errorf "connection refused"), .unset⟩
    | _ => ⟨none, .unset⟩

/-- The detail fetches of the snapshots of the list, made one after the other from the
trace `log` on, all succeed with a `creationTxg` that converts to an integer; `final` is
the trace after the last of them. -/
def DetailsFetched (p : Provider) : List Snapshot → Trace → Trace → Prop
  | [], log, final => final = log
  | s :: rest, log, final =>
    ∃ (snapshot : Snapshot) (log1 : Trace) (creationTxg : Int),
      GetSnapshot p s.Path log = ((snapshot, none), log1) ∧
      Atoi snapshot.CreationTxg = .ok creationTxg ∧ DetailsFetched p rest log1 final

/-- The detail fetch of the snapshot `s`, made after `log`, fails: `GetSnapshot` returns
an error, or it returns a `creationTxg` that does not convert to an integer. `final` is
the trace after the fetch and `err` the error `DestroyFilesystem` makes of the failure. -/
def DetailFails (p : Provider) (s : Snapshot) (log final : Trace) (err : GoError) : Prop :=
  (∃ (snapshot : Snapshot) (e : GoError),
    GetSnapshot p s.Path log = ((snapshot, some e), final) ∧
    err = .errorf ("failed to get '" ++ s.Path ++ "' snapshost's info: " ++ e.Error)) ∨
  (∃ (snapshot : Snapshot) (e : GoError),
    GetSnapshot p s.Path log = ((snapshot, none), final) ∧
    Atoi snapshot.CreationTxg = .error e ∧
    err = .errorf ("snapshot '" ++ s.Path ++ "': failed to convert 'creationTxg' value '"
      ++ snapshot.CreationTxg ++ "' to integer: " ++ e.Error))

/-! ## Bridging lemmas -/

theorem foldl_append_singleton {α : Type} (xs acc : List α) :
    xs.foldl (fun acc x => acc ++ [x]) acc = acc ++ xs := by
  induction xs generalizing acc with
  | nil => simp
  | cons x xs ih => simp [ih]

theorem foldl_filter_append {α : Type} (keep : α → Prop) [DecidablePred keep] (xs acc : List α) :
    xs.foldl (fun acc x => if keep x then acc ++ [x] else acc) acc
      = acc ++ xs.filter (fun x => decide (keep x)) := by
  induction xs generalizing acc with
  | nil => simp
  | cons x xs ih =>
    by_cases h : keep x <;> simp [ih, h]

theorem GetVolumes_loop_eq_walkAll (p : Provider) (parent : String) (fuel : Nat)
    (volumes : List Volume) (offset last : Int) (log : Trace) :
    GetVolumes.loop p parent fuel volumes offset last log
      = walkAll (GetVolumesSlice p parent (nsFilesystemListLimit - 1)) fuel volumes offset last
          log := by
  induction fuel generalizing volumes offset last log with
  | zero => simp [GetVolumes.loop, walkAll]
  | succ n ih =>
    simp only [GetVolumes.loop, walkAll, foldl_append_singleton, ih]
    cases GetVolumesSlice p parent (nsFilesystemListLimit - 1) offset log with
    | mk r log1 => cases r <;> rfl

theorem GetFilesystems_loop_eq_walkAll (p : Provider) (parent : String) (fuel : Nat)
    (filesystems : List Filesystem) (offset last : Int) (log : Trace) :
    GetFilesystems.loop p parent fuel filesystems offset last log
      = walkAll (GetFilesystemsSlice p parent (nsFilesystemListLimit - 1)) fuel filesystems offset
          last log := by
  induction fuel generalizing filesystems offset last log with
  | zero => simp [GetFilesystems.loop, walkAll]
  | succ n ih =>
    simp only [GetFilesystems.loop, walkAll, foldl_append_singleton, ih]
    cases GetFilesystemsSlice p parent (nsFilesystemListLimit - 1) offset log with
    | mk r log1 => cases r <;> rfl

theorem GetVolumesWithStartingToken_scan_eq_scanSlice (startingToken : String) (limit : Int)
    (slice : List Volume) (st : List Volume × String × Bool) :
    GetVolumesWithStartingToken.scan startingToken limit slice st
      = scanSlice Volume.Path startingToken limit slice st := by
  induction slice generalizing st with
  | nil => simp [GetVolumesWithStartingToken.scan, scanSlice]
  | cons fs rest ih =>
    obtain ⟨volumes, nextToken, found⟩ := st
    simp only [GetVolumesWithStartingToken.scan, scanSlice, ih]

theorem GetFilesystemsWithStartingToken_scan_eq_scanSlice (startingToken : String) (limit : Int)
    (slice : List Filesystem) (st : List Filesystem × String × Bool) :
    GetFilesystemsWithStartingToken.scan startingToken limit slice st
      = scanSlice Filesystem.Path startingToken limit slice st := by
  induction slice generalizing st with
  | nil => simp [GetFilesystemsWithStartingToken.scan, scanSlice]
  | cons fs rest ih =>
    obtain ⟨filesystems, nextToken, found⟩ := st
    simp only [GetFilesystemsWithStartingToken.scan, scanSlice, ih]

theorem GetVolumesWithStartingToken_loop_eq_walkToken (p : Provider)
    (parent startingToken : String) (limit : Int) (fuel : Nat)
    (st : List Volume × String × Bool) (offset last : Int) (log : Trace) :
    GetVolumesWithStartingToken.loop p parent startingToken limit fuel st offset last log
      = walkToken Volume.Path (GetVolumesSlice p parent (nsFilesystemListLimit - 1))
          startingToken limit fuel st offset last log := by
  induction fuel generalizing st offset last log with
  | zero => simp [GetVolumesWithStartingToken.loop, walkToken]
  | succ n ih =>
    simp only [GetVolumesWithStartingToken.loop, walkToken,
      GetVolumesWithStartingToken_scan_eq_scanSlice, ih]
    cases GetVolumesSlice p parent (nsFilesystemListLimit - 1) offset log with
    | mk r log1 => cases r <;> rfl

theorem GetFilesystemsWithStartingToken_loop_eq_walkToken (p : Provider)
    (parent startingToken : String) (limit : Int) (fuel : Nat)
    (st : List Filesystem × String × Bool) (offset last : Int) (log : Trace) :
    GetFilesystemsWithStartingToken.loop p parent startingToken limit fuel st offset last log
      = walkToken Filesystem.Path (GetFilesystemsSlice p parent (nsFilesystemListLimit - 1))
          startingToken limit fuel st offset last log := by
  induction fuel generalizing st offset last log with
  | zero => simp [GetFilesystemsWithStartingToken.loop, walkToken]
  | succ n ih =>
    simp only [GetFilesystemsWithStartingToken.loop, walkToken,
      GetFilesystemsWithStartingToken_scan_eq_scanSlice, ih]
    cases GetFilesystemsSlice p parent (nsFilesystemListLimit - 1) offset log with
    | mk r log1 => cases r <;> rfl

/-! ## What the slice primitives return -/

theorem GetVolumesSlice_accepted (p : Provider) (parent : String) (limit offset : Int)
    (log : Trace) (hl : 0 < limit) (hu : limit < nsFilesystemListLimit) (ho : 0 ≤ offset) :
    GetVolumesSlice p parent limit offset log
      = (match (p.respond log (volumesRequest parent limit offset)).err with
          | some err => .error err
          | none => .ok (p.respond log (volumesRequest parent limit offset)).body.asStorageVolumes.Data,
         log ++ [volumesRequest parent limit offset]) := by
  have h1 : ¬ (limit ≤ 0 ∨ limit ≥ nsFilesystemListLimit) := by omega
  have h2 : ¬ offset < 0 := by omega
  simp only [GetVolumesSlice, h1, h2, if_false, Provider.sendRequestWithStruct, volumesRequest,
    foldl_append_singleton, List.nil_append]
  split <;> simp_all

theorem GetFilesystemsSlice_accepted (p : Provider) (parent : String) (limit offset : Int)
    (log : Trace) (hl : 0 < limit) (hu : limit < nsFilesystemListLimit) (ho : 0 ≤ offset) :
    GetFilesystemsSlice p parent limit offset log
      = (match (p.respond log (filesystemsRequest parent (limit + 1) offset)).err with
          | some err => .error err
          | none => .ok ((p.respond log (filesystemsRequest parent (limit + 1) offset)).body
              |>.asStorageFilesystems.Data.filter (fun fs => decide (fs.Path ≠ parent))),
         log ++ [filesystemsRequest parent (limit + 1) offset]) := by
  have h1 : ¬ (limit ≤ 0 ∨ limit ≥ nsFilesystemListLimit) := by omega
  have h2 : ¬ offset < 0 := by omega
  simp only [GetFilesystemsSlice, h1, h2, if_false, Provider.sendRequestWithStruct,
    filesystemsRequest, foldl_filter_append, List.nil_append]
  split <;> simp_all

/-! ## The full-enumeration loop over a served list -/

theorem walkAll_stop {α : Type} (fetch : Fetch α) (fuel : Nat) (acc : List α) (offset last : Int)
    (log : Trace) (h : last < nsFilesystemListLimit - 1) :
    walkAll fetch fuel acc offset last log = (some (.ok acc), log) := by
  have hc : ¬ last ≥ nsFilesystemListLimit - 1 := by omega
  cases fuel <;> simp [walkAll, hc]

theorem take_append_drop_length_take {α : Type} (l : List α) (P : Nat) :
    l.take P ++ l.drop (l.take P).length = l := by
  rw [List.length_take]
  rcases Nat.le_total P l.length with h | h
  · rw [Nat.min_eq_left h]
    exact List.take_append_drop P l
  · rw [Nat.min_eq_right h, List.drop_length, List.take_of_length_le h, List.append_nil]

/-- Over a list served in pages of `P ≥ 99` records from offset `o0` on, the loop started
at offset `o ≥ o0` returns what it had plus the rest of the list. -/
theorem walkAll_served {α : Type} (fetch : Fetch α) (req : Int → Request) (xs : List α)
    (P o0 : Nat) (hP : 99 ≤ P)
    (hfetch : ∀ (o : Nat) (log : Trace), o0 ≤ o →
      fetch (o : Int) log = (.ok ((xs.drop o).take P), log ++ [req o])) :
    ∀ (fuel o : Nat) (acc : List α) (last : Int) (log : Trace), o0 ≤ o →
      nsFilesystemListLimit - 1 ≤ last → xs.length - o < fuel * 99 →
      (walkAll fetch fuel acc o last log).1 = some (.ok (acc ++ xs.drop o)) := by
  intro fuel
  induction fuel with
  | zero => intro o acc last log _ _ h; omega
  | succ n ih =>
    intro o acc last log ho hlast hfuel
    have hc : last ≥ nsFilesystemListLimit - 1 := hlast
    simp only [walkAll, hc, if_true, hfetch o log ho]
    have hlen : ((xs.drop o).take P).length = min P (xs.length - o) := by
      rw [List.length_take, List.length_drop]
    by_cases hshort : ((xs.drop o).take P).length < 99
    · rw [walkAll_stop _ _ _ _ _ _ (by unfold nsFilesystemListLimit; omega)]
      have : (xs.drop o).take P = xs.drop o :=
        List.take_of_length_le (by rw [List.length_drop]; omega)
      rw [this]
    · rw [← Nat.cast_add]
      rw [ih (o + ((xs.drop o).take P).length) _ _ _ (by omega)
        (by unfold nsFilesystemListLimit; omega) (by omega)]
      rw [List.append_assoc, ← List.drop_drop, take_append_drop_length_take]

/-- Over a list served in pages of exactly 99 records, the loop sends one request per
offset `o, o + 99, o + 2 * 99, ...` up to and including the first short page. -/
theorem walkAll_served_trace {α : Type} (fetch : Fetch α) (req : Int → Request) (xs : List α)
    (hfetch : ∀ (o : Nat) (log : Trace),
      fetch (o : Int) log = (.ok ((xs.drop o).take 99), log ++ [req o])) :
    ∀ (fuel o : Nat) (acc : List α) (last : Int) (log : Trace),
      nsFilesystemListLimit - 1 ≤ last → xs.length - o < fuel * 99 →
      (walkAll fetch fuel acc o last log).2
        = log ++ (List.range ((xs.length - o) / 99 + 1)).map
            (fun k => req (((o + 99 * k : Nat) : Int))) := by
  intro fuel
  induction fuel with
  | zero => intro o acc last log _ h; omega
  | succ n ih =>
    intro o acc last log hlast hfuel
    have hc : last ≥ nsFilesystemListLimit - 1 := hlast
    simp only [walkAll, hc, if_true, hfetch o log]
    have hlen : ((xs.drop o).take 99).length = min 99 (xs.length - o) := by
      rw [List.length_take, List.length_drop]
    by_cases hshort : ((xs.drop o).take 99).length < 99
    · rw [walkAll_stop _ _ _ _ _ _ (by unfold nsFilesystemListLimit; omega)]
      have h0 : (xs.length - o) / 99 = 0 := by omega
      rw [h0]
      simp [List.range_succ]
    · have h99 : ((xs.drop o).take 99).length = 99 := by omega
      rw [← Nat.cast_add, h99]
      rw [ih (o + 99) _ _ _ (by unfold nsFilesystemListLimit; omega) (by omega)]
      have hq : (xs.length - o) / 99 = (xs.length - (o + 99)) / 99 + 1 := by omega
      rw [hq, List.range_succ_eq_map (n := (xs.length - (o + 99)) / 99 + 1), List.map_cons,
        List.map_map, List.append_assoc, List.singleton_append, Nat.mul_zero, Nat.add_zero]
      congr 2
      apply List.map_congr_left
      intro k _
      simp only [Function.comp, Nat.succ_eq_add_one]
      congr 2
      omega

theorem GetVolumesSlice_served (p : Provider) (parent : String) (all : List Volume)
    (hserve : ServesVolumes p parent all) (o : Nat) (log : Trace) :
    GetVolumesSlice p parent (nsFilesystemListLimit - 1) (o : Int) log
      = (.ok ((all.drop o).take 99), log ++ [volumesRequest parent 99 o]) := by
  have h99 : nsFilesystemListLimit - 1 = 99 := rfl
  rw [h99, GetVolumesSlice_accepted p parent 99 o log (by decide) (by decide) (by omega),
    hserve log 99 o (by decide) (by omega)]
  simp [Payload.asStorageVolumes]

theorem GetFilesystemsSlice_served (p : Provider) (parent : String) (listing : List Filesystem)
    (hserve : ServesFilesystems p parent listing) (o : Nat) (log : Trace) :
    GetFilesystemsSlice p parent (nsFilesystemListLimit - 1) (o : Int) log
      = (.ok (((listing.drop o).take 100).filter (fun fs => decide (fs.Path ≠ parent))),
         log ++ [filesystemsRequest parent 100 o]) := by
  have h99 : nsFilesystemListLimit - 1 = 99 := rfl
  rw [h99, GetFilesystemsSlice_accepted p parent 99 o log (by decide) (by decide) (by omega)]
  have h100 : (99 : Int) + 1 = 100 := rfl
  rw [h100, hserve log 100 o (by decide) (by omega)]
  simp [Payload.asStorageFilesystems]

theorem storageAppliance_servesVolumes (volumes : List Volume) (listing : List Filesystem)
    (parent : String) : ServesVolumes (storageAppliance volumes listing) parent volumes := by
  intro log limit offset _ _
  simp [storageAppliance, volumesRequest, BuildURI]

theorem storageAppliance_servesFilesystems (volumes : List Volume) (listing : List Filesystem)
    (parent : String) : ServesFilesystems (storageAppliance volumes listing) parent listing := by
  intro log limit offset _ _
  simp [storageAppliance, filesystemsRequest, BuildURI]

/-! ## The windowed loop -/

/-- Scanning two slices one after the other, from a state in which the outer loop goes
on: the second slice is only read when the first did not reach the limit. -/
theorem scanSlice_append {α : Type} (path : α → String) (tok : String) (limit : Int)
    (xs ys : List α) (st : List α × String × Bool)
    (hst : limit = 0 ∨ (st.1.length : Int) < limit) :
    scanSlice path tok limit (xs ++ ys) st
      = if limit = 0 ∨ ((scanSlice path tok limit xs st).1.length : Int) < limit then
          scanSlice path tok limit ys (scanSlice path tok limit xs st)
        else scanSlice path tok limit xs st := by
  induction xs generalizing st with
  | nil => simp [scanSlice, hst]
  | cons x xs ih =>
    obtain ⟨acc, t, found⟩ := st
    simp only [List.cons_append, scanSlice]
    cases found with
    | true =>
      simp only [if_true]
      by_cases hlen : ((acc ++ [x]).length : Int) = limit
      · have hne : ¬ (limit = 0 ∨ ((acc ++ [x]).length : Int) < limit) := by
          simp only [List.length_append, List.length_singleton] at hlen ⊢
          omega
        simp only [if_pos hlen]
        exact (if_neg hne).symm
      · simp only [if_neg hlen]
        apply ih
        simp only [List.length_append, List.length_singleton] at hlen hst ⊢
        omega
    | false =>
      simp only [Bool.false_eq_true, if_false]
      by_cases hp : path x = tok
      · simp only [hp, if_true]
        exact ih _ hst
      · simp only [hp, if_false]
        exact ih _ hst

theorem walkToken_stop {α : Type} (path : α → String) (fetch : Fetch α) (tok : String)
    (limit : Int) (fuel : Nat) (st : List α × String × Bool) (offset last : Int) (log : Trace)
    (h : ¬ ((limit = 0 ∨ (st.1.length : Int) < limit) ∧ last ≥ nsFilesystemListLimit - 1)) :
    walkToken path fetch tok limit fuel st offset last log = (some (.ok (st.1, st.2.1)), log) := by
  cases fuel <;> simp only [walkToken, h, if_false]

/-- Over a list served in pages of `P ≥ 99` records from offset `o0` on, the windowed
loop started at offset `o ≥ o0` in a state in which it goes on returns what one pass of
the skip/collect scan over the rest of the list returns. -/
theorem walkToken_served {α : Type} (path : α → String) (fetch : Fetch α) (tok : String)
    (limit : Int) (xs : List α) (P o0 : Nat) (hP : 99 ≤ P)
    (hfetch : ∀ (o : Nat) (log : Trace), o0 ≤ o →
      ∃ log1, fetch (o : Int) log = (.ok ((xs.drop o).take P), log1)) :
    ∀ (fuel o : Nat) (st : List α × String × Bool) (last : Int) (log : Trace), o0 ≤ o →
      nsFilesystemListLimit - 1 ≤ last → xs.length - o < fuel * 99 →
      (limit = 0 ∨ (st.1.length : Int) < limit) →
      (walkToken path fetch tok limit fuel st o last log).1
        = some (.ok ((scanSlice path tok limit (xs.drop o) st).1,
            (scanSlice path tok limit (xs.drop o) st).2.1)) := by
  intro fuel
  induction fuel with
  | zero => intro o st last log _ _ h; omega
  | succ n ih =>
    intro o st last log ho hlast hfuel hst
    have hc : (limit = 0 ∨ (st.1.length : Int) < limit) ∧ last ≥ nsFilesystemListLimit - 1 :=
      ⟨hst, hlast⟩
    obtain ⟨log1, hf⟩ := hfetch o log ho
    simp only [walkToken, if_pos hc, hf]
    have hlen : ((xs.drop o).take P).length = min P (xs.length - o) := by
      rw [List.length_take, List.length_drop]
    have hsplit : xs.drop o
        = (xs.drop o).take P ++ xs.drop (o + ((xs.drop o).take P).length) := by
      rw [← List.drop_drop, take_append_drop_length_take]
    have happ := scanSlice_append path tok limit ((xs.drop o).take P)
      (xs.drop (o + ((xs.drop o).take P).length)) st hst
    rw [← hsplit] at happ
    by_cases hgo : limit = 0 ∨
        ((scanSlice path tok limit ((xs.drop o).take P) st).1.length : Int) < limit
    · rw [if_pos hgo] at happ
      by_cases hshort : ((xs.drop o).take P).length < 99
      · rw [walkToken_stop _ _ _ _ _ _ _ _ _ (by unfold nsFilesystemListLimit; omega)]
        have hall : (xs.drop o).take P = xs.drop o :=
          List.take_of_length_le (by rw [List.length_drop]; omega)
        rw [hall]
      · rw [← Nat.cast_add]
        rw [ih (o + ((xs.drop o).take P).length) _ _ _ (by omega)
          (by unfold nsFilesystemListLimit; omega) (by omega) hgo, happ]
    · rw [if_neg hgo] at happ
      rw [walkToken_stop _ _ _ _ _ _ _ _ _ (fun h => hgo h.1), happ]

/-- Once the token is found, the scan collects the records that follow, up to the limit. -/
theorem scanSlice_found {α : Type} (path : α → String) (tok : String) (limit : Int)
    (xs acc : List α) (t : String) (hst : limit = 0 ∨ (acc.length : Int) < limit) :
    (scanSlice path tok limit xs (acc, t, true)).1
      = if limit = 0 then acc ++ xs else acc ++ xs.take (limit.toNat - acc.length) := by
  induction xs generalizing acc with
  | nil => simp [scanSlice]
  | cons x xs ih =>
    simp only [scanSlice, if_true]
    by_cases hlen : ((acc ++ [x]).length : Int) = limit
    · simp only [hlen, if_true]
      simp only [List.length_append, List.length_singleton] at hlen
      have h0 : limit ≠ 0 := by omega
      have h1 : limit.toNat - acc.length = 1 := by omega
      simp [h0, h1]
    · simp only [hlen, if_false]
      simp only [List.length_append, List.length_singleton] at hlen
      rw [ih (acc ++ [x]) (by simp only [List.length_append, List.length_singleton]; omega)]
      by_cases h0 : limit = 0
      · simp [h0]
      · have h1 : limit.toNat - acc.length = (limit.toNat - (acc.length + 1)) + 1 := by omega
        simp only [h0, if_false, List.length_append, List.length_singleton, h1, List.take_succ_cons,
          List.append_assoc, List.singleton_append]

/-- Before the token is found, the scan skips up to and including the first record whose
path is the token. -/
theorem scanSlice_skip {α : Type} (path : α → String) (tok : String) (limit : Int)
    (xs acc : List α) (t : String) :
    scanSlice path tok limit xs (acc, t, false)
      = match xs.dropWhile (fun r => decide (path r ≠ tok)) with
        | [] => (acc, t, false)
        | _ :: rest => scanSlice path tok limit rest (acc, t, true) := by
  induction xs with
  | nil => simp [scanSlice]
  | cons x xs ih =>
    simp only [scanSlice, Bool.false_eq_true, if_false]
    by_cases hp : path x = tok
    · simp [hp, List.dropWhile_cons]
    · simp [hp, List.dropWhile_cons, ih]

/-- One pass of the scan over the whole collection, from the initial state, collects the
window after the token, cut at the limit. -/
theorem scanSlice_window {α : Type} (path : α → String) (tok : String) (limit : Int)
    (all : List α) (hlimit : 0 ≤ limit) :
    (scanSlice path tok limit all ([], "", decide (tok = ""))).1
      = if limit = 0 then windowAfter path tok all
        else (windowAfter path tok all).take limit.toNat := by
  have hst : limit = 0 ∨ ((([] : List α).length : Nat) : Int) < limit := by
    simp only [List.length_nil, Nat.cast_zero]; omega
  by_cases htok : tok = ""
  · have hd : decide (tok = "") = true := by simp [htok]
    rw [hd, scanSlice_found path tok limit all [] "" hst]
    simp [windowAfter, htok]
  · have hd : decide (tok = "") = false := by simp [htok]
    rw [hd, scanSlice_skip]
    simp only [windowAfter, htok, if_false]
    cases hdw : all.dropWhile (fun r => decide (path r ≠ tok)) with
    | nil => simp
    | cons y rest =>
      simp only [List.drop_succ_cons, List.drop_zero]
      rw [scanSlice_found path tok limit rest [] "" hst]
      simp

/-- The scan keeps `nextToken` in step with the collected list. -/
theorem scanSlice_nextToken {α : Type} (path : α → String) (tok : String) (limit : Int)
    (xs acc : List α) (found : Bool) (hst : limit = 0 ∨ (acc.length : Int) < limit) :
    (scanSlice path tok limit xs (acc, "", found)).2.1
      = nextTokenOf path limit (scanSlice path tok limit xs (acc, "", found)).1 := by
  induction xs generalizing acc found with
  | nil =>
    have hne : ¬ (0 < limit ∧ (acc.length : Int) = limit) := by omega
    simp [scanSlice, nextTokenOf, hne]
  | cons x xs ih =>
    cases found with
    | true =>
      simp only [scanSlice, if_true]
      by_cases hlen : ((acc ++ [x]).length : Int) = limit
      · simp only [if_pos hlen]
        have hpos : 0 < limit := by
          simp only [List.length_append, List.length_singleton] at hlen
          omega
        simp only [nextTokenOf, hlen, hpos, and_self, if_true, List.getLast?_concat,
          Option.map_some', Option.getD_some]
      · simp only [if_neg hlen]
        apply ih
        simp only [List.length_append, List.length_singleton] at hlen ⊢
        omega
    | false =>
      simp only [scanSlice, Bool.false_eq_true, if_false]
      by_cases hp : path x = tok
      · simp only [if_pos hp]
        exact ih _ _ hst
      · simp only [if_neg hp]
        exact ih _ _ hst

/-- Whatever the slice primitive answers, a successful windowed loop returns the
`nextToken` that goes with the list it returns. -/
theorem walkToken_nextToken {α : Type} (path : α → String) (fetch : Fetch α) (tok : String)
    (limit : Int) :
    ∀ (fuel : Nat) (st : List α × String × Bool) (offset last : Int) (log : Trace)
      (l : List α) (t : String), st.2.1 = nextTokenOf path limit st.1 →
      (walkToken path fetch tok limit fuel st offset last log).1 = some (.ok (l, t)) →
      t = nextTokenOf path limit l := by
  intro fuel
  induction fuel with
  | zero =>
    intro st offset last log l t hst h
    by_cases hc : (limit = 0 ∨ (st.1.length : Int) < limit) ∧ last ≥ nsFilesystemListLimit - 1
    · simp [walkToken, hc] at h
    · simp only [walkToken, if_neg hc, Option.some.injEq, Except.ok.injEq, Prod.mk.injEq] at h
      rw [← h.1, ← h.2, hst]
  | succ n ih =>
    intro st offset last log l t hst h
    by_cases hc : (limit = 0 ∨ (st.1.length : Int) < limit) ∧ last ≥ nsFilesystemListLimit - 1
    · simp only [walkToken, if_pos hc] at h
      rcases hf : fetch offset log with ⟨r, log1⟩
      rw [hf] at h
      cases r with
      | error e => simp at h
      | ok slice =>
        simp only at h
        refine ih _ _ _ _ l t ?_ h
        obtain ⟨acc, t0, found⟩ := st
        have ht0 : t0 = "" := by
          have hne : ¬ (0 < limit ∧ (acc.length : Int) = limit) := by
            have := hc.1
            simp only at this
            omega
          simpa [nextTokenOf, hne] using hst
        subst ht0
        exact scanSlice_nextToken path tok limit slice acc found hc.1
    · simp only [walkToken, if_neg hc, Option.some.injEq, Except.ok.injEq, Prod.mk.injEq] at h
      rw [← h.1, ← h.2, hst]

/-- When every fetch succeeds with a page that does not reach past position `n`, the
windowed loop ends within `n / 99 + 1` rounds. -/
theorem walkToken_terminates {α : Type} (path : α → String) (fetch : Fetch α) (tok : String)
    (limit : Int) (n : Nat)
    (hfetch : ∀ (o : Nat) (log : Trace),
      ∃ page log1, fetch (o : Int) log = (.ok page, log1) ∧ page.length ≤ n - o) :
    ∀ (fuel o : Nat) (st : List α × String × Bool) (last : Int) (log : Trace),
      n - o < fuel * 99 →
      ∃ r, (walkToken path fetch tok limit fuel st o last log).1 = some (.ok r) := by
  intro fuel
  induction fuel with
  | zero => intro o st last log h; omega
  | succ k ih =>
    intro o st last log hfuel
    by_cases hc : (limit = 0 ∨ (st.1.length : Int) < limit) ∧ last ≥ nsFilesystemListLimit - 1
    · obtain ⟨page, log1, hf, hpage⟩ := hfetch o log
      simp only [walkToken, if_pos hc, hf]
      by_cases hshort : page.length < 99
      · rw [walkToken_stop _ _ _ _ _ _ _ _ _
          (fun h => by have := h.2; unfold nsFilesystemListLimit at this; omega)]
        exact ⟨_, rfl⟩
      · rw [← Nat.cast_add]
        exact ih (o + page.length) _ _ _ (by omega)
    · rw [walkToken_stop _ _ _ _ _ _ _ _ _ hc]
      exact ⟨_, rfl⟩

theorem scanSlice_absent {α : Type} (path : α → String) (tok : String) (limit : Int)
    (xs acc : List α) (t : String) (habs : ∀ x ∈ xs, path x ≠ tok) :
    scanSlice path tok limit xs (acc, t, false) = (acc, t, false) := by
  induction xs with
  | nil => simp [scanSlice]
  | cons x xs ih =>
    have hx : path x ≠ tok := habs x (List.mem_cons_self x xs)
    simp only [scanSlice, Bool.false_eq_true, if_false, if_neg hx]
    exact ih (fun y hy => habs y (List.mem_cons_of_mem x hy))

/-- When no fetched record carries the token, a successful windowed loop returns what
it started with. -/
theorem walkToken_absent {α : Type} (path : α → String) (fetch : Fetch α) (tok : String)
    (limit : Int)
    (hfetch : ∀ (o : Int) (log : Trace) (page : List α) (log1 : Trace),
      fetch o log = (.ok page, log1) → ∀ x ∈ page, path x ≠ tok) :
    ∀ (fuel : Nat) (acc : List α) (t : String) (offset last : Int) (log : Trace)
      (r : List α × String),
      (walkToken path fetch tok limit fuel (acc, t, false) offset last log).1 = some (.ok r) →
      r = (acc, t) := by
  intro fuel
  induction fuel with
  | zero =>
    intro acc t offset last log r h
    by_cases hc : (limit = 0 ∨ (acc.length : Int) < limit) ∧ last ≥ nsFilesystemListLimit - 1
    · simp [walkToken, hc] at h
    · simp only [walkToken, if_neg hc, Option.some.injEq, Except.ok.injEq] at h
      exact h.symm
  | succ n ih =>
    intro acc t offset last log r h
    by_cases hc : (limit = 0 ∨ (acc.length : Int) < limit) ∧ last ≥ nsFilesystemListLimit - 1
    · simp only [walkToken, if_pos hc] at h
      rcases hf : fetch offset log with ⟨res, log1⟩
      rw [hf] at h
      cases res with
      | error e => simp at h
      | ok slice =>
        simp only at h
        rw [scanSlice_absent path tok limit slice acc t (hfetch offset log slice log1 hf)] at h
        exact ih _ _ _ _ _ r h
    · simp only [walkToken, if_neg hc, Option.some.injEq, Except.ok.injEq] at h
      exact h.symm

theorem GetVolumesSlice_served_mem (p : Provider) (parent : String) (all : List Volume)
    (hserve : ServesVolumes p parent all) (limit offset : Int) (log log1 : Trace)
    (page : List Volume) (h : GetVolumesSlice p parent limit offset log = (.ok page, log1)) :
    ∀ x ∈ page, x ∈ all := by
  by_cases h1 : limit ≤ 0 ∨ limit ≥ nsFilesystemListLimit
  · simp [GetVolumesSlice, h1] at h
  · by_cases h2 : offset < 0
    · simp [GetVolumesSlice, h1, h2] at h
    · have hl : 0 < limit := by omega
      rw [GetVolumesSlice_accepted p parent limit offset log hl (by omega) (by omega),
        hserve log limit offset hl (by omega)] at h
      simp only [Payload.asStorageVolumes, Prod.mk.injEq, Except.ok.injEq] at h
      intro x hx
      rw [← h.1] at hx
      exact List.mem_of_mem_drop (List.mem_of_mem_take hx)

theorem GetFilesystemsSlice_served_mem (p : Provider) (parent : String)
    (listing : List Filesystem) (hserve : ServesFilesystems p parent listing)
    (limit offset : Int) (log log1 : Trace) (page : List Filesystem)
    (h : GetFilesystemsSlice p parent limit offset log = (.ok page, log1)) :
    ∀ x ∈ page, x ∈ listing := by
  by_cases h1 : limit ≤ 0 ∨ limit ≥ nsFilesystemListLimit
  · simp [GetFilesystemsSlice, h1] at h
  · by_cases h2 : offset < 0
    · simp [GetFilesystemsSlice, h1, h2] at h
    · have hl : 0 < limit := by omega
      rw [GetFilesystemsSlice_accepted p parent limit offset log hl (by omega) (by omega),
        hserve log (limit + 1) offset (by omega) (by omega)] at h
      simp only [Payload.asStorageFilesystems, Prod.mk.injEq, Except.ok.injEq] at h
      intro x hx
      rw [← h.1] at hx
      exact List.mem_of_mem_drop (List.mem_of_mem_take (List.mem_filter.mp hx).1)

/-- Over volumes served by offset and limit the windowed loop ends. -/
theorem GetVolumesWithStartingToken_terminates (p : Provider) (parent : String)
    (all : List Volume) (hserve : ServesVolumes p parent all) (tok : String) (limit : Int)
    (log : Trace) (fuel : Nat) (hfuel : all.length / 99 < fuel) :
    ∃ r, (GetVolumesWithStartingToken p parent tok limit fuel log).1 = some (.ok r) := by
  unfold GetVolumesWithStartingToken
  rw [GetVolumesWithStartingToken_loop_eq_walkToken]
  refine walkToken_terminates Volume.Path _ tok limit all.length ?_ fuel 0 _ _ log (by omega)
  intro o log
  refine ⟨_, _, GetVolumesSlice_served p parent all hserve o log, ?_⟩
  rw [List.length_take, List.length_drop]
  omega

/-- Over a filesystem listing served by offset and limit the windowed loop ends. -/
theorem GetFilesystemsWithStartingToken_terminates (p : Provider) (parent : String)
    (listing : List Filesystem) (hserve : ServesFilesystems p parent listing) (tok : String)
    (limit : Int) (log : Trace) (fuel : Nat) (hfuel : listing.length / 99 < fuel) :
    ∃ r, (GetFilesystemsWithStartingToken p parent tok limit fuel log).1 = some (.ok r) := by
  unfold GetFilesystemsWithStartingToken
  rw [GetFilesystemsWithStartingToken_loop_eq_walkToken]
  have h := walkToken_terminates Filesystem.Path
    (GetFilesystemsSlice p parent (nsFilesystemListLimit - 1)) tok limit listing.length ?_
    fuel 1 ([], "", decide (tok = "")) nsFilesystemListLimit log (by omega)
  · simpa using h
  · intro o log
    refine ⟨_, _, GetFilesystemsSlice_served p parent listing hserve o log, ?_⟩
    refine le_trans (List.length_filter_le _ _) ?_
    rw [List.length_take, List.length_drop]
    omega

/-- Over volumes served by offset and limit the loop of `GetVolumes` returns them all. -/
theorem GetVolumes_complete_aux (p : Provider) (parent : String) (all : List Volume)
    (hserve : ServesVolumes p parent all) (log : Trace) (fuel : Nat)
    (hfuel : all.length / 99 < fuel) :
    (GetVolumes p parent fuel log).1 = some (.ok all) := by
  unfold GetVolumes
  rw [GetVolumes_loop_eq_walkAll]
  have h := walkAll_served (GetVolumesSlice p parent (nsFilesystemListLimit - 1))
    (fun o => volumesRequest parent 99 o) all 99 0 (le_refl 99)
    (fun o log _ => GetVolumesSlice_served p parent all hserve o log)
    fuel 0 [] nsFilesystemListLimit log (Nat.zero_le 0) (by decide) (by omega)
  simpa using h

/-- Over volumes served by offset and limit the windowed loop returns the window after
the token, cut at the limit, together with the `nextToken` that goes with it. -/
theorem GetVolumesWithStartingToken_served (p : Provider) (parent : String) (all : List Volume)
    (hserve : ServesVolumes p parent all) (startingToken : String) (limit : Int)
    (hlimit : 0 ≤ limit) (log : Trace) (fuel : Nat) (hfuel : all.length / 99 < fuel) :
    (GetVolumesWithStartingToken p parent startingToken limit fuel log).1
      = some (.ok
          (if limit = 0 then windowAfter Volume.Path startingToken all
            else (windowAfter Volume.Path startingToken all).take limit.toNat,
           nextTokenOf Volume.Path limit
            (if limit = 0 then windowAfter Volume.Path startingToken all
              else (windowAfter Volume.Path startingToken all).take limit.toNat))) := by
  have hst : limit = 0 ∨ ((([] : List Volume).length : Nat) : Int) < limit := by
    simp only [List.length_nil, Nat.cast_zero]; omega
  unfold GetVolumesWithStartingToken
  rw [GetVolumesWithStartingToken_loop_eq_walkToken]
  have h := walkToken_served Volume.Path (GetVolumesSlice p parent (nsFilesystemListLimit - 1))
    startingToken limit all 99 0 (le_refl 99)
    (fun o log _ => ⟨_, GetVolumesSlice_served p parent all hserve o log⟩)
    fuel 0 ([], "", decide (startingToken = "")) nsFilesystemListLimit log (Nat.zero_le 0)
    (by decide) (by omega) hst
  rw [List.drop_zero] at h
  rw [scanSlice_nextToken Volume.Path startingToken limit all [] _ hst,
    scanSlice_window Volume.Path startingToken limit all hlimit] at h
  simpa using h

/-- In a list with pairwise distinct paths, the window after the path of a record is
what follows that record. -/
theorem windowAfter_of_distinct {α : Type} (path : α → String) (init rest : List α) (z : α)
    (hdistinct : ((init ++ z :: rest).map path).Nodup) (hz : path z ≠ "") :
    windowAfter path (path z) (init ++ z :: rest) = rest := by
  have hinit : ∀ a ∈ init, (fun r => decide (path r ≠ path z)) a = true := by
    intro a ha
    have hnd := hdistinct
    rw [List.map_append, List.map_cons] at hnd
    have hdisj := (List.nodup_append.mp hnd).2.2
    have hne : path a ≠ path z := fun heq =>
      hdisj (List.mem_map_of_mem path ha) (by rw [heq]; exact List.mem_cons_self _ _)
    simpa using hne
  simp only [windowAfter, if_neg hz]
  rw [List.dropWhile_append_of_pos hinit]
  simp [List.dropWhile_cons]

theorem childrenUpTo_path_ne (n : Nat) : ∀ c ∈ childrenUpTo n, c.Path ≠ "pool/fs" := by
  intro c hc
  simp only [childrenUpTo, List.mem_map, List.mem_range] at hc
  obtain ⟨i, _, rfl⟩ := hc
  intro h
  have hlen := congrArg String.length h
  simp only [filesystemAt, String.length_append] at hlen
  have h1 : "pool/fs/child-".length = 14 := by decide
  have h2 : "pool/fs".length = 7 := by decide
  omega

/-! ## What a successful filesystem walk returns -/

theorem GetFilesystemsSlice_ok (p : Provider) (parent : String) (limit offset : Int)
    (log log1 : Trace) (fs : List Filesystem)
    (h : GetFilesystemsSlice p parent limit offset log = (.ok fs, log1)) :
    log1 = log ++ [filesystemsRequest parent (limit + 1) offset] ∧
      fs = nonParentRecords parent (p.respond log (filesystemsRequest parent (limit + 1) offset)) := by
  by_cases h1 : limit ≤ 0 ∨ limit ≥ nsFilesystemListLimit
  · simp [GetFilesystemsSlice, h1] at h
  · by_cases h2 : offset < 0
    · simp [GetFilesystemsSlice, h1, h2] at h
    · rw [GetFilesystemsSlice_accepted p parent limit offset log
        (by unfold nsFilesystemListLimit at h1; omega)
        (by unfold nsFilesystemListLimit at h1 ⊢; omega) (by omega)] at h
      cases herr : (p.respond log (filesystemsRequest parent (limit + 1) offset)).err with
      | some e => simp [herr] at h
      | none =>
        simp only [herr, Prod.mk.injEq, Except.ok.injEq] at h
        exact ⟨h.2.symm, h.1.symm⟩

theorem walkAll_filesystems_pages (p : Provider) (parent : String) :
    ∀ (fuel : Nat) (acc : List Filesystem) (offset last : Int) (log : Trace)
      (fs : List Filesystem),
      (walkAll (GetFilesystemsSlice p parent (nsFilesystemListLimit - 1)) fuel acc offset last
        log).1 = some (.ok fs) →
      ∃ sent : List Request,
        (walkAll (GetFilesystemsSlice p parent (nsFilesystemListLimit - 1)) fuel acc offset last
          log).2 = log ++ sent ∧
        fs = acc ++ (repliesAlong p log sent).flatMap (nonParentRecords parent) := by
  intro fuel
  induction fuel with
  | zero =>
    intro acc offset last log fs h
    by_cases hc : last ≥ nsFilesystemListLimit - 1
    · simp [walkAll, hc] at h
    · simp only [walkAll, hc, if_false, Option.some.injEq, Except.ok.injEq] at h ⊢
      exact ⟨[], by simp, by simp [repliesAlong, h]⟩
  | succ n ih =>
    intro acc offset last log fs h
    by_cases hc : last ≥ nsFilesystemListLimit - 1
    · simp only [walkAll, hc, if_true] at h ⊢
      rcases hf : GetFilesystemsSlice p parent (nsFilesystemListLimit - 1) offset log with
        ⟨r, log1⟩
      rw [hf] at h
      cases r with
      | error e => simp at h
      | ok slice =>
        simp only at h ⊢
        obtain ⟨hlog, hslice⟩ := GetFilesystemsSlice_ok p parent _ offset log log1 slice hf
        obtain ⟨sent, hsent, hfs⟩ := ih _ _ _ _ fs h
        refine ⟨filesystemsRequest parent (nsFilesystemListLimit - 1 + 1) offset :: sent, ?_, ?_⟩
        · rw [hsent, hlog]
          simp
        · rw [hfs, hslice, hlog]
          simp [repliesAlong]
    · simp only [walkAll, hc, if_false, Option.some.injEq, Except.ok.injEq] at h ⊢
      exact ⟨[], by simp, by simp [repliesAlong, h]⟩

/-! ## Claims -/

/-- C1: full enumeration is complete and order-preserving. When the appliance answers
every slice request for the volumes under `parent` with the records of `all` at
positions `offset .. offset+limit-1`, `GetVolumes(parent)` ends (any fuel above
`len(all) / 99` is enough) and returns exactly `all`, in order, with no error. -/
theorem GetVolumes_complete (p : Provider) (parent : String) (all : List Volume)
    (hserve : ServesVolumes p parent all) (log : Trace) (fuel : Nat)
    (hfuel : all.length / 99 < fuel) :
    (GetVolumes p parent fuel log).1 = some (.ok all) :=
  GetVolumes_complete_aux p parent all hserve log fuel hfuel

theorem GetVolumes_complete_witness :
    ServesVolumes (storageAppliance (volumesUpTo 198) []) "pool/vg" (volumesUpTo 198) ∧
      (GetVolumes (storageAppliance (volumesUpTo 198) []) "pool/vg" 3 []).1
        = some (.ok (volumesUpTo 198)) :=
  ⟨storageAppliance_servesVolumes _ _ _,
   GetVolumes_complete (storageAppliance (volumesUpTo 198) []) "pool/vg" (volumesUpTo 198)
     (storageAppliance_servesVolumes _ _ _) [] 3 (by simp [volumesUpTo])⟩

/-- C2: `GetFilesystems` returns every child exactly once. When the appliance listing is
the parent record followed by the children (records whose path is not the parent's) and
every request is answered with the listing's records at positions
`offset .. offset+limit-1`, `GetFilesystems(parent)` ends and returns exactly the
children, in listing order, with no error. -/
theorem GetFilesystems_children (p : Provider) (parent : String) (parentRecord : Filesystem)
    (children : List Filesystem) (hchildren : ∀ c ∈ children, c.Path ≠ parent)
    (hserve : ServesFilesystems p parent (parentRecord :: children)) (log : Trace) (fuel : Nat)
    (hfuel : children.length / 99 < fuel) :
    (GetFilesystems p parent fuel log).1 = some (.ok children) := by
  unfold GetFilesystems
  rw [GetFilesystems_loop_eq_walkAll]
  have hfetch : ∀ (o : Nat) (log : Trace), 1 ≤ o →
      GetFilesystemsSlice p parent (nsFilesystemListLimit - 1) (o : Int) log
        = (.ok (((parentRecord :: children).drop o).take 100),
           log ++ [filesystemsRequest parent 100 o]) := by
    intro o log ho
    rw [GetFilesystemsSlice_served p parent _ hserve o log]
    congr 2
    apply List.filter_eq_self.mpr
    intro c hc
    obtain ⟨k, rfl⟩ : ∃ k, o = k + 1 := ⟨o - 1, by omega⟩
    have hmem : c ∈ children := by
      rw [List.drop_succ_cons] at hc
      exact List.mem_of_mem_drop (List.mem_of_mem_take hc)
    simpa using hchildren c hmem
  have h := walkAll_served (GetFilesystemsSlice p parent (nsFilesystemListLimit - 1))
    (fun o => filesystemsRequest parent 100 o) (parentRecord :: children) 100 1 (by decide)
    hfetch fuel 1 [] nsFilesystemListLimit log (le_refl 1) (by decide)
    (by simp only [List.length_cons]; omega)
  simpa using h

theorem GetFilesystems_children_witness :
    (∀ c ∈ childrenUpTo 101, c.Path ≠ "pool/fs") ∧
      ServesFilesystems (storageAppliance [] (filesystemAt "pool/fs" :: childrenUpTo 101))
        "pool/fs" (filesystemAt "pool/fs" :: childrenUpTo 101) ∧
      (GetFilesystems (storageAppliance [] (filesystemAt "pool/fs" :: childrenUpTo 101))
        "pool/fs" 2 []).1 = some (.ok (childrenUpTo 101)) :=
  ⟨childrenUpTo_path_ne 101, storageAppliance_servesFilesystems _ _ _,
   GetFilesystems_children (storageAppliance [] (filesystemAt "pool/fs" :: childrenUpTo 101))
     "pool/fs" (filesystemAt "pool/fs") (childrenUpTo 101) (childrenUpTo_path_ne 101)
     (storageAppliance_servesFilesystems _ _ _) [] 2 (by simp [childrenUpTo])⟩

/-- C3: the parent is never part of a filesystem listing result. Whatever the appliance
answers, a successful `GetFilesystemsSlice(parent, limit, offset)` returns the records of
the response whose path is not `parent`, in response order, and a successful
`GetFilesystems(parent)` returns, for the requests it sent, those records of each
response, response after response; no returned record has the path `parent`. -/
theorem parent_never_listed (p : Provider) (parent : String) :
    (∀ (limit offset : Int) (log : Trace) (fs : List Filesystem),
      (GetFilesystemsSlice p parent limit offset log).1 = .ok fs →
        fs = nonParentRecords parent
              (p.respond log (filesystemsRequest parent (limit + 1) offset)) ∧
          ∀ f ∈ fs, f.Path ≠ parent) ∧
    (∀ (fuel : Nat) (log : Trace) (fs : List Filesystem),
      (GetFilesystems p parent fuel log).1 = some (.ok fs) →
        (∃ sent : List Request, (GetFilesystems p parent fuel log).2 = log ++ sent ∧
          fs = (repliesAlong p log sent).flatMap (nonParentRecords parent)) ∧
          ∀ f ∈ fs, f.Path ≠ parent) := by
  refine ⟨?_, ?_⟩
  · intro limit offset log fs h
    have h1 := (GetFilesystemsSlice_ok p parent limit offset log
      (GetFilesystemsSlice p parent limit offset log).2 fs (by rw [← h])).2
    refine ⟨h1, ?_⟩
    intro f hf
    rw [h1] at hf
    simpa using (List.mem_filter.mp hf).2
  · intro fuel log fs h
    unfold GetFilesystems at h ⊢
    rw [GetFilesystems_loop_eq_walkAll] at h ⊢
    obtain ⟨sent, hsent, hfs⟩ := walkAll_filesystems_pages p parent fuel [] 1 _ log fs h
    refine ⟨⟨sent, hsent, by simpa using hfs⟩, ?_⟩
    intro f hf
    rw [hfs] at hf
    simp only [List.nil_append, List.mem_flatMap] at hf
    obtain ⟨r, _, hr⟩ := hf
    simpa using (List.mem_filter.mp hr).2

theorem parent_never_listed_witness :
    (GetFilesystemsSlice sampleAppliance "pool/fs" 2 0 []).1
        = .ok [filesystemAt "pool/fs/child-1", filesystemAt "pool/fs/child-2"] ∧
      ∀ f ∈ [filesystemAt "pool/fs/child-1", filesystemAt "pool/fs/child-2"],
        f.Path ≠ "pool/fs" :=
  ⟨by rfl,
   ((parent_never_listed sampleAppliance "pool/fs").1 2 0 []
      [filesystemAt "pool/fs/child-1", filesystemAt "pool/fs/child-2"] (by rfl)).2⟩

/-- C4: slice arguments are validated before any network call. Each of the four slice
functions returns a plain error and sends nothing when `limit <= 0`, `limit >= 100` or
`offset < 0`, and sends exactly one request when `0 < limit < 100` and `offset >= 0`. -/
theorem slice_arguments_validated (p : Provider) (parent : String) (limit offset : Int)
    (log : Trace) :
    ((limit ≤ 0 ∨ limit ≥ 100 ∨ offset < 0) →
      (∃ msg, GetFilesystemsSlice p parent limit offset log = (.error (.errorf msg), log)) ∧
      (∃ msg, GetVolumesSlice p parent limit offset log = (.error (.errorf msg), log)) ∧
      (∃ msg, GetLunMappingsSlice p limit offset log = (.error (.errorf msg), log)) ∧
      (∃ msg, GetLogicalUnitsSlice p limit offset log = (.error (.errorf msg), log))) ∧
    ((0 < limit ∧ limit < 100 ∧ 0 ≤ offset) →
      (GetFilesystemsSlice p parent limit offset log).2
        = log ++ [filesystemsRequest parent (limit + 1) offset] ∧
      (GetVolumesSlice p parent limit offset log).2
        = log ++ [volumesRequest parent limit offset] ∧
      (GetLunMappingsSlice p limit offset log).2 = log ++ [lunMappingsRequest limit offset] ∧
      (GetLogicalUnitsSlice p limit offset log).2 = log ++ [logicalUnitsRequest limit offset]) := by
  refine ⟨?_, ?_⟩
  · intro h
    by_cases h1 : limit ≤ 0 ∨ limit ≥ nsFilesystemListLimit
    · simp [GetFilesystemsSlice, GetVolumesSlice, GetLunMappingsSlice, GetLogicalUnitsSlice, h1]
    · have h2 : offset < 0 := by unfold nsFilesystemListLimit at h1; omega
      simp [GetFilesystemsSlice, GetVolumesSlice, GetLunMappingsSlice, GetLogicalUnitsSlice, h1,
        h2]
  · rintro ⟨hl, hu, ho⟩
    have h1 : ¬ (limit ≤ 0 ∨ limit ≥ nsFilesystemListLimit) := by
      unfold nsFilesystemListLimit; omega
    have h2 : ¬ offset < 0 := by omega
    refine ⟨?_, ?_, ?_, ?_⟩
    · simp only [GetFilesystemsSlice, h1, h2, if_false, Provider.sendRequestWithStruct]
      split <;> rfl
    · simp only [GetVolumesSlice, h1, h2, if_false, Provider.sendRequestWithStruct]
      split <;> rfl
    · simp only [GetLunMappingsSlice, h1, h2, if_false, Provider.sendRequestWithStruct]
      split <;> rfl
    · simp only [GetLogicalUnitsSlice, h1, h2, if_false, Provider.sendRequestWithStruct]
      split <;> rfl

theorem slice_arguments_validated_witness :
    (∃ msg, GetFilesystemsSlice sampleAppliance "pool/fs" 0 0 []
        = (.error (.errorf msg), [])) ∧
      (GetFilesystemsSlice sampleAppliance "pool/fs" 2 0 []).2
        = [filesystemsRequest "pool/fs" 3 0] :=
  ⟨((slice_arguments_validated sampleAppliance "pool/fs" 0 0 []).1 (by decide)).1,
   ((slice_arguments_validated sampleAppliance "pool/fs" 2 0 []).2 (by decide)).1⟩

/-- C5: windowed enumeration returns the contiguous window after the token. Over the
volumes `all` served by offset and limit, for every `startingToken` and every
`limit >= 0`, `GetVolumesWithStartingToken` ends and returns the records of `all` that
follow the first record whose path is `startingToken` (all of `all` when `startingToken`
is empty), cut to the first `limit` of them when `limit > 0` and uncut when `limit = 0`. -/
theorem GetVolumesWithStartingToken_window (p : Provider) (parent : String) (all : List Volume)
    (hserve : ServesVolumes p parent all) (startingToken : String) (limit : Int)
    (hlimit : 0 ≤ limit) (log : Trace) (fuel : Nat) (hfuel : all.length / 99 < fuel) :
    ∃ nextToken,
      (GetVolumesWithStartingToken p parent startingToken limit fuel log).1
        = some (.ok
            (if limit = 0 then windowAfter Volume.Path startingToken all
              else (windowAfter Volume.Path startingToken all).take limit.toNat,
             nextToken)) :=
  ⟨_, GetVolumesWithStartingToken_served p parent all hserve startingToken limit hlimit log fuel
    hfuel⟩

theorem GetVolumesWithStartingToken_window_witness :
    ServesVolumes sampleAppliance "pool/vg" sampleVolumes ∧
      ∃ nextToken,
        (GetVolumesWithStartingToken sampleAppliance "pool/vg" "pool/vg/v1" 1 1 []).1
          = some (.ok
              (if (1 : Int) = 0 then windowAfter Volume.Path "pool/vg/v1" sampleVolumes
                else (windowAfter Volume.Path "pool/vg/v1" sampleVolumes).take (1 : Int).toNat,
               nextToken)) :=
  ⟨storageAppliance_servesVolumes _ _ _,
   GetVolumesWithStartingToken_window sampleAppliance "pool/vg" sampleVolumes
     (storageAppliance_servesVolumes _ _ _) "pool/vg/v1" 1 (by decide) [] 1 (by decide)⟩

/-- C6: `nextToken` is the path of the last collected record exactly when the limit is
reached. Over volumes, and over a filesystem listing, served by offset and limit, for
every `startingToken` and every `limit`, `GetVolumesWithStartingToken` and
`GetFilesystemsWithStartingToken` end without error, and the `nextToken` they return is
the path of the last returned record when `limit > 0` and exactly `limit` records are
returned, and the empty string in every other case. -/
theorem nextToken_when_limit_reached (p : Provider) (parent : String) (all : List Volume)
    (listing : List Filesystem) (hvolumes : ServesVolumes p parent all)
    (hfilesystems : ServesFilesystems p parent listing) (startingToken : String) (limit : Int)
    (log : Trace) (fuel : Nat) (hfuelv : all.length / 99 < fuel)
    (hfuelf : listing.length / 99 < fuel) :
    (∃ volumes nextToken,
      (GetVolumesWithStartingToken p parent startingToken limit fuel log).1
        = some (.ok (volumes, nextToken)) ∧
      nextToken = nextTokenOf Volume.Path limit volumes) ∧
    (∃ filesystems nextToken,
      (GetFilesystemsWithStartingToken p parent startingToken limit fuel log).1
        = some (.ok (filesystems, nextToken)) ∧
      nextToken = nextTokenOf Filesystem.Path limit filesystems) := by
  have hinit : ∀ {α : Type} (path : α → String),
      ("" : String) = nextTokenOf path limit ([] : List α) := by
    intro α path
    have hne : ¬ (0 < limit ∧ (0 : Int) = limit) := by omega
    simp [nextTokenOf, hne]
  refine ⟨?_, ?_⟩
  · obtain ⟨⟨volumes, nextToken⟩, hr⟩ := GetVolumesWithStartingToken_terminates p parent all
      hvolumes startingToken limit log fuel hfuelv
    refine ⟨volumes, nextToken, hr, ?_⟩
    unfold GetVolumesWithStartingToken at hr
    rw [GetVolumesWithStartingToken_loop_eq_walkToken] at hr
    exact walkToken_nextToken Volume.Path _ startingToken limit fuel _ _ _ log volumes
      nextToken (hinit Volume.Path) hr
  · obtain ⟨⟨filesystems, nextToken⟩, hr⟩ := GetFilesystemsWithStartingToken_terminates p
      parent listing hfilesystems startingToken limit log fuel hfuelf
    refine ⟨filesystems, nextToken, hr, ?_⟩
    unfold GetFilesystemsWithStartingToken at hr
    rw [GetFilesystemsWithStartingToken_loop_eq_walkToken] at hr
    exact walkToken_nextToken Filesystem.Path _ startingToken limit fuel _ _ _ log filesystems
      nextToken (hinit Filesystem.Path) hr

theorem nextToken_when_limit_reached_witness :
    ServesVolumes sampleAppliance "pool/fs" sampleVolumes ∧
      ServesFilesystems sampleAppliance "pool/fs" (filesystemAt "pool/fs" :: sampleChildren) ∧
      (∃ volumes nextToken,
        (GetVolumesWithStartingToken sampleAppliance "pool/fs" "" 2 1 []).1
          = some (.ok (volumes, nextToken)) ∧
        nextToken = nextTokenOf Volume.Path 2 volumes) ∧
      (∃ filesystems nextToken,
        (GetFilesystemsWithStartingToken sampleAppliance "pool/fs" "" 2 1 []).1
          = some (.ok (filesystems, nextToken)) ∧
        nextToken = nextTokenOf Filesystem.Path 2 filesystems) :=
  ⟨storageAppliance_servesVolumes _ _ _, storageAppliance_servesFilesystems _ _ _,
   nextToken_when_limit_reached sampleAppliance "pool/fs" sampleVolumes
     (filesystemAt "pool/fs" :: sampleChildren) (storageAppliance_servesVolumes _ _ _)
     (storageAppliance_servesFilesystems _ _ _) "" 2 [] 1 (by decide) (by decide)⟩

/-- C7: windowed enumeration composition law. Over volumes with pairwise distinct
non-empty paths served by offset and limit, for `N > 0` and `M > 0`: the first window
`GetVolumesWithStartingToken(parent, "", N)` returns `(w1, t1)`; when `t1` is non-empty
the window `GetVolumesWithStartingToken(parent, t1, M)` returns `(w2, _)` and `w1`
followed by `w2` is the first `N + M` records of `GetVolumes(parent)`; when `t1` is
empty `w1` is all of `GetVolumes(parent)`. -/
theorem windowed_composition (p : Provider) (parent : String) (all : List Volume)
    (hserve : ServesVolumes p parent all) (hdistinct : (all.map Volume.Path).Nodup)
    (hnonempty : ∀ v ∈ all, v.Path ≠ "") (N M : Int) (hN : 0 < N) (hM : 0 < M)
    (log1 log2 log3 : Trace) (fuel : Nat) (hfuel : all.length / 99 < fuel) :
    ∃ w1 t1 full,
      (GetVolumesWithStartingToken p parent "" N fuel log1).1 = some (.ok (w1, t1)) ∧
      (GetVolumes p parent fuel log3).1 = some (.ok full) ∧
      (t1 ≠ "" →
        ∃ w2 t2,
          (GetVolumesWithStartingToken p parent t1 M fuel log2).1 = some (.ok (w2, t2)) ∧
          w1 ++ w2 = full.take (N + M).toNat) ∧
      (t1 = "" → w1 = full) := by
  have h1 := GetVolumesWithStartingToken_served p parent all hserve "" N (le_of_lt hN) log1 fuel
    hfuel
  have hN0 : N ≠ 0 := by omega
  have hM0 : M ≠ 0 := by omega
  simp only [if_neg hN0, windowAfter, if_true] at h1
  refine ⟨_, _, all, h1, GetVolumes_complete_aux p parent all hserve log3 fuel hfuel, ?_, ?_⟩
  · intro ht1
    have hcond : 0 < N ∧ ((all.take N.toNat).length : Int) = N := by
      by_contra hc
      exact ht1 (by simp only [nextTokenOf, if_neg hc])
    simp only [nextTokenOf, if_pos hcond] at ht1 ⊢
    cases hlast : (all.take N.toNat).getLast? with
    | none => simp [hlast] at ht1
    | some z =>
      simp only [hlast, Option.map_some', Option.getD_some] at ht1 ⊢
      obtain ⟨init, hinit⟩ := List.getLast?_eq_some_iff.mp hlast
      have hall : all = init ++ z :: all.drop N.toNat := by
        conv_lhs => rw [← List.take_append_drop N.toNat all, hinit]
        simp
      have hwin : windowAfter Volume.Path z.Path all = all.drop N.toNat := by
        conv_lhs => rw [hall]
        exact windowAfter_of_distinct Volume.Path init (all.drop N.toNat) z
          (by rw [← hall]; exact hdistinct) ht1
      have h2 := GetVolumesWithStartingToken_served p parent all hserve z.Path M (le_of_lt hM)
        log2 fuel hfuel
      simp only [if_neg hM0, hwin] at h2
      refine ⟨_, _, h2, ?_⟩
      rw [Int.toNat_add (le_of_lt hN) (le_of_lt hM), List.take_add]
  · intro ht1
    by_cases hcond : 0 < N ∧ ((all.take N.toNat).length : Int) = N
    · exfalso
      simp only [nextTokenOf, if_pos hcond] at ht1
      cases hlast : (all.take N.toNat).getLast? with
      | none =>
        have hnil : all.take N.toNat = [] := List.getLast?_eq_none_iff.mp hlast
        rw [hnil] at hcond
        simp only [List.length_nil, Nat.cast_zero] at hcond
        omega
      | some z =>
        simp only [hlast, Option.map_some', Option.getD_some] at ht1
        have hz : z ∈ all.take N.toNat := List.mem_of_getLast?_eq_some hlast
        exact hnonempty z (List.mem_of_mem_take hz) ht1
    · apply List.take_of_length_le
      have hlen : (all.take N.toNat).length = min N.toNat all.length := List.length_take _ _
      have : ¬ ((all.take N.toNat).length : Int) = N := fun h => hcond ⟨hN, h⟩
      omega

theorem windowed_composition_witness :
    ServesVolumes sampleAppliance "pool/vg" sampleVolumes ∧
      (sampleVolumes.map Volume.Path).Nodup ∧ (∀ v ∈ sampleVolumes, v.Path ≠ "") ∧
      ∃ w1 t1 full,
        (GetVolumesWithStartingToken sampleAppliance "pool/vg" "" 1 1 []).1
          = some (.ok (w1, t1)) ∧
        (GetVolumes sampleAppliance "pool/vg" 1 []).1 = some (.ok full) ∧
        (t1 ≠ "" →
          ∃ w2 t2,
            (GetVolumesWithStartingToken sampleAppliance "pool/vg" t1 1 1 []).1
              = some (.ok (w2, t2)) ∧
            w1 ++ w2 = full.take ((1 : Int) + 1).toNat) ∧
        (t1 = "" → w1 = full) :=
  ⟨storageAppliance_servesVolumes _ _ _, by decide, by decide,
   windowed_composition sampleAppliance "pool/vg" sampleVolumes
     (storageAppliance_servesVolumes _ _ _) (by decide) (by decide) 1 1 (by decide) (by decide)
     [] [] [] 1 (by decide)⟩

/-- C8: a starting token that is not present is not an error. Over volumes, and over a
filesystem listing, served by offset and limit, for a non-empty `startingToken` that is
the path of no record and for every `limit`, `GetVolumesWithStartingToken` and
`GetFilesystemsWithStartingToken` end and return an empty list, an empty `nextToken`
and no error. -/
theorem absent_startingToken_is_empty (p : Provider) (parent : String) (all : List Volume)
    (listing : List Filesystem) (hvolumes : ServesVolumes p parent all)
    (hfilesystems : ServesFilesystems p parent listing) (startingToken : String)
    (hnonempty : startingToken ≠ "") (habsentv : ∀ v ∈ all, v.Path ≠ startingToken)
    (habsentf : ∀ f ∈ listing, f.Path ≠ startingToken) (limit : Int) (log : Trace) (fuel : Nat)
    (hfuelv : all.length / 99 < fuel) (hfuelf : listing.length / 99 < fuel) :
    (GetVolumesWithStartingToken p parent startingToken limit fuel log).1 = some (.ok ([], "")) ∧
    (GetFilesystemsWithStartingToken p parent startingToken limit fuel log).1
      = some (.ok ([], "")) := by
  have hd : decide (startingToken = "") = false := by simp [hnonempty]
  refine ⟨?_, ?_⟩
  · obtain ⟨r, hr⟩ := GetVolumesWithStartingToken_terminates p parent all hvolumes
      startingToken limit log fuel hfuelv
    rw [hr]
    unfold GetVolumesWithStartingToken at hr
    rw [GetVolumesWithStartingToken_loop_eq_walkToken, hd] at hr
    rw [walkToken_absent Volume.Path _ startingToken limit
      (fun o log page log1 hf x hx =>
        habsentv x (GetVolumesSlice_served_mem p parent all hvolumes _ o log log1 page hf x hx))
      fuel [] "" _ _ log r hr]
  · obtain ⟨r, hr⟩ := GetFilesystemsWithStartingToken_terminates p parent listing hfilesystems
      startingToken limit log fuel hfuelf
    rw [hr]
    unfold GetFilesystemsWithStartingToken at hr
    rw [GetFilesystemsWithStartingToken_loop_eq_walkToken, hd] at hr
    rw [walkToken_absent Filesystem.Path _ startingToken limit
      (fun o log page log1 hf x hx =>
        habsentf x
          (GetFilesystemsSlice_served_mem p parent listing hfilesystems _ o log log1 page hf x hx))
      fuel [] "" _ _ log r hr]

theorem absent_startingToken_is_empty_witness :
    ServesVolumes sampleAppliance "pool/fs" sampleVolumes ∧
      ServesFilesystems sampleAppliance "pool/fs" (filesystemAt "pool/fs" :: sampleChildren) ∧
      (GetVolumesWithStartingToken sampleAppliance "pool/fs" "pool/gone" 2 1 []).1
        = some (.ok ([], "")) ∧
      (GetFilesystemsWithStartingToken sampleAppliance "pool/fs" "pool/gone" 2 1 []).1
        = some (.ok ([], "")) :=
  ⟨storageAppliance_servesVolumes _ _ _, storageAppliance_servesFilesystems _ _ _,
   absent_startingToken_is_empty sampleAppliance "pool/fs" sampleVolumes
     (filesystemAt "pool/fs" :: sampleChildren) (storageAppliance_servesVolumes _ _ _)
     (storageAppliance_servesFilesystems _ _ _) "pool/gone" (by decide) (by decide) (by decide)
     2 [] 1 (by decide) (by decide)⟩

/-- C9: full enumeration terminates and always checks one more page after a full one.
Over `n` volumes served by offset and limit, `GetVolumes` ends with the whole list after
exactly `n / 99 + 1` slice requests, the `k`-th of them at offset `99 * k`; with exactly
99 records the second request, at offset 99, is answered with an empty page. -/
theorem GetVolumes_fetches (p : Provider) (parent : String) (all : List Volume)
    (hserve : ServesVolumes p parent all) (log : Trace) (fuel : Nat)
    (hfuel : all.length / 99 < fuel) :
    GetVolumes p parent fuel log
        = (some (.ok all),
           log ++ (List.range (all.length / 99 + 1)).map
             (fun (k : Nat) => volumesRequest parent 99 (99 * (k : Int)))) ∧
      (all.length = 99 →
        (GetVolumesSlice p parent 99 99 (log ++ [volumesRequest parent 99 0])).1 = .ok []) := by
  refine ⟨?_, ?_⟩
  · have h1 := GetVolumes_complete_aux p parent all hserve log fuel hfuel
    have h2 := walkAll_served_trace (GetVolumesSlice p parent (nsFilesystemListLimit - 1))
      (fun o => volumesRequest parent 99 o) all
      (fun o log => GetVolumesSlice_served p parent all hserve o log)
      fuel 0 [] nsFilesystemListLimit log (by decide) (by omega)
    unfold GetVolumes at h1 ⊢
    rw [GetVolumes_loop_eq_walkAll] at h1 ⊢
    refine Prod.ext h1 ?_
    simpa using h2
  · intro h99
    have h := GetVolumesSlice_served p parent all hserve 99 (log ++ [volumesRequest parent 99 0])
    have hnil : (all.drop 99).take 99 = [] := by
      rw [List.drop_of_length_le (by omega)]
      rfl
    rw [hnil] at h
    have hcast : ((99 : Nat) : Int) = 99 := rfl
    rw [hcast] at h
    have hlim : nsFilesystemListLimit - 1 = 99 := rfl
    rw [hlim] at h
    rw [h]

theorem GetVolumes_fetches_witness :
    ServesVolumes (storageAppliance (volumesUpTo 99) []) "pool/vg" (volumesUpTo 99) ∧
      GetVolumes (storageAppliance (volumesUpTo 99) []) "pool/vg" 2 []
        = (some (.ok (volumesUpTo 99)),
           [volumesRequest "pool/vg" 99 0, volumesRequest "pool/vg" 99 99]) ∧
      (GetVolumesSlice (storageAppliance (volumesUpTo 99) []) "pool/vg" 99 99
        [volumesRequest "pool/vg" 99 0]).1 = .ok [] := by
  have hlen : (volumesUpTo 99).length = 99 := by simp [volumesUpTo]
  have h := GetVolumes_fetches (storageAppliance (volumesUpTo 99) []) "pool/vg" (volumesUpTo 99)
    (storageAppliance_servesVolumes _ _ _) [] 2 (by rw [hlen]; decide)
  rw [hlen] at h
  refine ⟨storageAppliance_servesVolumes _ _ _, ?_, ?_⟩
  · simpa [List.range_succ] using h.1
  · simpa using h.2 rfl

/-- C10: a slice is not bounded by its limit when the parent is not part of the response.
Over `pool/fs` listed before its five children, `GetFilesystemsSlice("pool/fs", 2, 1)` asks
the appliance for `2 + 1` records from offset 1, gets the three children at positions
1 to 3, no more than it asked for, filters nothing out and returns three records for a
limit of two. -/
theorem GetFilesystemsSlice_exceeds_limit :
    (GetFilesystemsSlice sampleAppliance "pool/fs" 2 1 []).1
        = .ok [filesystemAt "pool/fs/child-1", filesystemAt "pool/fs/child-2",
            filesystemAt "pool/fs/child-3"] ∧
      (GetFilesystemsSlice sampleAppliance "pool/fs" 2 1 []).2
        = [filesystemsRequest "pool/fs" 3 1] ∧
      (sampleAppliance.respond [] (filesystemsRequest "pool/fs" 3 1)).body.asStorageFilesystems.Data.length
        ≤ 3 ∧
      ¬ ([filesystemAt "pool/fs/child-1", filesystemAt "pool/fs/child-2",
            filesystemAt "pool/fs/child-3"].length ≤ 2) :=
  ⟨by rfl, by rfl, by decide, by decide⟩

/-! ## What the single requests return -/

theorem destroyFilesystem_sent (p : Provider) (path : String) (destroySnapshots : Bool)
    (log : Trace) (hpath : path ≠ "") :
    destroyFilesystem p path destroySnapshots log
      = ((p.respond log (destroyFilesystemRequest path destroySnapshots)).err,
         log ++ [destroyFilesystemRequest path destroySnapshots]) := by
  simp [destroyFilesystem, hpath, Provider.sendRequest, destroyFilesystemRequest]

theorem destroyFilesystem_empty (p : Provider) (destroySnapshots : Bool) (log : Trace) :
    destroyFilesystem p "" destroySnapshots log
      = (some (.errorf "Filesystem path is required"), log) := by
  simp [destroyFilesystem]

/-! ## Claims on destroy, jobs and lookups -/

/-- C11: the first destroy attempt decides the result unless promotion is requested and
the appliance answers EEXIST. When the first plain destroy succeeds, or fails with an
error that is not classified already-exists, or `PromoteMostRecentCloneIfExists` is
false, `DestroyFilesystem` returns the result of that destroy call unchanged and its
trace is the trace of that call: for a non-empty path exactly one request, the plain
destroy, and nothing else. -/
theorem DestroyFilesystem_first_attempt_decides (p : Provider) (path : String)
    (params : DestroyFilesystemParams) (log : Trace)
    (h : (destroyFilesystem p path params.DestroySnapshots log).1 = none ∨
      IsAlreadyExistNefError (destroyFilesystem p path params.DestroySnapshots log).1 = false ∨
      params.PromoteMostRecentCloneIfExists = false) :
    DestroyFilesystem p path params log = destroyFilesystem p path params.DestroySnapshots log ∧
      (path ≠ "" →
        (DestroyFilesystem p path params log).2
          = log ++ [destroyFilesystemRequest path params.DestroySnapshots]) := by
  have hfirst : DestroyFilesystem p path params log
      = destroyFilesystem p path params.DestroySnapshots log := by
    unfold DestroyFilesystem
    rcases hd : destroyFilesystem p path params.DestroySnapshots log with ⟨err, log1⟩
    rw [hd] at h
    cases err with
    | none => rfl
    | some e =>
      simp only at h ⊢
      rcases h with h | h | h
      · cases h
      · simp [h]
      · simp [h]
  refine ⟨hfirst, ?_⟩
  intro hpath
  rw [hfirst, destroyFilesystem_sent p path _ log hpath]

theorem DestroyFilesystem_first_attempt_decides_witness :
    IsAlreadyExistNefError
        (destroyFilesystem (tableAppliance []) "pool/fs" true []).1 = false ∧
      DestroyFilesystem (tableAppliance []) "pool/fs" ⟨true, true⟩ []
        = (some (.nef "ENOENT" "not found"), [destroyFilesystemRequest "pool/fs" true]) := by
  have h := DestroyFilesystem_first_attempt_decides (tableAppliance []) "pool/fs" ⟨true, true⟩ []
    (Or.inr (Or.inl (by rfl)))
  refine ⟨by rfl, ?_⟩
  rw [h.1]
  rfl

/-- C15: `IsJobDone` folds the job status into three outcomes. It returns `(true, nil)`
exactly when the transport reports no error and the status code is 200 or 201,
`(false, nil)` exactly when the transport reports no error and the status code is 202,
and in every other case `false` with the transport error, else the classified error
parsed from the body, else a generic error with the status code and the body; it never
returns `true` together with an error, and it sends exactly one request. -/
theorem IsJobDone_outcomes (p : Provider) (jobID : String) (log : Trace) :
    ((IsJobDone p jobID log).1 = (true, none) ↔
      (p.Send log (jobStatusRequest jobID)).err = none ∧
        ((p.Send log (jobStatusRequest jobID)).statusCode = 200 ∨
          (p.Send log (jobStatusRequest jobID)).statusCode = 201)) ∧
    ((IsJobDone p jobID log).1 = (false, none) ↔
      (p.Send log (jobStatusRequest jobID)).err = none ∧
        (p.Send log (jobStatusRequest jobID)).statusCode = 202) ∧
    (¬ ((p.Send log (jobStatusRequest jobID)).err = none ∧
        ((p.Send log (jobStatusRequest jobID)).statusCode = 200 ∨
          (p.Send log (jobStatusRequest jobID)).statusCode = 201 ∨
          (p.Send log (jobStatusRequest jobID)).statusCode = 202)) →
      (IsJobDone p jobID log).1
        = (false, some (jobFailure p (p.Send log (jobStatusRequest jobID))))) ∧
    ((IsJobDone p jobID log).1.1 = true → (IsJobDone p jobID log).1.2 = none) ∧
    (IsJobDone p jobID log).2 = log ++ [jobStatusRequest jobID] := by
  simp only [IsJobDone, Provider.RestClientSend, jobStatusRequest, jobFailure]
  cases herr : (p.Send log ⟨.GET, URI.ofString ("jobStatus/" ++ jobID), .nil⟩).err with
  | some e => simp
  | none =>
    simp only
    by_cases h200 : (p.Send log ⟨.GET, URI.ofString ("jobStatus/" ++ jobID), .nil⟩).statusCode
        = 200
    · simp [h200]
    · by_cases h201 : (p.Send log ⟨.GET, URI.ofString ("jobStatus/" ++ jobID), .nil⟩).statusCode
          = 201
      · simp [h201]
      · by_cases h202 :
            (p.Send log ⟨.GET, URI.ofString ("jobStatus/" ++ jobID), .nil⟩).statusCode = 202
        · simp [h202]
        · simp only [h200, h201, h202, or_self, if_false]
          cases (p.parseNefError
            (p.Send log ⟨.GET, URI.ofString ("jobStatus/" ++ jobID), .nil⟩).bodyBytes
            "Job was finished with error") <;> simp

theorem IsJobDone_outcomes_witness :
    (IsJobDone (jobAppliance 201 "") "job-1" []).1 = (true, none) ∧
      (IsJobDone (jobAppliance 202 "") "job-1" []).1 = (false, none) ∧
      (IsJobDone (jobAppliance 500 "disk failure") "job-1" []).1
        = (false, some (.nef "EFAILED" "disk failure")) :=
  ⟨(IsJobDone_outcomes (jobAppliance 201 "") "job-1" []).1.mpr ⟨rfl, Or.inr rfl⟩,
   (IsJobDone_outcomes (jobAppliance 202 "") "job-1" []).2.1.mpr ⟨rfl, rfl⟩,
   (IsJobDone_outcomes (jobAppliance 500 "disk failure") "job-1" []).2.2.1 (by decide)⟩

/-- C16: idempotent create treats already-exists as success. For valid parameters,
`CreateHostGroup`, `CreateLunMapping` and `CreateISCSITarget` send one POST request and
return `nil` when it succeeds or fails with an error classified already-exists, and the
error of the request unchanged otherwise. -/
theorem idempotent_create (p : Provider) (hostGroup : CreateHostGroupParams)
    (lunMapping : CreateLunMappingParams) (target : CreateISCSITargetParams) (log : Trace)
    (hhostGroup : hostGroup.Name ≠ "" ∧ hostGroup.Members ≠ [])
    (hlunMapping : lunMapping.HostGroup ≠ "" ∧ lunMapping.Volume ≠ "" ∧
      lunMapping.TargetGroup ≠ "")
    (htarget : target.Name ≠ "") :
    CreateHostGroup p hostGroup log
      = (idempotentCreateResult
          (p.respond log ⟨.POST, URI.ofString "san/hostgroups", .createHostGroup hostGroup⟩).err,
         log ++ [⟨.POST, URI.ofString "san/hostgroups", .createHostGroup hostGroup⟩]) ∧
    CreateLunMapping p lunMapping log
      = (idempotentCreateResult
          (p.respond log ⟨.POST, URI.ofString "san/lunMappings",
            .createLunMapping lunMapping⟩).err,
         log ++ [⟨.POST, URI.ofString "san/lunMappings", .createLunMapping lunMapping⟩]) ∧
    CreateISCSITarget p target log
      = (idempotentCreateResult
          (p.respond log ⟨.POST, URI.ofString "san/iscsi/targets",
            .createISCSITarget target⟩).err,
         log ++ [⟨.POST, URI.ofString "san/iscsi/targets", .createISCSITarget target⟩]) := by
  have hmembers : ¬ hostGroup.Members.length = 0 := by
    intro h
    exact hhostGroup.2 (List.length_eq_zero.mp h)
  have hresult : ∀ err : Option GoError,
      (if (!IsAlreadyExistNefError err) = true then err else none)
        = idempotentCreateResult err := by
    intro err
    cases err with
    | none => simp [idempotentCreateResult, IsAlreadyExistNefError]
    | some e => cases h : IsAlreadyExistNefError (some e) <;> simp [idempotentCreateResult, h]
  refine ⟨?_, ?_, ?_⟩
  · simp only [CreateHostGroup, hhostGroup.1, hmembers, or_self, if_false, Provider.sendRequest]
    rw [← hresult]
    split <;> rfl
  · simp only [CreateLunMapping, hlunMapping.1, hlunMapping.2.1, hlunMapping.2.2, or_self,
      if_false, Provider.sendRequest]
    rw [← hresult]
    split <;> rfl
  · simp only [CreateISCSITarget, htarget, if_false, Provider.sendRequest]
    rw [← hresult]
    split <;> rfl

theorem idempotent_create_witness :
    (CreateHostGroup
        (tableAppliance [(⟨.POST, URI.ofString "san/hostgroups",
          .createHostGroup ⟨["iqn.2005-07.com.nexenta:01:host"], "hg"⟩⟩,
          ⟨some (.nef "EEXIST" "host group exists"), .unset⟩)])
        ⟨["iqn.2005-07.com.nexenta:01:host"], "hg"⟩ []).1 = none ∧
      (CreateLunMapping (tableAppliance []) ⟨"hg", "pool/vg/v1", "tg"⟩ []).1
        = some (.nef "ENOENT" "not found") := by
  have h := idempotent_create
    (tableAppliance [(⟨.POST, URI.ofString "san/hostgroups",
      .createHostGroup ⟨["iqn.2005-07.com.nexenta:01:host"], "hg"⟩⟩,
      ⟨some (.nef "EEXIST" "host group exists"), .unset⟩)])
    ⟨["iqn.2005-07.com.nexenta:01:host"], "hg"⟩ ⟨"hg", "pool/vg/v1", "tg"⟩ ⟨"target", []⟩ []
    (by decide) (by decide) (by decide)
  have h2 := idempotent_create (tableAppliance [])
    ⟨["iqn.2005-07.com.nexenta:01:host"], "hg"⟩ ⟨"hg", "pool/vg/v1", "tg"⟩ ⟨"target", []⟩ []
    (by decide) (by decide) (by decide)
  refine ⟨?_, ?_⟩
  · rw [h.1]
    rfl
  · rw [h2.2.1]
    rfl

/-- C17: a missing filesystem is reported as not-found. For a non-empty path, when the
lookup succeeds with an empty data list `GetFilesystem` returns the zero-value
filesystem (empty `Path`) and an error classified not-found with code ENOENT, and when
the data list is non-empty it returns the first record and no error. -/
theorem GetFilesystem_not_found (p : Provider) (path : String) (log : Trace)
    (hpath : path ≠ "") (hok : (p.respond log (filesystemRequest path)).err = none) :
    ((p.respond log (filesystemRequest path)).body.asStorageFilesystems.Data = [] →
      ∃ err, (GetFilesystem p path log).1 = (⟨"", "", false, false, 0, 0⟩, some err) ∧
        err = .nef "ENOENT" ("Filesystem '" ++ path ++ "' not found") ∧
        IsNotExistNefError (some err) = true) ∧
    (∀ first rest,
      (p.respond log (filesystemRequest path)).body.asStorageFilesystems.Data = first :: rest →
        (GetFilesystem p path log).1 = (first, none)) := by
  refine ⟨?_, ?_⟩
  · intro hdata
    refine ⟨_, ?_, rfl, by simp [IsNotExistNefError]⟩
    simp only [GetFilesystem, hpath, if_false, Provider.sendRequestWithStruct]
    have hreq : (⟨.GET, BuildURI "storage/filesystems"
        [("path", .str path), ("fields", .str filesystemFields)], .nil⟩ : Request)
        = filesystemRequest path := rfl
    rw [hreq, hok, hdata]
  · intro first rest hdata
    simp only [GetFilesystem, hpath, if_false, Provider.sendRequestWithStruct]
    have hreq : (⟨.GET, BuildURI "storage/filesystems"
        [("path", .str path), ("fields", .str filesystemFields)], .nil⟩ : Request)
        = filesystemRequest path := rfl
    rw [hreq, hok, hdata]

theorem GetFilesystem_not_found_witness :
    (GetFilesystem
        (tableAppliance [(filesystemRequest "NON_EXISTING", ⟨none, .storageFilesystems ⟨[]⟩⟩)])
        "NON_EXISTING" []).1
      = (⟨"", "", false, false, 0, 0⟩,
         some (.nef "ENOENT" "Filesystem 'NON_EXISTING' not found")) := by
  obtain ⟨err, h1, h2, _⟩ := (GetFilesystem_not_found
    (tableAppliance [(filesystemRequest "NON_EXISTING", ⟨none, .storageFilesystems ⟨[]⟩⟩)])
    "NON_EXISTING" [] (by decide) (by rfl)).1 (by rfl)
  rw [h1, h2]
  rfl

/-- C18: empty identifiers are rejected before any network call. Each of `GetFilesystem`,
`CreateFilesystem`, `UpdateFilesystem`, `DestroyFilesystem`, `PromoteFilesystem`,
`GetSnapshot`, `GetSnapshots`, `DestroySnapshot`, `CloneSnapshot`, `GetVolume`,
`CreateVolume`, `UpdateVolume`, `DestroyVolume` and `PromoteVolume` returns a non-nil
error and leaves the trace as it was when the path of its target is the empty string,
whatever the other arguments and the appliance are. -/
theorem empty_identifier_rejected (p : Provider) (log : Trace) :
    ((GetFilesystem p "" log).1.2 ≠ none ∧ (GetFilesystem p "" log).2 = log) ∧
    (∀ quota, (CreateFilesystem p ⟨"", quota⟩ log).1 ≠ none ∧
      (CreateFilesystem p ⟨"", quota⟩ log).2 = log) ∧
    (∀ params, (UpdateFilesystem p "" params log).1 ≠ none ∧
      (UpdateFilesystem p "" params log).2 = log) ∧
    (∀ params, (DestroyFilesystem p "" params log).1 ≠ none ∧
      (DestroyFilesystem p "" params log).2 = log) ∧
    ((PromoteFilesystem p "" log).1 ≠ none ∧ (PromoteFilesystem p "" log).2 = log) ∧
    ((GetSnapshot p "" log).1.2 ≠ none ∧ (GetSnapshot p "" log).2 = log) ∧
    (∀ recursive, (∃ err, (GetSnapshots p "" recursive log).1 = .error err) ∧
      (GetSnapshots p "" recursive log).2 = log) ∧
    ((DestroySnapshot p "" log).1 ≠ none ∧ (DestroySnapshot p "" log).2 = log) ∧
    (∀ params, (CloneSnapshot p "" params log).1 ≠ none ∧
      (CloneSnapshot p "" params log).2 = log) ∧
    ((∃ volume err, (GetVolume p "" log).1 = .returned (volume, some err)) ∧
      (GetVolume p "" log).2 = log) ∧
    (∀ size sparse, (CreateVolume p ⟨"", size, sparse⟩ log).1 ≠ none ∧
      (CreateVolume p ⟨"", size, sparse⟩ log).2 = log) ∧
    (∀ params, (UpdateVolume p "" params log).1 ≠ none ∧
      (UpdateVolume p "" params log).2 = log) ∧
    (∀ params, (DestroyVolume p "" params log).1 ≠ none ∧
      (DestroyVolume p "" params log).2 = log) ∧
    ((PromoteVolume p "" log).1 ≠ none ∧ (PromoteVolume p "" log).2 = log) := by
  refine ⟨?_, ?_, ?_, ?_, ?_, ?_, ?_, ?_, ?_, ?_, ?_, ?_, ?_, ?_⟩
  · simp [GetFilesystem]
  · intro quota
    simp [CreateFilesystem]
  · intro params
    simp [UpdateFilesystem]
  · intro params
    simp [DestroyFilesystem, destroyFilesystem, IsAlreadyExistNefError]
  · simp [PromoteFilesystem]
  · simp [GetSnapshot]
  · intro recursive
    simp [GetSnapshots]
  · simp [DestroySnapshot]
  · intro params
    simp [CloneSnapshot]
  · simp [GetVolume]
  · intro size sparse
    simp [CreateVolume]
  · intro params
    simp [UpdateVolume]
  · intro params
    simp [DestroyVolume, destroyVolume, IsAlreadyExistNefError]
  · simp [PromoteVolume]

/-! ## The default SMB share name -/

theorem replaceChars_slash (cs : List Char) :
    replaceChars ['/'] ['_'] (-1) 0 cs = cs.map (fun c => if c = '/' then '_' else c) := by
  induction cs with
  | nil => simp [replaceChars]
  | cons c cs ih =>
    by_cases hc : c = '/'
    · subst hc
      simp [replaceChars, ih]
    · have hc2 : ¬ '/' = c := fun h => hc h.symm
      simp [replaceChars, ih, hc, hc2]

theorem TrimPrefix_slash (s : String) :
    (TrimPrefix s "/").data = (match s.data with
      | '/' :: rest => rest
      | cs => cs) := by
  obtain ⟨cs⟩ := s
  cases cs with
  | nil => simp [TrimPrefix]
  | cons c cs =>
    by_cases hc : c = '/'
    · subst hc
      simp [TrimPrefix]
    · have hne : (c == '/') = false := by simpa using hc
      simp only [TrimPrefix]
      split
      · rename_i h
        have h2 : '/' = c := by simpa [List.isPrefixOf] using h
        exact absurd h2.symm hc
      · split
        · rename_i h
          simp only [List.cons.injEq] at h
          exact absurd h.1 hc
        · rfl

theorem utf8ByteSize_go_map_slash (cs : List Char) :
    String.utf8ByteSize.go (cs.map (fun c => if c = '/' then '_' else c))
      = String.utf8ByteSize.go cs := by
  induction cs with
  | nil => rfl
  | cons c cs ih =>
    by_cases hc : c = '/'
    · subst hc
      simp only [List.map_cons, if_true, String.utf8ByteSize.go, ih]
      rfl
    · simp only [List.map_cons, hc, if_false, String.utf8ByteSize.go, ih]

/-- C19: `GetDefaultSmbShareName` replaces all slashes. For every filesystem path the
result is the path with one leading slash (if present) removed and every remaining
slash replaced by an underscore; it contains no slash, its length, counted in characters
as well as in bytes, is the length of the path minus one for a removed leading slash, and
`/pool/dataset/fs` becomes `pool_dataset_fs`. -/
theorem GetDefaultSmbShareName_spec (fs : Filesystem) :
    fs.GetDefaultSmbShareName = smbShareNameSpec fs.Path ∧
      '/' ∉ fs.GetDefaultSmbShareName.data ∧
      fs.GetDefaultSmbShareName.length
        = fs.Path.length - (if fs.Path.data.head? = some '/' then 1 else 0) ∧
      fs.GetDefaultSmbShareName.utf8ByteSize
        = fs.Path.utf8ByteSize - (if fs.Path.data.head? = some '/' then 1 else 0) ∧
      (filesystemAt "/pool/dataset/fs").GetDefaultSmbShareName = "pool_dataset_fs" := by
  have hspec : fs.GetDefaultSmbShareName = smbShareNameSpec fs.Path := by
    simp only [Filesystem.GetDefaultSmbShareName, Replace, smbShareNameSpec]
    congr 1
    rw [replaceChars_slash, TrimPrefix_slash]
  refine ⟨hspec, ?_, ?_, ?_, by rfl⟩
  · rw [hspec]
    simp only [smbShareNameSpec, List.mem_map, not_exists, not_and]
    intro c _ h
    by_cases hc : c = '/'
    · simp [hc] at h
    · simp [hc] at h
  · rw [hspec]
    simp only [smbShareNameSpec, String.length, List.length_map]
    rcases hdata : fs.Path.data with _ | ⟨c, cs⟩
    · simp
    · by_cases hc : c = '/'
      · subst hc
        simp
      · have : ¬ (some c = some '/') := by simpa using hc
        simp only [List.head?_cons, this, if_false]
        split
        · rename_i h
          simp only [List.cons.injEq] at h
          exact absurd h.1 hc
        · simp
  · rw [hspec]
    simp only [smbShareNameSpec, String.utf8ByteSize, utf8ByteSize_go_map_slash]
    rcases hdata : fs.Path.data with _ | ⟨c, cs⟩
    · simp [String.utf8ByteSize.go]
    · by_cases hc : c = '/'
      · subst hc
        have h1 : Char.utf8Size '/' = 1 := by decide
        simp [String.utf8ByteSize.go, h1]
      · have : ¬ (some c = some '/') := by simpa using hc
        simp only [List.head?_cons, this, if_false]
        split
        · rename_i h
          simp only [List.cons.injEq] at h
          exact absurd h.1 hc
        · simp

/-! ## The promotion loop of `DestroyFilesystem` -/

theorem GetSnapshots_sent (p : Provider) (path : String) (recursive : Bool) (log : Trace)
    (hpath : path ≠ "") :
    GetSnapshots p path recursive log
      = (match (p.respond log (snapshotsRequest path recursive)).err with
          | some err => .error err
          | none => .ok (p.respond log (snapshotsRequest path recursive)).body.asStorageSnapshots.Data,
         log ++ [snapshotsRequest path recursive]) := by
  simp only [GetSnapshots, hpath, if_false, Provider.sendRequestWithStruct, snapshotsRequest]
  split <;> simp_all

theorem GetSnapshot_sent (p : Provider) (path : String) (log : Trace) (hpath : path ≠ "") :
    GetSnapshot p path log
      = (((p.respond log (snapshotRequest path)).body.asSnapshot,
          (p.respond log (snapshotRequest path)).err),
         log ++ [snapshotRequest path]) := by
  simp [GetSnapshot, hpath, Provider.sendRequestWithStruct, snapshotRequest]

theorem PromoteFilesystem_sent (p : Provider) (path : String) (log : Trace) (hpath : path ≠ "") :
    PromoteFilesystem p path log
      = ((p.respond log (promoteFilesystemRequest path)).err,
         log ++ [promoteFilesystemRequest path]) := by
  simp [PromoteFilesystem, hpath, Provider.sendRequest, promoteFilesystemRequest]

/-- A failed scan of the snapshots leaves the wrapped error of a detail fetch or of a
conversion, and its trace is the trace of that detail fetch. -/
theorem scanSnapshots_failure (p : Provider) (path : String) (destroySnapshots : Bool) :
    ∀ (snapshots : List Snapshot) (st : Int × String) (log : Trace) (err : GoError)
      (st1 : Int × String) (final : Trace),
      DestroyFilesystem.scanSnapshots p snapshots st log = ((some err, st1), final) →
      LoopFailure p path destroySnapshots final (some err) := by
  intro snapshots
  induction snapshots with
  | nil =>
    intro st log err st1 final h
    obtain ⟨m, c⟩ := st
    simp [DestroyFilesystem.scanSnapshots] at h
  | cons s rest ih =>
    intro st log err st1 final h
    obtain ⟨m, c⟩ := st
    simp only [DestroyFilesystem.scanSnapshots] at h
    rcases hg : GetSnapshot p s.Path log with ⟨⟨snapshot, e⟩, log1⟩
    rw [hg] at h
    cases e with
    | some e =>
      simp only [Prod.mk.injEq, Option.some.injEq] at h
      obtain ⟨⟨herr, _⟩, hfinal⟩ := h
      subst hfinal
      rw [← herr]
      exact LoopFailure.detail log s snapshot e _ hg
    | none =>
      simp only at h
      cases ha : Atoi snapshot.CreationTxg with
      | error e =>
        rw [ha] at h
        simp only [Prod.mk.injEq, Option.some.injEq] at h
        obtain ⟨⟨herr, _⟩, hfinal⟩ := h
        subst hfinal
        rw [← herr]
        exact LoopFailure.conversion log s snapshot e _ hg ha
      | ok t =>
        rw [ha] at h
        simp only at h
        split at h
        · exact ih _ _ _ _ _ h
        · exact ih _ _ _ _ _ h

/-- A round that does not return `nil` leaves in `mostRecentError` the error of the step
that failed last. -/
theorem round_failure (p : Provider) (path : String) (params : DestroyFilesystemParams)
    (log : Trace) (e : Option GoError) (final : Trace)
    (h : DestroyFilesystem.round p path params log = (.broke e, final) ∨
      DestroyFilesystem.round p path params log = (.continued e, final)) :
    LoopFailure p path params.DestroySnapshots final e := by
  unfold DestroyFilesystem.round at h
  rcases hl : GetSnapshots p path true log with ⟨r, log1⟩
  rw [hl] at h
  cases r with
  | error err =>
    simp only [Prod.mk.injEq, Round.broke.injEq, reduceCtorEq, false_and, or_false] at h
    obtain ⟨he, hfinal⟩ := h
    subst hfinal
    rw [← he]
    exact LoopFailure.listing log err _ hl
  | ok snapshots =>
    simp only at h
    rcases hs : DestroyFilesystem.scanSnapshots p snapshots (0, "") log1 with
      ⟨⟨serr, m, clone⟩, log2⟩
    rw [hs] at h
    cases serr with
    | some err =>
      simp only [Prod.mk.injEq, Round.continued.injEq, reduceCtorEq, false_and, false_or] at h
      obtain ⟨he, hfinal⟩ := h
      subst hfinal
      rw [← he]
      exact scanSnapshots_failure p path params.DestroySnapshots snapshots _ log1 err _ _ hs
    | none =>
      simp only at h
      rcases hp : (if clone ≠ "" then PromoteFilesystem p clone log2 else (none, log2)) with
        ⟨perr, log3⟩
      rw [hp] at h
      cases perr with
      | some err =>
        simp only [Prod.mk.injEq, Round.continued.injEq, reduceCtorEq, false_and, false_or] at h
        obtain ⟨he, hfinal⟩ := h
        subst hfinal
        rw [← he]
        by_cases hc : clone = ""
        · simp [hc] at hp
        · rw [if_pos hc] at hp
          exact LoopFailure.promotion log2 clone err _ hp
      | none =>
        simp only at h
        rcases hd : destroyFilesystem p path params.DestroySnapshots log3 with ⟨derr, log4⟩
        rw [hd] at h
        cases derr with
        | none => simp at h
        | some err =>
          simp only at h
          have hcase : e = some err ∧ final = log4 := by
            split at h
            · simp only [Prod.mk.injEq, Round.broke.injEq, reduceCtorEq, false_and, or_false] at h
              exact ⟨h.1.symm, h.2.symm⟩
            · simp only [Prod.mk.injEq, Round.continued.injEq, reduceCtorEq, false_and,
                false_or] at h
              exact ⟨h.1.symm, h.2.symm⟩
          rw [hcase.1, hcase.2]
          exact LoopFailure.destroy log3 err _ hd

/-- When the loop ends without `return nil`, `mostRecentError` is the error of the step
that failed last. -/
theorem loop_failure (p : Provider) (path : String) (params : DestroyFilesystemParams) :
    ∀ (remaining : Nat) (m : Option GoError) (log : Trace) (e : Option GoError)
      (final : Trace),
      (remaining = 0 → LoopFailure p path params.DestroySnapshots log m) →
      DestroyFilesystem.loop p path params remaining m log = (.ended e, final) →
      LoopFailure p path params.DestroySnapshots final e := by
  intro remaining
  induction remaining with
  | zero =>
    intro m log e final h0 h
    simp only [DestroyFilesystem.loop, Prod.mk.injEq, LoopExit.ended.injEq] at h
    rw [← h.1, ← h.2]
    exact h0 rfl
  | succ n ih =>
    intro m log e final _ h
    simp only [DestroyFilesystem.loop] at h
    rcases hr : DestroyFilesystem.round p path params log with ⟨r, log1⟩
    rw [hr] at h
    cases r with
    | returnedNil => simp at h
    | broke e1 =>
      simp only [Prod.mk.injEq, LoopExit.ended.injEq] at h
      rw [← h.1, ← h.2]
      exact round_failure p path params log e1 log1 (Or.inl hr)
    | continued e1 =>
      simp only at h
      exact ih e1 log1 e final
        (fun _ => round_failure p path params log e1 log1 (Or.inr hr)) h

/-! ## Requests sent by the promotion loop -/

theorem Tally_nil : Tally [] 0 0 0 := by
  simp [Tally]

theorem Tally_append {s1 s2 : List Request} {a1 b1 c1 a2 b2 c2 : Nat}
    (h1 : Tally s1 a1 b1 c1) (h2 : Tally s2 a2 b2 c2) :
    Tally (s1 ++ s2) (a1 + a2) (b1 + b2) (c1 + c2) := by
  simp only [Tally, List.countP_append] at *
  omega

theorem Tally_mono {sent : List Request} {a b c a1 b1 c1 : Nat} (h : Tally sent a b c)
    (ha : a ≤ a1) (hb : b ≤ b1) (hc : c ≤ c1) : Tally sent a1 b1 c1 := by
  simp only [Tally] at *
  omega

theorem snapshotRequest_not_listing (path : String) :
    isSnapshotListing (snapshotRequest path) = false := by
  have hne : "storage/snapshots/" ++ PathEscape path ≠ "storage/snapshots" := by
    intro h
    have hlen := congrArg String.length h
    simp only [String.length_append] at hlen
    have h1 : "storage/snapshots/".length = 18 := by decide
    have h2 : "storage/snapshots".length = 17 := by decide
    omega
  simp [isSnapshotListing, snapshotRequest, BuildURI, hne]

theorem GetSnapshots_trace (p : Provider) (path : String) (recursive : Bool) (log : Trace) :
    ∃ sent, (GetSnapshots p path recursive log).2 = log ++ sent ∧ Tally sent 1 0 0 ∧
      ∀ r ∈ sent, r.method = .GET := by
  by_cases hpath : path = ""
  · exact ⟨[], by simp [GetSnapshots, hpath], Tally_mono Tally_nil (by omega) (by omega)
      (by omega), by simp⟩
  · refine ⟨[snapshotsRequest path recursive], ?_, ?_, ?_⟩
    · rw [GetSnapshots_sent p path recursive log hpath]
    · simp [Tally, isSnapshotListing, isPromotion, isPlainDestroy, snapshotsRequest, BuildURI]
    · simp [snapshotsRequest]

theorem GetSnapshot_trace (p : Provider) (path : String) (log : Trace) :
    ∃ sent, (GetSnapshot p path log).2 = log ++ sent ∧ Tally sent 0 0 0 ∧
      ∀ r ∈ sent, r.method = .GET := by
  by_cases hpath : path = ""
  · exact ⟨[], by simp [GetSnapshot, hpath], Tally_nil, by simp⟩
  · refine ⟨[snapshotRequest path], ?_, ?_, ?_⟩
    · rw [GetSnapshot_sent p path log hpath]
    · have h := snapshotRequest_not_listing path
      unfold Tally
      refine ⟨?_, ?_, ?_⟩
      · simp [h]
      · simp [isPromotion, snapshotRequest]
      · simp [isPlainDestroy, snapshotRequest]
    · simp [snapshotRequest]

theorem scanSnapshots_trace (p : Provider) :
    ∀ (snapshots : List Snapshot) (st : Int × String) (log : Trace),
      ∃ sent, (DestroyFilesystem.scanSnapshots p snapshots st log).2 = log ++ sent ∧
        Tally sent 0 0 0 ∧ ∀ r ∈ sent, r.method = .GET := by
  intro snapshots
  induction snapshots with
  | nil =>
    intro st log
    obtain ⟨m, c⟩ := st
    exact ⟨[], by simp [DestroyFilesystem.scanSnapshots], Tally_nil, by simp⟩
  | cons s rest ih =>
    intro st log
    obtain ⟨m, c⟩ := st
    obtain ⟨sent1, h1, t1, g1⟩ := GetSnapshot_trace p s.Path log
    simp only [DestroyFilesystem.scanSnapshots]
    rcases hg : GetSnapshot p s.Path log with ⟨⟨snapshot, e⟩, log1⟩
    rw [hg] at h1
    simp only at h1
    subst h1
    cases e with
    | some e => exact ⟨sent1, rfl, t1, g1⟩
    | none =>
      simp only
      cases Atoi snapshot.CreationTxg with
      | error e => exact ⟨sent1, rfl, t1, g1⟩
      | ok t =>
        simp only
        have hstep : ∀ st2 : Int × String,
            ∃ sent, (DestroyFilesystem.scanSnapshots p rest st2 (log ++ sent1)).2 = log ++ sent ∧
              Tally sent 0 0 0 ∧ ∀ r ∈ sent, r.method = .GET := by
          intro st2
          obtain ⟨sent2, h2, t2, g2⟩ := ih st2 (log ++ sent1)
          refine ⟨sent1 ++ sent2, by rw [h2, List.append_assoc], Tally_append t1 t2, ?_⟩
          intro r hr
          rcases List.mem_append.mp hr with hr | hr
          · exact g1 r hr
          · exact g2 r hr
        split
        · exact hstep _
        · exact hstep _

theorem PromoteFilesystem_trace (p : Provider) (path : String) (log : Trace) :
    ∃ sent, (PromoteFilesystem p path log).2 = log ++ sent ∧ Tally sent 0 1 0 := by
  by_cases hpath : path = ""
  · exact ⟨[], by simp [PromoteFilesystem, hpath], Tally_mono Tally_nil (by omega) (by omega)
      (by omega)⟩
  · refine ⟨[promoteFilesystemRequest path], ?_, ?_⟩
    · rw [PromoteFilesystem_sent p path log hpath]
    · simp [Tally, isSnapshotListing, isPromotion, isPlainDestroy, promoteFilesystemRequest]

theorem destroyFilesystem_trace (p : Provider) (path : String) (destroySnapshots : Bool)
    (log : Trace) :
    ∃ sent, (destroyFilesystem p path destroySnapshots log).2 = log ++ sent ∧
      Tally sent 0 0 1 := by
  by_cases hpath : path = ""
  · exact ⟨[], by simp [destroyFilesystem, hpath], Tally_mono Tally_nil (by omega) (by omega)
      (by omega)⟩
  · refine ⟨[destroyFilesystemRequest path destroySnapshots], ?_, ?_⟩
    · rw [destroyFilesystem_sent p path destroySnapshots log hpath]
    · simp [Tally, isSnapshotListing, isPromotion, isPlainDestroy, destroyFilesystemRequest]

/-- After its snapshot listing, one round sends no further listing, at most one promotion
and at most one plain destroy. -/
theorem round_after_listing (p : Provider) (path : String) (params : DestroyFilesystemParams)
    (log : Trace) :
    ∃ rest, (DestroyFilesystem.round p path params log).2
        = (GetSnapshots p path true log).2 ++ rest ∧ Tally rest 0 1 1 := by
  unfold DestroyFilesystem.round
  rcases hl : GetSnapshots p path true log with ⟨r, log1⟩
  cases r with
  | error err => exact ⟨[], by simp, Tally_mono Tally_nil (by omega) (by omega) (by omega)⟩
  | ok snapshots =>
    simp only
    obtain ⟨sent2, h2, t2, _⟩ := scanSnapshots_trace p snapshots (0, "") log1
    rcases hs : DestroyFilesystem.scanSnapshots p snapshots (0, "") log1 with
      ⟨⟨serr, m, clone⟩, log2⟩
    rw [hs] at h2
    simp only at h2
    subst h2
    cases serr with
    | some err =>
      exact ⟨sent2, by simp, Tally_mono t2 (by omega) (by omega) (by omega)⟩
    | none =>
      simp only
      have hp : ∃ sent3, (if clone ≠ "" then PromoteFilesystem p clone (log1 ++ sent2)
          else (none, log1 ++ sent2)).2 = log1 ++ sent2 ++ sent3 ∧
          Tally sent3 0 1 0 := by
        by_cases hc : clone = ""
        · exact ⟨[], by simp [hc], Tally_mono Tally_nil (by omega) (by omega) (by omega)⟩
        · rw [if_pos hc]
          exact PromoteFilesystem_trace p clone _
      obtain ⟨sent3, h3, t3⟩ := hp
      rcases hpr : (if clone ≠ "" then PromoteFilesystem p clone (log1 ++ sent2)
          else (none, log1 ++ sent2)) with ⟨perr, log3⟩
      rw [hpr] at h3
      simp only at h3
      subst h3
      have t23 := Tally_append t2 t3
      cases perr with
      | some err =>
        exact ⟨sent2 ++ sent3, by simp, Tally_mono t23 (by omega) (by omega) (by omega)⟩
      | none =>
        simp only
        obtain ⟨sent4, h4, t4⟩ := destroyFilesystem_trace p path params.DestroySnapshots
          (log1 ++ sent2 ++ sent3)
        rcases hd : destroyFilesystem p path params.DestroySnapshots
          (log1 ++ sent2 ++ sent3) with ⟨derr, log4⟩
        rw [hd] at h4
        simp only at h4
        subst h4
        have t234 := Tally_append t23 t4
        have hres : Tally (sent2 ++ sent3 ++ sent4) 0 1 1 :=
          Tally_mono t234 (by omega) (by omega) (by omega)
        cases derr with
        | none => exact ⟨_, by simp, hres⟩
        | some err =>
          simp only
          split
          · exact ⟨_, by simp, hres⟩
          · exact ⟨_, by simp, hres⟩

/-- One round sends at most one listing, one promotion and one plain destroy. -/
theorem round_trace (p : Provider) (path : String) (params : DestroyFilesystemParams)
    (log : Trace) :
    ∃ sent, (DestroyFilesystem.round p path params log).2 = log ++ sent ∧ Tally sent 1 1 1 := by
  obtain ⟨sent1, h1, t1, _⟩ := GetSnapshots_trace p path true log
  obtain ⟨rest, h2, t2⟩ := round_after_listing p path params log
  exact ⟨sent1 ++ rest, by rw [h2, h1, List.append_assoc],
    Tally_mono (Tally_append t1 t2) (by omega) (by omega) (by omega)⟩

/-- A loop of `remaining` rounds sends at most `remaining` listings, promotions and plain
destroys. -/
theorem loop_trace (p : Provider) (path : String) (params : DestroyFilesystemParams) :
    ∀ (remaining : Nat) (m : Option GoError) (log : Trace),
      ∃ sent, (DestroyFilesystem.loop p path params remaining m log).2 = log ++ sent ∧
        Tally sent remaining remaining remaining := by
  intro remaining
  induction remaining with
  | zero =>
    intro m log
    exact ⟨[], by simp [DestroyFilesystem.loop], Tally_nil⟩
  | succ n ih =>
    intro m log
    obtain ⟨sent1, h1, t1⟩ := round_trace p path params log
    simp only [DestroyFilesystem.loop]
    rcases hr : DestroyFilesystem.round p path params log with ⟨r, log1⟩
    rw [hr] at h1
    simp only at h1
    subst h1
    cases r with
    | returnedNil => exact ⟨sent1, rfl, Tally_mono t1 (by omega) (by omega) (by omega)⟩
    | broke e => exact ⟨sent1, rfl, Tally_mono t1 (by omega) (by omega) (by omega)⟩
    | continued e =>
      simp only
      obtain ⟨sent2, h2, t2⟩ := ih e (log ++ sent1)
      exact ⟨sent1 ++ sent2, by rw [h2, List.append_assoc],
        Tally_mono (Tally_append t1 t2) (by omega) (by omega) (by omega)⟩

/-- A loop with a round to run starts with the snapshot listing. -/
theorem loop_starts_with_listing (p : Provider) (path : String)
    (params : DestroyFilesystemParams) (hpath : path ≠ "") (remaining : Nat)
    (m : Option GoError) (log : Trace) :
    ∃ rest, (DestroyFilesystem.loop p path params (remaining + 1) m log).2
      = log ++ snapshotsRequest path true :: rest := by
  obtain ⟨rest1, h1, _⟩ := round_after_listing p path params log
  rw [GetSnapshots_sent p path true log hpath] at h1
  simp only at h1
  simp only [DestroyFilesystem.loop]
  rcases hr : DestroyFilesystem.round p path params log with ⟨r, log1⟩
  rw [hr] at h1
  simp only at h1
  subst h1
  cases r with
  | returnedNil => exact ⟨rest1, by simp⟩
  | broke e => exact ⟨rest1, by simp⟩
  | continued e =>
    simp only
    obtain ⟨sent2, h2, _⟩ := loop_trace p path params remaining e
      (log ++ [snapshotsRequest path true] ++ rest1)
    exact ⟨rest1 ++ sent2, by rw [h2]; simp⟩

/-- A failed scan of the snapshots comes from a failed detail fetch or from a
`creationTxg` that is not an integer. -/
theorem scanSnapshots_failure_origin (p : Provider) :
    ∀ (snapshots : List Snapshot) (st : Int × String) (log : Trace) (err : GoError)
      (st1 : Int × String) (final : Trace),
      DestroyFilesystem.scanSnapshots p snapshots st log = ((some err, st1), final) →
      ∃ s ∈ snapshots, ∃ (before : Trace) (snapshot : Snapshot),
        (∃ e, GetSnapshot p s.Path before = ((snapshot, some e), final) ∧
          err = .errorf ("failed to get '" ++ s.Path ++ "' snapshost's info: " ++ e.Error)) ∨
        (∃ e, GetSnapshot p s.Path before = ((snapshot, none), final) ∧
          Atoi snapshot.CreationTxg = .error e ∧
          err = .errorf ("snapshot '" ++ s.Path ++ "': failed to convert 'creationTxg' value '"
            ++ snapshot.CreationTxg ++ "' to integer: " ++ e.Error)) := by
  intro snapshots
  induction snapshots with
  | nil =>
    intro st log err st1 final h
    obtain ⟨m, c⟩ := st
    simp [DestroyFilesystem.scanSnapshots] at h
  | cons s rest ih =>
    intro st log err st1 final h
    obtain ⟨m, c⟩ := st
    simp only [DestroyFilesystem.scanSnapshots] at h
    rcases hg : GetSnapshot p s.Path log with ⟨⟨snapshot, e⟩, log1⟩
    rw [hg] at h
    have hrest : ∀ st2 : Int × String,
        DestroyFilesystem.scanSnapshots p rest st2 log1 = ((some err, st1), final) →
        ∃ s1 ∈ s :: rest, ∃ (before : Trace) (snapshot : Snapshot),
          (∃ e, GetSnapshot p s1.Path before = ((snapshot, some e), final) ∧
            err = .errorf ("failed to get '" ++ s1.Path ++ "' snapshost's info: " ++ e.Error)) ∨
          (∃ e, GetSnapshot p s1.Path before = ((snapshot, none), final) ∧
            Atoi snapshot.CreationTxg = .error e ∧
            err = .errorf ("snapshot '" ++ s1.Path
              ++ "': failed to convert 'creationTxg' value '"
              ++ snapshot.CreationTxg ++ "' to integer: " ++ e.Error)) := by
      intro st2 h2
      obtain ⟨s1, hs1, hres⟩ := ih st2 log1 err st1 final h2
      exact ⟨s1, List.mem_cons_of_mem s hs1, hres⟩
    cases e with
    | some e =>
      simp only [Prod.mk.injEq, Option.some.injEq] at h
      obtain ⟨⟨herr, _⟩, hfinal⟩ := h
      subst hfinal
      exact ⟨s, List.mem_cons_self s rest, log, snapshot, Or.inl ⟨e, hg, herr.symm⟩⟩
    | none =>
      simp only at h
      cases ha : Atoi snapshot.CreationTxg with
      | error e =>
        rw [ha] at h
        simp only [Prod.mk.injEq, Option.some.injEq] at h
        obtain ⟨⟨herr, _⟩, hfinal⟩ := h
        subst hfinal
        exact ⟨s, List.mem_cons_self s rest, log, snapshot, Or.inr ⟨e, hg, ha, herr.symm⟩⟩
      | ok t =>
        rw [ha] at h
        simp only at h
        split at h
        · exact hrest _ h
        · exact hrest _ h

/-! ## Claims on the promotion loop -/

/-- C14 (as amended): the failure reported after the promotion loop is built from the
most recent error of the loop. When the first plain destroy is refused with an
already-exists error, promotion is requested and the loop ends without success,
`mostRecentError` is not nil and is the error of the step that failed last: the error
of the re-attempted plain destroy as it is, or a plain error with a context message for
a failed listing, detail fetch, `creationTxg` conversion or promotion. `DestroyFilesystem`
returns it unchanged when it is a classified appliance error, which happens only for
the error of the plain destroy, and otherwise wrapped in a plain error naming the
filesystem. -/
theorem loop_failure_reported (p : Provider) (path : String) (params : DestroyFilesystemParams)
    (log log1 final : Trace) (err : GoError) (mostRecentError : Option GoError)
    (hfirst : destroyFilesystem p path params.DestroySnapshots log = (some err, log1))
    (hpromote : params.PromoteMostRecentCloneIfExists = true)
    (hexists : IsAlreadyExistNefError (some err) = true)
    (hloop : DestroyFilesystem.loop p path params 3 none log1
      = (.ended mostRecentError, final)) :
    ∃ m, mostRecentError = some m ∧
      LoopFailure p path params.DestroySnapshots final (some m) ∧
      DestroyFilesystem p path params log
        = (some (if IsNefError (some m) = true then m
            else .errorf ("Failed to delete filesystem '" ++ path ++ "': " ++ m.Error)),
           final) ∧
      (IsNefError (some m) = true →
        ∃ before, destroyFilesystem p path params.DestroySnapshots before = (some m, final)) := by
  have hfail := loop_failure p path params 3 none log1 mostRecentError final
    (fun h => absurd h (by decide)) hloop
  have hresult : ∀ m, mostRecentError = some m →
      DestroyFilesystem p path params log
        = (some (if IsNefError (some m) = true then m
            else .errorf ("Failed to delete filesystem '" ++ path ++ "': " ++ m.Error)),
           final) := by
    intro m hm
    subst hm
    unfold DestroyFilesystem
    rw [hfirst]
    simp only [hpromote, hexists, Bool.not_true, Bool.or_self, Bool.false_eq_true, if_false,
      hloop]
    cases hn : IsNefError (some m) <;> simp [sprintError]
  cases hfail with
  | listing before e final hl =>
    exact ⟨_, rfl, LoopFailure.listing before e final hl, hresult _ rfl,
      fun h => by simp [IsNefError] at h⟩
  | detail before s snapshot e final hg =>
    exact ⟨_, rfl, LoopFailure.detail before s snapshot e final hg, hresult _ rfl,
      fun h => by simp [IsNefError] at h⟩
  | conversion before s snapshot e final hg ha =>
    exact ⟨_, rfl, LoopFailure.conversion before s snapshot e final hg ha, hresult _ rfl,
      fun h => by simp [IsNefError] at h⟩
  | promotion before clone e final hp =>
    exact ⟨_, rfl, LoopFailure.promotion before clone e final hp, hresult _ rfl,
      fun h => by simp [IsNefError] at h⟩
  | destroy before e final hd =>
    exact ⟨e, rfl, LoopFailure.destroy before e final hd, hresult _ rfl,
      fun _ => ⟨before, hd⟩⟩

theorem loop_failure_reported_witness :
    ∃ m,
      LoopFailure listingFailsAppliance "pool/fs" true
        [destroyFilesystemRequest "pool/fs" true, snapshotsRequest "pool/fs" true] (some m) ∧
      DestroyFilesystem listingFailsAppliance "pool/fs" ⟨true, true⟩ []
        = (some (if IsNefError (some m) = true then m
            else .errorf ("Failed to delete filesystem '" ++ "pool/fs" ++ "': " ++ m.Error)),
           [destroyFilesystemRequest "pool/fs" true, snapshotsRequest "pool/fs" true]) := by
  obtain ⟨m, _, h2, h3, _⟩ := loop_failure_reported listingFailsAppliance "pool/fs" ⟨true, true⟩
    [] [destroyFilesystemRequest "pool/fs" true]
    [destroyFilesystemRequest "pool/fs" true, snapshotsRequest "pool/fs" true]
    (.nef "EEXIST" "filesystem has dependent clones")
    (some (.errorf "failed to get snapshot list: not found [code: ENOENT]"))
    (by rfl) (by rfl) (by rfl) (by rfl)
  exact ⟨m, h2, h3⟩

/-- C14 (as stated) fails: on an appliance that refuses the destroy of `pool/fs` with
EEXIST and answers the snapshot listing with the classified error ENOENT, the most recent
primitive call is the listing and its error is a classified appliance error, yet
`DestroyFilesystem` does not return that error unchanged: it returns a plain error that
wraps its text twice. -/
theorem loop_failure_not_unchanged :
    GetSnapshots listingFailsAppliance "pool/fs" true [destroyFilesystemRequest "pool/fs" true]
        = (.error (.nef "ENOENT" "not found"),
           [destroyFilesystemRequest "pool/fs" true, snapshotsRequest "pool/fs" true]) ∧
      IsNefError (some (.nef "ENOENT" "not found")) = true ∧
      DestroyFilesystem listingFailsAppliance "pool/fs" ⟨true, true⟩ []
        = (some (.errorf ("Failed to delete filesystem 'pool/fs': "
            ++ "failed to get snapshot list: not found [code: ENOENT]")),
           [destroyFilesystemRequest "pool/fs" true, snapshotsRequest "pool/fs" true]) ∧
      (DestroyFilesystem listingFailsAppliance "pool/fs" ⟨true, true⟩ []).1
        ≠ some (.nef "ENOENT" "not found") :=
  ⟨by rfl, by rfl, by rfl, by decide⟩

/-! ## The most recent clone -/

/-- When every detail fetch succeeds and every `creationTxg` converts, the scan of the
snapshots sends one detail request per snapshot and ends with the candidate
`selectClone` computes. -/
theorem scanSnapshots_served (p : Provider) (detail : String → Snapshot) (txg : String → Int) :
    ∀ (l : List Snapshot) (st : Int × String) (log : Trace),
      (∀ s ∈ l, s.Path ≠ "" ∧
        ∀ log : Trace, p.respond log (snapshotRequest s.Path) = ⟨none, .snapshot (detail s.Path)⟩) →
      (∀ s ∈ l, Atoi (detail s.Path).CreationTxg = .ok (txg s.Path)) →
      DestroyFilesystem.scanSnapshots p l st log
        = ((none, selectClone detail txg l st), log ++ l.map (fun s => snapshotRequest s.Path)) := by
  intro l
  induction l with
  | nil =>
    intro st log _ _
    obtain ⟨m, c⟩ := st
    simp [DestroyFilesystem.scanSnapshots, selectClone]
  | cons s rest ih =>
    intro st log hdetail htxg
    obtain ⟨m, c⟩ := st
    have hs := hdetail s (List.mem_cons_self s rest)
    have hrest : ∀ st2 : Int × String,
        DestroyFilesystem.scanSnapshots p rest st2 (log ++ [snapshotRequest s.Path])
          = ((none, selectClone detail txg rest st2),
             log ++ (s :: rest).map (fun s => snapshotRequest s.Path)) := by
      intro st2
      rw [ih st2 _ (fun x hx => hdetail x (List.mem_cons_of_mem s hx))
        (fun x hx => htxg x (List.mem_cons_of_mem s hx))]
      simp
    simp only [DestroyFilesystem.scanSnapshots, selectClone]
    rw [GetSnapshot_sent p s.Path log hs.1, hs.2 log]
    simp only [Payload.asSnapshot, htxg s (List.mem_cons_self s rest)]
    split
    · exact hrest _
    · exact hrest _

theorem selectClone_inv (detail : String → Snapshot) (txg : String → Int) :
    ∀ (l seen : List Snapshot) (st : Int × String), (∀ s ∈ l, 0 < txg s.Path) →
      SelectInv detail txg seen st →
      SelectInv detail txg (seen ++ l) (selectClone detail txg l st) := by
  intro l
  induction l with
  | nil =>
    intro seen st _ h
    simpa [selectClone] using h
  | cons s rest ih =>
    intro seen st hpos hinv
    obtain ⟨m, c⟩ := st
    have hspos : 0 < txg s.Path := hpos s (List.mem_cons_self s rest)
    have hstep : ∀ st2, SelectInv detail txg (seen ++ [s]) st2 →
        SelectInv detail txg (seen ++ s :: rest) (selectClone detail txg rest st2) := by
      intro st2 h2
      have := ih (seen ++ [s]) st2 (fun x hx => hpos x (List.mem_cons_of_mem s hx)) h2
      simpa using this
    simp only [selectClone]
    split
    · rename_i hcond
      apply hstep
      right
      refine ⟨s, by simp, List.length_pos.mp hcond.1, rfl, hspos, ?_⟩
      intro s1 hs1 hc1
      rcases List.mem_append.mp hs1 with hs1 | hs1
      · rcases hinv with ⟨_, hnone⟩ | ⟨s0, hs0, _, hst, _, hmax⟩
        · exact absurd (hnone s1 hs1) hc1
        · have hm : m = txg s0.Path := (Prod.mk.inj hst).1
          have := hmax s1 hs1 hc1
          have := hcond.2
          omega
      · simp only [List.mem_singleton] at hs1
        rw [hs1]
    · rename_i hcond
      apply hstep
      rcases hinv with ⟨hst, hnone⟩ | ⟨s0, hs0, hc0, hst, hpos0, hmax⟩
      · by_cases hcs : (detail s.Path).Clones = []
        · left
          refine ⟨hst, ?_⟩
          intro s1 hs1
          rcases List.mem_append.mp hs1 with hs1 | hs1
          · exact hnone s1 hs1
          · simp only [List.mem_singleton] at hs1
            rw [hs1]
            exact hcs
        · exfalso
          have hm : m = 0 := (Prod.mk.inj hst).1
          exact hcond ⟨List.length_pos.mpr hcs, by omega⟩
      · right
        refine ⟨s0, by simp [hs0], hc0, hst, hpos0, ?_⟩
        intro s1 hs1 hc1
        rcases List.mem_append.mp hs1 with hs1 | hs1
        · exact hmax s1 hs1 hc1
        · simp only [List.mem_singleton] at hs1
          rw [hs1] at hc1 ⊢
          have hm : m = txg s0.Path := (Prod.mk.inj hst).1
          by_contra hgt
          exact hcond ⟨List.length_pos.mpr hc1, by omega⟩

/-- With positive, pairwise distinct creation-transaction numbers, the candidate after
the whole listing is the first clone of the most recent snapshot that has clones. -/
theorem selectClone_best (detail : String → Snapshot) (txg : String → Int)
    (listed : List Snapshot) (best : Snapshot) (hpos : ∀ s ∈ listed, 0 < txg s.Path)
    (hdistinct : (listed.map (fun s => txg s.Path)).Nodup)
    (hbest : MostRecentWithClones listed detail txg best) :
    selectClone detail txg listed (0, "")
      = (txg best.Path, (detail best.Path).Clones.headD "") := by
  have hinv := selectClone_inv detail txg listed [] (0, "") hpos
    (Or.inl ⟨rfl, by simp⟩)
  simp only [List.nil_append] at hinv
  rcases hinv with ⟨_, hnone⟩ | ⟨s0, hs0, hc0, hst, _, hmax⟩
  · exact absurd (hnone best hbest.1) hbest.2.1
  · have h1 : txg best.Path ≤ txg s0.Path := hmax best hbest.1 hbest.2.1
    have h2 : txg s0.Path ≤ txg best.Path := hbest.2.2 s0 hs0 hc0
    have heq : s0 = best :=
      List.inj_on_of_nodup_map hdistinct hs0 hbest.1 (le_antisymm h2 h1)
    rw [hst, heq]

/-- A round over a served listing whose most recent snapshot with clones is `best`:
the requests up to the promotion of the first clone of `best`, and how the round ends
when that promotion fails. -/
theorem round_promotes_best (p : Provider) (path : String) (params : DestroyFilesystemParams)
    (log : Trace) (listed : List Snapshot) (detail : String → Snapshot) (txg : String → Int)
    (best : Snapshot) (clone : String) (clones : List String) (hpath : path ≠ "")
    (hserve : ServesSnapshots p path listed detail)
    (htxg : ∀ s ∈ listed, Atoi (detail s.Path).CreationTxg = .ok (txg s.Path) ∧ 0 < txg s.Path)
    (hdistinct : (listed.map (fun s => txg s.Path)).Nodup)
    (hbest : MostRecentWithClones listed detail txg best)
    (hclone : (detail best.Path).Clones = clone :: clones) (hnonempty : clone ≠ "") :
    (∃ rest, (DestroyFilesystem.round p path params log).2
        = log ++ promotionBlock path listed clone ++ rest ∧ Tally rest 0 0 1) ∧
    (∀ e, (p.respond
        (log ++ snapshotsRequest path true :: listed.map (fun s => snapshotRequest s.Path))
        (promoteFilesystemRequest clone)).err = some e →
      DestroyFilesystem.round p path params log
        = (.continued (some (.errorf ("failed to promote clone '" ++ clone ++ "': "
            ++ e.Error))), log ++ promotionBlock path listed clone)) := by
  have hscan := scanSnapshots_served p detail txg listed (0, "")
    (log ++ [snapshotsRequest path true]) hserve.2 (fun s hs => (htxg s hs).1)
  rw [selectClone_best detail txg listed best (fun s hs => (htxg s hs).2) hdistinct hbest,
    hclone] at hscan
  simp only [List.headD_cons] at hscan
  have hround : DestroyFilesystem.round p path params log
      = (match (p.respond
            (log ++ snapshotsRequest path true :: listed.map (fun s => snapshotRequest s.Path))
            (promoteFilesystemRequest clone)).err with
        | some err =>
          (.continued (some (.errorf ("failed to promote clone '" ++ clone ++ "': "
            ++ err.Error))), log ++ promotionBlock path listed clone)
        | none =>
          match destroyFilesystem p path params.DestroySnapshots
              (log ++ promotionBlock path listed clone) with
          | (none, log4) => (.returnedNil, log4)
          | (some mostRecentError, log4) =>
            if !IsAlreadyExistNefError (some mostRecentError) then
              (.broke (some mostRecentError), log4)
            else (.continued (some mostRecentError), log4)) := by
    unfold DestroyFilesystem.round
    rw [GetSnapshots_sent p path true log hpath, hserve.1 log]
    simp only [Payload.asStorageSnapshots, hscan, if_pos hnonempty]
    rw [PromoteFilesystem_sent p clone _ hnonempty]
    have hblock : log ++ promotionBlock path listed clone
        = log ++ [snapshotsRequest path true] ++ listed.map (fun s => snapshotRequest s.Path)
          ++ [promoteFilesystemRequest clone] := by
      simp [promotionBlock]
    have hbefore : log ++ snapshotsRequest path true
          :: listed.map (fun s => snapshotRequest s.Path)
        = log ++ [snapshotsRequest path true] ++ listed.map (fun s => snapshotRequest s.Path) := by
      simp
    rw [hblock, hbefore]
    cases (p.respond
      (log ++ [snapshotsRequest path true] ++ listed.map (fun s => snapshotRequest s.Path))
      (promoteFilesystemRequest clone)).err <;> rfl
  refine ⟨?_, ?_⟩
  · rw [hround]
    cases (p.respond
      (log ++ snapshotsRequest path true :: listed.map (fun s => snapshotRequest s.Path))
      (promoteFilesystemRequest clone)).err with
    | some err => exact ⟨[], by simp, Tally_mono Tally_nil (by omega) (by omega) (by omega)⟩
    | none =>
      simp only
      obtain ⟨sent, h4, t4⟩ := destroyFilesystem_trace p path params.DestroySnapshots
        (log ++ promotionBlock path listed clone)
      rcases hd : destroyFilesystem p path params.DestroySnapshots
        (log ++ promotionBlock path listed clone) with ⟨derr, log4⟩
      rw [hd] at h4
      simp only at h4
      subst h4
      cases derr with
      | none => exact ⟨sent, rfl, t4⟩
      | some err =>
        simp only
        split
        · exact ⟨sent, rfl, t4⟩
        · exact ⟨sent, rfl, t4⟩
  · intro e he
    rw [hround, he]

/-- A listing in which some snapshot has clones has a most recent snapshot with clones. -/
theorem mostRecentWithClones_exists (detail : String → Snapshot) (txg : String → Int)
    (listed : List Snapshot) (hpos : ∀ s ∈ listed, 0 < txg s.Path)
    (hsome : ∃ s ∈ listed, (detail s.Path).Clones ≠ []) :
    ∃ best, MostRecentWithClones listed detail txg best := by
  have hinv := selectClone_inv detail txg listed [] (0, "") hpos
    (Or.inl ⟨rfl, by simp⟩)
  simp only [List.nil_append] at hinv
  obtain ⟨s, hs, hc⟩ := hsome
  rcases hinv with ⟨_, hnone⟩ | ⟨s0, hs0, hc0, _, _, hmax⟩
  · exact absurd (hnone s hs) hc
  · exact ⟨s0, hs0, hc0, hmax⟩

/-- With pairwise distinct creation-transaction numbers the most recent snapshot with
clones is unique. -/
theorem mostRecentWithClones_unique (detail : String → Snapshot) (txg : String → Int)
    (listed : List Snapshot) (best b : Snapshot)
    (hdistinct : (listed.map (fun s => txg s.Path)).Nodup)
    (hbest : MostRecentWithClones listed detail txg best)
    (hb : MostRecentWithClones listed detail txg b) : b = best :=
  List.inj_on_of_nodup_map hdistinct hb.1 hbest.1
    (le_antisymm (hbest.2.2 b hb.1 hb.2.1) (hb.2.2 best hbest.1 hbest.2.1))

/-- Being the most recent snapshot with clones does not depend on the order of the
listing. -/
theorem mostRecentWithClones_perm (detail : String → Snapshot) (txg : String → Int)
    (listed order : List Snapshot) (best : Snapshot) (hperm : order.Perm listed)
    (hbest : MostRecentWithClones listed detail txg best) :
    MostRecentWithClones order detail txg best :=
  ⟨hperm.mem_iff.mpr hbest.1, hbest.2.1, fun s hs hc => hbest.2.2 s (hperm.mem_iff.mp hs) hc⟩

/-! ## Claims on the promoted clone and on the number of rounds -/

/-- C12: the promoted clone is the first clone of the most recent snapshot that has
clones. For snapshots whose details carry pairwise distinct positive creation-transaction
numbers and non-empty clone paths, at least one of them with a clone, there is exactly
one snapshot `best` with the greatest `creationTxg` among those having a clone, and with
`clone` its `Clones[0]`: on every appliance that serves these snapshots, listed in any
order, a round of the promotion loop of `DestroyFilesystem` sends the listing, the detail
fetch of every listed snapshot and then the promotion of `clone`, and no other promotion
after it. -/
theorem most_recent_clone_promoted (path : String) (params : DestroyFilesystemParams)
    (listed : List Snapshot) (detail : String → Snapshot) (txg : String → Int)
    (hpath : path ≠ "")
    (htxg : ∀ s ∈ listed, Atoi (detail s.Path).CreationTxg = .ok (txg s.Path) ∧ 0 < txg s.Path)
    (hdistinct : (listed.map (fun s => txg s.Path)).Nodup)
    (hnonempty : ∀ s ∈ listed, ∀ c ∈ (detail s.Path).Clones, c ≠ "")
    (hsome : ∃ s ∈ listed, (detail s.Path).Clones ≠ []) :
    ∃ best clone, MostRecentWithClones listed detail txg best ∧
      (∀ b, MostRecentWithClones listed detail txg b → b = best) ∧
      (detail best.Path).Clones.head? = some clone ∧
      ∀ (p : Provider) (order : List Snapshot) (log : Trace), order.Perm listed →
        ServesSnapshots p path order detail →
        ∃ rest, (DestroyFilesystem.round p path params log).2
            = log ++ promotionBlock path order clone ++ rest ∧ Tally rest 0 0 1 := by
  obtain ⟨best, hbest⟩ := mostRecentWithClones_exists detail txg listed
    (fun s hs => (htxg s hs).2) hsome
  obtain ⟨clone, clones, hclone⟩ := List.exists_cons_of_ne_nil hbest.2.1
  have hne : clone ≠ "" := hnonempty best hbest.1 clone (by rw [hclone]; exact List.mem_cons_self _ _)
  refine ⟨best, clone, hbest,
    fun b hb => mostRecentWithClones_unique detail txg listed best b hdistinct hbest hb,
    by rw [hclone]; rfl, ?_⟩
  intro p order log hperm hserve
  exact (round_promotes_best p path params log order detail txg best clone clones hpath hserve
    (fun s hs => htxg s (hperm.mem_iff.mp hs))
    ((hperm.map (fun s => txg s.Path)).nodup_iff.mpr hdistinct)
    (mostRecentWithClones_perm detail txg listed order best hperm hbest) hclone hne).1

theorem most_recent_clone_promoted_witness :
    ∃ rest, (DestroyFilesystem.round cloneBlockedAppliance "pool/fs" ⟨true, true⟩
          [destroyFilesystemRequest "pool/fs" true]).2
        = [destroyFilesystemRequest "pool/fs" true]
          ++ promotionBlock "pool/fs" listedSnapshots "pool/c2" ++ rest ∧
      Tally rest 0 0 1 := by
  have hmem : ∀ s ∈ listedSnapshots,
      s = ⟨"pool/fs@s1", "s1", "pool/fs", [], "", ""⟩ ∨
      s = ⟨"pool/fs@s2", "s2", "pool/fs", [], "", ""⟩ ∨
      s = ⟨"pool/fs@s3", "s3", "pool/fs", [], "", ""⟩ := by
    intro s hs
    simpa [listedSnapshots] using hs
  obtain ⟨best, clone, _, hunique, hclone, hround⟩ :=
    most_recent_clone_promoted "pool/fs" ⟨true, true⟩ listedSnapshots snapshotDetail snapshotTxg
      (by decide)
      (fun s hs => by rcases hmem s hs with h | h | h <;> subst h <;> exact ⟨by rfl, by decide⟩)
      (by decide)
      (fun s hs => by rcases hmem s hs with h | h | h <;> subst h <;> decide)
      ⟨⟨"pool/fs@s3", "s3", "pool/fs", [], "", ""⟩, by decide, by decide⟩
  have hbest : (⟨"pool/fs@s3", "s3", "pool/fs", [], "", ""⟩ : Snapshot) = best :=
    hunique _ ⟨by decide, by decide,
      fun s hs _ => by rcases hmem s hs with h | h | h <;> subst h <;> decide⟩
  subst hbest
  have hc : clone = "pool/c2" := (Option.some.inj hclone).symm
  subst hc
  exact hround cloneBlockedAppliance listedSnapshots _ (List.Perm.refl _)
    ⟨fun _ => rfl,
     fun s hs => by rcases hmem s hs with h | h | h <;> subst h <;> exact ⟨by decide, fun _ => rfl⟩⟩


/-- A round whose promotion fails goes on to the next round with the wrapped error of the
promotion, after exactly one listing and one promotion and without a plain destroy. -/
theorem round_promotion_fails (p : Provider) (path : String) (params : DestroyFilesystemParams)
    (log : Trace) (clone : String) (err : GoError) (final : Trace)
    (h : PromotionFails p path log clone err final) :
    DestroyFilesystem.round p path params log
      = (.continued (some (.errorf ("failed to promote clone '" ++ clone ++ "': "
          ++ err.Error))), final) ∧
    ∃ sent, final = log ++ sent ∧ sent.countP isSnapshotListing = 1 ∧
      sent.countP isPromotion = 1 ∧ sent.countP isPlainDestroy = 0 := by
  obtain ⟨snapshots, log1, m, log2, hlist, hscan, hne, hprom⟩ := h
  have hpath : path ≠ "" := by
    intro hp
    subst hp
    simp [GetSnapshots] at hlist
  refine ⟨?_, ?_⟩
  · unfold DestroyFilesystem.round
    rw [hlist]
    simp only [hscan, if_pos hne, hprom]
  · have h1 := GetSnapshots_sent p path true log hpath
    rw [hlist] at h1
    have hlog1 : log1 = log ++ [snapshotsRequest path true] := (Prod.mk.inj h1).2
    obtain ⟨sent2, h2, t2, _⟩ := scanSnapshots_trace p snapshots (0, "") log1
    rw [hscan] at h2
    simp only at h2
    have h3 := PromoteFilesystem_sent p clone log2 hne
    rw [hprom] at h3
    have hfinal : final = log2 ++ [promoteFilesystemRequest clone] := (Prod.mk.inj h3).2
    refine ⟨[snapshotsRequest path true] ++ sent2 ++ [promoteFilesystemRequest clone], ?_, ?_, ?_,
      ?_⟩
    · rw [hfinal, h2, hlog1]
      simp
    · have e2 : sent2.countP isSnapshotListing = 0 := Nat.le_zero.mp t2.1
      have e1 : isSnapshotListing (snapshotsRequest path true) = true := by
        simp [isSnapshotListing, snapshotsRequest, BuildURI]
      have e3 : isSnapshotListing (promoteFilesystemRequest clone) = false := by
        simp [isSnapshotListing, promoteFilesystemRequest]
      simp [List.countP_append, List.countP_cons, e1, e2, e3]
    · have e2 : sent2.countP isPromotion = 0 := Nat.le_zero.mp t2.2.1
      have e1 : isPromotion (snapshotsRequest path true) = false := by
        simp [isPromotion, snapshotsRequest]
      have e3 : isPromotion (promoteFilesystemRequest clone) = true := by
        simp [isPromotion, promoteFilesystemRequest]
      simp [List.countP_append, List.countP_cons, e1, e2, e3]
    · have e2 : sent2.countP isPlainDestroy = 0 := Nat.le_zero.mp t2.2.2
      have e1 : isPlainDestroy (snapshotsRequest path true) = false := by
        simp [isPlainDestroy, snapshotsRequest]
      have e3 : isPlainDestroy (promoteFilesystemRequest clone) = false := by
        simp [isPlainDestroy, promoteFilesystemRequest]
      simp [List.countP_append, List.countP_cons, e1, e2, e3]

/-- When the promotion fails in every round, a loop of `remaining` rounds runs all of
them: it sends exactly `remaining` listings and promotions and no plain destroy, and ends
with the wrapped error of the last promotion. -/
theorem loop_promotion_fails (p : Provider) (path : String) (params : DestroyFilesystemParams) :
    ∀ (remaining : Nat) (m : Option GoError) (log : Trace),
      (∀ sent, ∃ clone err final, PromotionFails p path (log ++ sent) clone err final) →
      ∃ m1 sent, DestroyFilesystem.loop p path params remaining m log
          = (.ended m1, log ++ sent) ∧
        sent.countP isSnapshotListing = remaining ∧ sent.countP isPromotion = remaining ∧
        sent.countP isPlainDestroy = 0 ∧ (remaining = 0 → m1 = m) ∧
        (0 < remaining → ∃ clone err before,
          PromotionFails p path before clone err (log ++ sent) ∧
          m1 = some (.errorf ("failed to promote clone '" ++ clone ++ "': " ++ err.Error))) := by
  intro remaining
  induction remaining with
  | zero =>
    intro m log _
    exact ⟨m, [], by simp [DestroyFilesystem.loop], rfl, rfl, rfl, fun _ => rfl,
      fun h => absurd h (by omega)⟩
  | succ n ih =>
    intro m log hfails
    obtain ⟨clone, err, final, hf⟩ := hfails []
    rw [List.append_nil] at hf
    obtain ⟨hround, sent1, hfinal, c1, c2, c3⟩ := round_promotion_fails p path params log clone err
      final hf
    subst hfinal
    obtain ⟨m1, sent2, hloop, d1, d2, d3, hzero, hpos⟩ := ih
      (some (.errorf ("failed to promote clone '" ++ clone ++ "': " ++ err.Error)))
      (log ++ sent1) (fun sent => by
        have := hfails (sent1 ++ sent)
        rwa [← List.append_assoc] at this)
    refine ⟨m1, sent1 ++ sent2, ?_, ?_, ?_, ?_, fun h => absurd h (by omega), ?_⟩
    · simp only [DestroyFilesystem.loop, hround, hloop, List.append_assoc]
    · rw [List.countP_append, c1, d1]
      omega
    · rw [List.countP_append, c2, d2]
      omega
    · rw [List.countP_append, c3, d3]
    · intro _
      rcases Nat.eq_zero_or_pos n with hn | hn
      · subst hn
        have hs2 : sent2 = [] := by
          simp only [DestroyFilesystem.loop] at hloop
          have := (Prod.mk.inj hloop).2
          simpa using this.symm
        subst hs2
        rw [List.append_nil]
        exact ⟨clone, err, log, hf, hzero rfl⟩
      · rw [← List.append_assoc]
        exact hpos hn

/-- C13: retries are bounded. Whatever the appliance answers, one call of
`DestroyFilesystem` sends at most 3 snapshot listings, at most 3 promotions and at most 4
plain destroys: the first plain destroy and at most 3 rounds of the promotion loop. When
the first plain destroy is refused with an already-exists error, promotion is requested,
and in every round the promotion is attempted and fails, with whatever error, the call
sends exactly 3 listings, exactly 3 promotions and the first plain destroy only, and
returns the error of the third promotion, wrapped with the context naming the clone and
then with the context naming the filesystem. -/
theorem retries_bounded (p : Provider) (path : String) (params : DestroyFilesystemParams)
    (log : Trace) :
    (∃ sent, (DestroyFilesystem p path params log).2 = log ++ sent ∧ Tally sent 3 3 4) ∧
    ∀ (err : GoError) (log1 : Trace),
      destroyFilesystem p path params.DestroySnapshots log = (some err, log1) →
      params.PromoteMostRecentCloneIfExists = true →
      IsAlreadyExistNefError (some err) = true →
      (∀ sent, ∃ clone e final, PromotionFails p path (log1 ++ sent) clone e final) →
      ∃ clone e before sent,
        PromotionFails p path before clone e (log ++ sent) ∧
        DestroyFilesystem p path params log
          = (some (.errorf ("Failed to delete filesystem '" ++ path ++ "': "
              ++ ("failed to promote clone '" ++ clone ++ "': " ++ e.Error))), log ++ sent) ∧
        sent.countP isSnapshotListing = 3 ∧ sent.countP isPromotion = 3 ∧
        sent.countP isPlainDestroy = 1 := by
  refine ⟨?_, ?_⟩
  · obtain ⟨sent1, h1, t1⟩ := destroyFilesystem_trace p path params.DestroySnapshots log
    unfold DestroyFilesystem
    rcases hd : destroyFilesystem p path params.DestroySnapshots log with ⟨derr, log1⟩
    rw [hd] at h1
    simp only at h1
    subst h1
    cases derr with
    | none => exact ⟨sent1, rfl, Tally_mono t1 (by omega) (by omega) (by omega)⟩
    | some err =>
      simp only
      split
      · exact ⟨sent1, rfl, Tally_mono t1 (by omega) (by omega) (by omega)⟩
      · obtain ⟨sent2, h2, t2⟩ := loop_trace p path params 3 none (log ++ sent1)
        rcases hl : DestroyFilesystem.loop p path params 3 none (log ++ sent1) with ⟨r, log2⟩
        rw [hl] at h2
        simp only at h2
        subst h2
        have t12 : Tally (sent1 ++ sent2) 3 3 4 :=
          Tally_mono (Tally_append t1 t2) (by omega) (by omega) (by omega)
        cases r with
        | returnedNil => exact ⟨sent1 ++ sent2, by simp, t12⟩
        | ended m =>
          simp only
          split
          · exact ⟨sent1 ++ sent2, by simp, t12⟩
          · exact ⟨sent1 ++ sent2, by simp, t12⟩
  · intro err log1 hfirst hpromote hexists hfails
    have hpath : path ≠ "" := by
      intro hp
      subst hp
      rw [destroyFilesystem_empty] at hfirst
      have he := (Prod.mk.inj hfirst).1
      rw [← Option.some.inj he] at hexists
      simp [IsAlreadyExistNefError] at hexists
    have h1 := destroyFilesystem_sent p path params.DestroySnapshots log hpath
    rw [hfirst] at h1
    have hlog1 : log1 = log ++ [destroyFilesystemRequest path params.DestroySnapshots] :=
      (Prod.mk.inj h1).2
    obtain ⟨m1, sent2, hloop, c1, c2, c3, _, hpos⟩ :=
      loop_promotion_fails p path params 3 none log1 hfails
    obtain ⟨clone, e, before, hf, hm⟩ := hpos (by omega)
    subst hm
    refine ⟨clone, e, before, [destroyFilesystemRequest path params.DestroySnapshots] ++ sent2,
      ?_, ?_, ?_, ?_, ?_⟩
    · rw [← List.append_assoc, ← hlog1]
      exact hf
    · unfold DestroyFilesystem
      rw [hfirst]
      simp only [hpromote, hexists, Bool.not_true, Bool.or_self, Bool.false_eq_true, if_false,
        hloop]
      simp [IsNefError, sprintError, GoError.Error, hlog1]
    · rw [List.countP_append, c1]
      simp [isSnapshotListing, destroyFilesystemRequest]
    · rw [List.countP_append, c2]
      simp [isPromotion, destroyFilesystemRequest]
    · rw [List.countP_append, c3]
      simp [isPlainDestroy, destroyFilesystemRequest]

theorem retries_bounded_witness :
    ∃ (clone : String) (e : GoError) (sent : Trace),
      DestroyFilesystem promotionFailsAppliance "pool/fs" ⟨true, true⟩ []
        = (some (.errorf ("Failed to delete filesystem '" ++ "pool/fs" ++ "': "
            ++ ("failed to promote clone '" ++ clone ++ "': " ++ e.Error))), [] ++ sent) ∧
      sent.countP isSnapshotListing = 3 ∧ sent.countP isPromotion = 3 ∧
      sent.countP isPlainDestroy = 1 := by
  obtain ⟨clone, e, _, sent, _, h⟩ :=
    (retries_bounded promotionFailsAppliance "pool/fs" ⟨true, true⟩ []).2
      (.nef "EEXIST" "filesystem has dependent clones")
      [destroyFilesystemRequest "pool/fs" true] (by rfl) rfl (by rfl)
      (fun sent => ⟨"pool/c2", .nef "ENOENT" "not found",
        [destroyFilesystemRequest "pool/fs" true] ++ sent ++ [snapshotsRequest "pool/fs" true]
          ++ [snapshotRequest "pool/fs@s1"] ++ [snapshotRequest "pool/fs@s2"]
          ++ [snapshotRequest "pool/fs@s3"] ++ [promoteFilesystemRequest "pool/c2"],
        listedSnapshots,
        [destroyFilesystemRequest "pool/fs" true] ++ sent ++ [snapshotsRequest "pool/fs" true],
        3,
        [destroyFilesystemRequest "pool/fs" true] ++ sent ++ [snapshotsRequest "pool/fs" true]
          ++ [snapshotRequest "pool/fs@s1"] ++ [snapshotRequest "pool/fs@s2"]
          ++ [snapshotRequest "pool/fs@s3"],
        by rfl, by rfl, by decide, by rfl⟩)
  exact ⟨clone, e, sent, h⟩

/-! ## NFS shares -/

/-- C30: `CreateNfsShare` never sends an empty access list. For a non-empty `Filesystem`
it sends one POST of `nas/nfs` whose body has exactly one security context, with both
access lists non-empty: a list supplied non-empty is sent unchanged; when both are empty
the read-write list is the rule `*` and the read-only list the rule `none`, both of etype
`fqdn`; when exactly one is empty, that one is the rule `none` of etype `fqdn`. -/
theorem CreateNfsShare_access_lists (p : Provider) (params : CreateNfsShareParams)
    (log : Trace) (hfilesystem : params.Filesystem ≠ "") :
    ∃ readWriteList readOnlyList,
      CreateNfsShare p params log
        = ((p.respond log (nfsShareRequest params.Filesystem readWriteList readOnlyList)).err,
           log ++ [nfsShareRequest params.Filesystem readWriteList readOnlyList]) ∧
      readWriteList ≠ [] ∧ readOnlyList ≠ [] ∧
      (params.ReadWriteList ≠ [] → readWriteList = params.ReadWriteList) ∧
      (params.ReadOnlyList ≠ [] → readOnlyList = params.ReadOnlyList) ∧
      (params.ReadWriteList = [] → params.ReadOnlyList = [] →
        readWriteList = [⟨"fqdn", "*", 0⟩] ∧ readOnlyList = [⟨"fqdn", "none", 0⟩]) ∧
      (params.ReadWriteList = [] → params.ReadOnlyList ≠ [] →
        readWriteList = [⟨"fqdn", "none", 0⟩]) ∧
      (params.ReadWriteList ≠ [] → params.ReadOnlyList = [] →
        readOnlyList = [⟨"fqdn", "none", 0⟩]) := by
  obtain ⟨filesystem, rw, ro⟩ := params
  simp only at hfilesystem
  cases rw with
  | nil =>
    cases ro with
    | nil =>
      exact ⟨[⟨"fqdn", "*", 0⟩], [⟨"fqdn", "none", 0⟩],
        by simp [CreateNfsShare, hfilesystem, Provider.sendRequest, nfsShareRequest],
        by simp, by simp, by simp, by simp, by simp, by simp, by simp⟩
    | cons r ro =>
      exact ⟨[⟨"fqdn", "none", 0⟩], r :: ro,
        by simp [CreateNfsShare, hfilesystem, Provider.sendRequest, nfsShareRequest],
        by simp, by simp, by simp, by simp, by simp, by simp, by simp⟩
  | cons w rw =>
    cases ro with
    | nil =>
      exact ⟨w :: rw, [⟨"fqdn", "none", 0⟩],
        by simp [CreateNfsShare, hfilesystem, Provider.sendRequest, nfsShareRequest],
        by simp, by simp, by simp, by simp, by simp, by simp, by simp⟩
    | cons r ro =>
      exact ⟨w :: rw, r :: ro,
        by simp [CreateNfsShare, hfilesystem, Provider.sendRequest, nfsShareRequest],
        by simp, by simp, by simp, by simp, by simp, by simp, by simp⟩

theorem CreateNfsShare_access_lists_witness :
    ∃ readWriteList readOnlyList,
      CreateNfsShare (tableAppliance []) ⟨"pool/fs", [], [⟨"fqdn", "10.0.0.1", 24⟩]⟩ []
        = (some (.nef "ENOENT" "not found"),
           [] ++ [nfsShareRequest "pool/fs" readWriteList readOnlyList]) ∧
      readWriteList = [⟨"fqdn", "none", 0⟩] ∧ readOnlyList = [⟨"fqdn", "10.0.0.1", 24⟩] := by
  obtain ⟨readWriteList, readOnlyList, h, _, _, _, hro, _, hrw, _⟩ :=
    CreateNfsShare_access_lists (tableAppliance []) ⟨"pool/fs", [], [⟨"fqdn", "10.0.0.1", 24⟩]⟩ []
      (by decide)
  exact ⟨readWriteList, readOnlyList, h, hrw rfl (by simp), hro (by simp)⟩

/-! ## Iterations of the promotion loop -/

/-- The loop entered by `DestroyFilesystem` goes on from every iteration it reaches. -/
theorem iteration_loop (p : Provider) (path : String) (params : DestroyFilesystemParams)
    (start : Trace) (i : Nat) (m : Option GoError) (log : Trace)
    (h : Iteration p path params start i m log) :
    i < 3 ∧ DestroyFilesystem.loop p path params 3 none start
      = DestroyFilesystem.loop p path params (3 - i) m log := by
  induction h with
  | first => exact ⟨by omega, rfl⟩
  | next i m log m1 log1 _ hlt hround ih =>
    refine ⟨hlt, ?_⟩
    rw [ih.2]
    have h3 : 3 - i = (3 - (i + 1)) + 1 := by omega
    rw [h3]
    simp only [DestroyFilesystem.loop, hround]

/-- What `DestroyFilesystem` returns once its first plain destroy is refused with an
already-exists error and promotion is requested, in terms of its loop. -/
theorem DestroyFilesystem_blocked (p : Provider) (path : String)
    (params : DestroyFilesystemParams) (log log1 : Trace) (err : GoError)
    (hfirst : destroyFilesystem p path params.DestroySnapshots log = (some err, log1))
    (hpromote : params.PromoteMostRecentCloneIfExists = true)
    (hexists : IsAlreadyExistNefError (some err) = true) :
    (∀ final, DestroyFilesystem.loop p path params 3 none log1 = (.returnedNil, final) →
      DestroyFilesystem p path params log = (none, final)) ∧
    (∀ e final, DestroyFilesystem.loop p path params 3 none log1 = (.ended (some e), final) →
      DestroyFilesystem p path params log
        = (some (if IsNefError (some e) = true then e
            else .errorf ("Failed to delete filesystem '" ++ path ++ "': " ++ e.Error)),
           final)) ∧
    (DestroyFilesystem p path params log).2
      = (DestroyFilesystem.loop p path params 3 none log1).2 := by
  refine ⟨?_, ?_, ?_⟩
  · intro final hloop
    unfold DestroyFilesystem
    rw [hfirst]
    simp only [hpromote, hexists, Bool.not_true, Bool.or_self, Bool.false_eq_true, if_false,
      hloop]
  · intro e final hloop
    unfold DestroyFilesystem
    rw [hfirst]
    simp only [hpromote, hexists, Bool.not_true, Bool.or_self, Bool.false_eq_true, if_false,
      hloop]
    cases hn : IsNefError (some e) <;> simp [sprintError]
  · unfold DestroyFilesystem
    rw [hfirst]
    simp only [hpromote, hexists, Bool.not_true, Bool.or_self, Bool.false_eq_true, if_false]
    rcases DestroyFilesystem.loop p path params 3 none log1 with ⟨r, log2⟩
    cases r with
    | returnedNil => rfl
    | ended m =>
      simp only
      split <;> rfl

/-- A round that reaches the plain destroy ends as that destroy decides. -/
theorem round_reaches_destroy (p : Provider) (path : String) (params : DestroyFilesystemParams)
    (log log3 : Trace) (h : ReachesDestroy p path log log3) :
    DestroyFilesystem.round p path params log
      = (match destroyFilesystem p path params.DestroySnapshots log3 with
        | (none, log4) => (.returnedNil, log4)
        | (some mostRecentError, log4) =>
          if !IsAlreadyExistNefError (some mostRecentError) then
            (.broke (some mostRecentError), log4)
          else (.continued (some mostRecentError), log4)) := by
  obtain ⟨snapshots, log1, m, clone, log2, hlist, hscan, hprom⟩ := h
  unfold DestroyFilesystem.round
  rw [hlist]
  simp only [hscan, hprom]

/-- A round that returns `nil` ends with a plain destroy that succeeded. -/
theorem round_success (p : Provider) (path : String) (params : DestroyFilesystemParams)
    (log final : Trace)
    (h : DestroyFilesystem.round p path params log = (.returnedNil, final)) :
    ∃ sent, destroyFilesystem p path params.DestroySnapshots (log ++ sent) = (none, final) := by
  obtain ⟨sent1, h1, _⟩ := GetSnapshots_trace p path true log
  unfold DestroyFilesystem.round at h
  rcases hl : GetSnapshots p path true log with ⟨r, log1⟩
  rw [hl] at h h1
  simp only at h1
  subst h1
  cases r with
  | error err => simp at h
  | ok snapshots =>
    simp only at h
    obtain ⟨sent2, h2, _⟩ := scanSnapshots_trace p snapshots (0, "") (log ++ sent1)
    rcases hs : DestroyFilesystem.scanSnapshots p snapshots (0, "") (log ++ sent1) with
      ⟨⟨serr, m, clone⟩, log2⟩
    rw [hs] at h h2
    simp only at h2
    subst h2
    cases serr with
    | some err => simp at h
    | none =>
      simp only at h
      have hp3 : ∃ sent3, (if clone ≠ "" then PromoteFilesystem p clone (log ++ sent1 ++ sent2)
          else (none, log ++ sent1 ++ sent2)).2 = log ++ sent1 ++ sent2 ++ sent3 := by
        by_cases hc : clone = ""
        · exact ⟨[], by simp [hc]⟩
        · rw [if_pos hc]
          obtain ⟨sent3, h3, _⟩ := PromoteFilesystem_trace p clone (log ++ sent1 ++ sent2)
          exact ⟨sent3, h3⟩
      obtain ⟨sent3, h3⟩ := hp3
      rcases hp : (if clone ≠ "" then PromoteFilesystem p clone (log ++ sent1 ++ sent2)
          else (none, log ++ sent1 ++ sent2)) with ⟨perr, log3⟩
      rw [hp] at h h3
      simp only at h3
      subst h3
      cases perr with
      | some err => simp at h
      | none =>
        simp only at h
        rcases hd : destroyFilesystem p path params.DestroySnapshots
          (log ++ sent1 ++ sent2 ++ sent3) with ⟨derr, log4⟩
        rw [hd] at h
        cases derr with
        | none =>
          simp only [Prod.mk.injEq, true_and] at h
          subst h
          exact ⟨sent1 ++ sent2 ++ sent3, by simpa [List.append_assoc] using hd⟩
        | some err =>
          simp only at h
          split at h <;> simp at h

/-- A loop that returns `nil` ends with a plain destroy that succeeded. -/
theorem loop_success (p : Provider) (path : String) (params : DestroyFilesystemParams) :
    ∀ (remaining : Nat) (m : Option GoError) (log final : Trace),
      DestroyFilesystem.loop p path params remaining m log = (.returnedNil, final) →
      ∃ sent, destroyFilesystem p path params.DestroySnapshots (log ++ sent) = (none, final) := by
  intro remaining
  induction remaining with
  | zero =>
    intro m log final h
    simp [DestroyFilesystem.loop] at h
  | succ n ih =>
    intro m log final h
    simp only [DestroyFilesystem.loop] at h
    obtain ⟨sent1, h1, _⟩ := round_trace p path params log
    rcases hr : DestroyFilesystem.round p path params log with ⟨r, log1⟩
    rw [hr] at h h1
    simp only at h1
    subst h1
    cases r with
    | returnedNil =>
      simp only [Prod.mk.injEq, true_and] at h
      subst h
      exact round_success p path params log _ hr
    | broke e => simp at h
    | continued e =>
      simp only at h
      obtain ⟨sent2, h2⟩ := ih e (log ++ sent1) final h
      exact ⟨sent1 ++ sent2, by rwa [← List.append_assoc]⟩

/-- A plain destroy that does not fail with the validation error sent its request. -/
theorem destroyFilesystem_answered (p : Provider) (path : String) (destroySnapshots : Bool)
    (log final : Trace) (r : Option GoError)
    (h : destroyFilesystem p path destroySnapshots log = (r, final))
    (hr : r ≠ some (.errorf "Filesystem path is required")) :
    path ≠ "" ∧ final = log ++ [destroyFilesystemRequest path destroySnapshots] ∧
      (p.respond log (destroyFilesystemRequest path destroySnapshots)).err = r := by
  have hpath : path ≠ "" := by
    intro hp
    subst hp
    rw [destroyFilesystem_empty] at h
    exact hr (Prod.mk.inj h).1.symm
  have hs := destroyFilesystem_sent p path destroySnapshots log hpath
  rw [h] at hs
  exact ⟨hpath, (Prod.mk.inj hs).2, (Prod.mk.inj hs).1.symm⟩

theorem IsNefError_of_alreadyExist (e : GoError)
    (h : IsAlreadyExistNefError (some e) = true) : IsNefError (some e) = true := by
  cases e with
  | errorf msg => simp [IsAlreadyExistNefError] at h
  | nef code err => rfl

theorem loop_succ (p : Provider) (path : String) (params : DestroyFilesystemParams)
    (remaining : Nat) (m : Option GoError) (log : Trace) :
    DestroyFilesystem.loop p path params (remaining + 1) m log
      = (match DestroyFilesystem.round p path params log with
        | (.returnedNil, log1) => (.returnedNil, log1)
        | (.broke mostRecentError, log1) => (.ended mostRecentError, log1)
        | (.continued mostRecentError, log1) =>
          DestroyFilesystem.loop p path params remaining mostRecentError log1) := by
  simp only [DestroyFilesystem.loop]

/-! ## Claims on the outcome of a round -/

/-- C21: the outcome of the re-attempted destroy inside the promotion loop. In a call of
`DestroyFilesystem` whose first plain destroy is refused with an already-exists error and
that requests promotion, take an iteration `i` of the loop that reaches the plain destroy.
The destroy sends its request and nothing is sent between it and what follows. When it
succeeds the call returns `nil` with the trace of that destroy. When it fails with an
error that is not already-exists the call fails with the trace of that destroy: with the
error itself when it is classified, wrapped with the context naming the filesystem
otherwise. When it fails with an already-exists error and `i + 1 < 3`, iteration `i + 1`
begins and the next request is a snapshot listing; when `i + 1 = 3` the call fails with
that already-exists error. -/
theorem reattempted_destroy_decides (p : Provider) (path : String)
    (params : DestroyFilesystemParams) (log log1 : Trace) (err : GoError) (i : Nat)
    (m : Option GoError) (current log3 : Trace)
    (hfirst : destroyFilesystem p path params.DestroySnapshots log = (some err, log1))
    (hpromote : params.PromoteMostRecentCloneIfExists = true)
    (hexists : IsAlreadyExistNefError (some err) = true)
    (hiter : Iteration p path params log1 i m current)
    (hreach : ReachesDestroy p path current log3) :
    (∀ r log4, destroyFilesystem p path params.DestroySnapshots log3 = (r, log4) →
      log4 = log3 ++ [destroyFilesystemRequest path params.DestroySnapshots]) ∧
    (∀ log4, destroyFilesystem p path params.DestroySnapshots log3 = (none, log4) →
      DestroyFilesystem p path params log = (none, log4)) ∧
    (∀ e log4, destroyFilesystem p path params.DestroySnapshots log3 = (some e, log4) →
      IsAlreadyExistNefError (some e) = false →
      DestroyFilesystem p path params log
        = (some (if IsNefError (some e) = true then e
            else .errorf ("Failed to delete filesystem '" ++ path ++ "': " ++ e.Error)),
           log4)) ∧
    (∀ e log4, destroyFilesystem p path params.DestroySnapshots log3 = (some e, log4) →
      IsAlreadyExistNefError (some e) = true →
      (i + 1 < 3 → Iteration p path params log1 (i + 1) (some e) log4 ∧
        ∃ rest, (DestroyFilesystem p path params log).2
          = log4 ++ snapshotsRequest path true :: rest) ∧
      (i + 1 = 3 → DestroyFilesystem p path params log = (some e, log4))) := by
  obtain ⟨hi, hloop⟩ := iteration_loop p path params log1 i m current hiter
  obtain ⟨hnil, hend, htrace⟩ := DestroyFilesystem_blocked p path params log log1 err hfirst
    hpromote hexists
  have hround := round_reaches_destroy p path params current log3 hreach
  have hpath : path ≠ "" :=
    (destroyFilesystem_answered p path params.DestroySnapshots log log1 (some err) hfirst
      (by
        intro h
        rw [Option.some.inj h] at hexists
        simp [IsAlreadyExistNefError] at hexists)).1
  have hcurrent : DestroyFilesystem.loop p path params (3 - i) m current
      = (match DestroyFilesystem.round p path params current with
        | (.returnedNil, log1) => (.returnedNil, log1)
        | (.broke mostRecentError, log1) => (.ended mostRecentError, log1)
        | (.continued mostRecentError, log1) =>
          DestroyFilesystem.loop p path params (3 - (i + 1)) mostRecentError log1) := by
    have h3 : 3 - i = (3 - (i + 1)) + 1 := by omega
    rw [h3, loop_succ]
  rw [hcurrent] at hloop
  refine ⟨?_, ?_, ?_, ?_⟩
  · intro r log4 hd
    have hs := destroyFilesystem_sent p path params.DestroySnapshots log3 hpath
    rw [hd] at hs
    exact (Prod.mk.inj hs).2
  · intro log4 hd
    rw [hd] at hround
    rw [hround] at hloop
    exact hnil log4 hloop
  · intro e log4 hd hne
    rw [hd] at hround
    simp only [hne, Bool.not_false, if_true] at hround
    rw [hround] at hloop
    exact hend e log4 hloop
  · intro e log4 hd he
    rw [hd] at hround
    simp only [he, Bool.not_true, Bool.false_eq_true, if_false] at hround
    rw [hround] at hloop
    simp only at hloop
    refine ⟨?_, ?_⟩
    · intro hlt
      have hnext := Iteration.next i m current (some e) log4 hiter hlt hround
      refine ⟨hnext, ?_⟩
      have h4 : 3 - (i + 1) = (3 - (i + 2)) + 1 := by omega
      rw [htrace, hloop, h4]
      exact loop_starts_with_listing p path params hpath _ (some e) log4
    · intro heq
      have h0 : 3 - (i + 1) = 0 := by omega
      rw [h0] at hloop
      have := hend e log4 hloop
      rwa [if_pos (IsNefError_of_alreadyExist e he)] at this

theorem reattempted_destroy_decides_witness :
    DestroyFilesystem cloneBlockedAppliance "pool/fs" ⟨true, true⟩ []
      = (none,
         [destroyFilesystemRequest "pool/fs" true, snapshotsRequest "pool/fs" true,
          snapshotRequest "pool/fs@s1", snapshotRequest "pool/fs@s2",
          snapshotRequest "pool/fs@s3", promoteFilesystemRequest "pool/c2",
          destroyFilesystemRequest "pool/fs" true]) :=
  (reattempted_destroy_decides cloneBlockedAppliance "pool/fs" ⟨true, true⟩ []
    [destroyFilesystemRequest "pool/fs" true] (.nef "EEXIST" "filesystem has dependent clones")
    0 none [destroyFilesystemRequest "pool/fs" true]
    [destroyFilesystemRequest "pool/fs" true, snapshotsRequest "pool/fs" true,
     snapshotRequest "pool/fs@s1", snapshotRequest "pool/fs@s2",
     snapshotRequest "pool/fs@s3", promoteFilesystemRequest "pool/c2"]
    (by rfl) rfl (by rfl) Iteration.first
    ⟨listedSnapshots,
     [destroyFilesystemRequest "pool/fs" true, snapshotsRequest "pool/fs" true], 3, "pool/c2",
     [destroyFilesystemRequest "pool/fs" true, snapshotsRequest "pool/fs" true,
      snapshotRequest "pool/fs@s1", snapshotRequest "pool/fs@s2",
      snapshotRequest "pool/fs@s3"],
     by rfl, by rfl, by rfl⟩).2.1 _ (by rfl)

/-- C22 (as stated) fails for the snapshot listing: on an appliance that refuses the
destroy of `pool/fs` with EEXIST and fails the snapshot listing, the listing fails in the
first iteration of the loop, with two more iterations allowed, and the call ends there:
it has sent one listing and nothing after it, and returns the error. -/
theorem failed_listing_not_retried :
    Iteration listingFailsAppliance "pool/fs" ⟨true, true⟩
        [destroyFilesystemRequest "pool/fs" true] 0 none
        [destroyFilesystemRequest "pool/fs" true] ∧
      GetSnapshots listingFailsAppliance "pool/fs" true [destroyFilesystemRequest "pool/fs" true]
        = (.error (.nef "ENOENT" "not found"),
           [destroyFilesystemRequest "pool/fs" true, snapshotsRequest "pool/fs" true]) ∧
      DestroyFilesystem listingFailsAppliance "pool/fs" ⟨true, true⟩ []
        = (some (.errorf ("Failed to delete filesystem 'pool/fs': "
            ++ "failed to get snapshot list: not found [code: ENOENT]")),
           [destroyFilesystemRequest "pool/fs" true, snapshotsRequest "pool/fs" true]) ∧
      (DestroyFilesystem listingFailsAppliance "pool/fs" ⟨true, true⟩ []).2.countP
        isSnapshotListing = 1 :=
  ⟨Iteration.first, by rfl, by rfl, by rfl⟩

/-! ## Lookups that fail -/

/-- C23 fails on the code: on an appliance that answers the lookup of `pool/vol` with an
error, so that no data list is decoded, `GetVolume` does not return the error: it indexes
the empty data list and faults. `GetFilesystem`, on the same appliance, returns the error
with the zero-value record. -/
theorem GetVolume_faults_on_failed_request :
    (tableAppliance []).respond [] (volumeRequest "pool/vol")
        = ⟨some (.nef "ENOENT" "not found"), .unset⟩ ∧
      GetVolume (tableAppliance []) "pool/vol" []
        = (.panicked "index out of range [0] with length 0", [volumeRequest "pool/vol"]) ∧
      GetFilesystem (tableAppliance []) "pool/vol" []
        = ((⟨"", "", false, false, 0, 0⟩, some (.nef "ENOENT" "not found")),
           [filesystemRequest "pool/vol"]) :=
  ⟨by rfl, by rfl, by rfl⟩

/-! ## Success of `DestroyFilesystem` -/

/-- C28: success is reported only after a successful destroy. Whatever the appliance
answers, when `DestroyFilesystem` returns `nil` the last request it sent is the plain
destroy of `path`, and the appliance answered it without error. When the promotion loop
is left without `return nil`, `mostRecentError` is not nil, so its text is the text of an
error and not the rendering of `nil`; the call then returns an error: `mostRecentError`
itself when it is classified, and wrapped with the context naming the filesystem
otherwise. -/
theorem success_only_after_destroy (p : Provider) (path : String)
    (params : DestroyFilesystemParams) (log : Trace) :
    ((DestroyFilesystem p path params log).1 = none →
      ∃ sent, (DestroyFilesystem p path params log).2
          = log ++ sent ++ [destroyFilesystemRequest path params.DestroySnapshots] ∧
        (p.respond (log ++ sent) (destroyFilesystemRequest path params.DestroySnapshots)).err
          = none) ∧
    (∀ log1 m final, DestroyFilesystem.loop p path params 3 none log1 = (.ended m, final) →
      ∃ e, m = some e ∧ sprintError m = e.Error) ∧
    (∀ err log1 m final,
      destroyFilesystem p path params.DestroySnapshots log = (some err, log1) →
      params.PromoteMostRecentCloneIfExists = true →
      IsAlreadyExistNefError (some err) = true →
      DestroyFilesystem.loop p path params 3 none log1 = (.ended m, final) →
      ∃ e, m = some e ∧ DestroyFilesystem p path params log
        = (some (if IsNefError (some e) = true then e
            else .errorf ("Failed to delete filesystem '" ++ path ++ "': " ++ e.Error)),
           final)) := by
  have hsome : ∀ log1 m final,
      DestroyFilesystem.loop p path params 3 none log1 = (.ended m, final) →
      ∃ e, m = some e := by
    intro log1 m final hloop
    have hfail := loop_failure p path params 3 none log1 m final
      (fun h => absurd h (by decide)) hloop
    cases hfail with
    | listing => exact ⟨_, rfl⟩
    | detail => exact ⟨_, rfl⟩
    | conversion => exact ⟨_, rfl⟩
    | promotion => exact ⟨_, rfl⟩
    | destroy before e => exact ⟨e, rfl⟩
  refine ⟨?_, ?_, ?_⟩
  · intro hnil
    rcases hd : destroyFilesystem p path params.DestroySnapshots log with ⟨r, log1⟩
    cases r with
    | none =>
      obtain ⟨_, hfinal, hanswer⟩ := destroyFilesystem_answered p path params.DestroySnapshots
        log log1 none hd (by simp)
      have hres : DestroyFilesystem p path params log = (none, log1) := by
        unfold DestroyFilesystem
        rw [hd]
      exact ⟨[], by rw [hres, hfinal, List.append_nil], by rwa [List.append_nil]⟩
    | some err =>
      by_cases hblocked : params.PromoteMostRecentCloneIfExists = true ∧
          IsAlreadyExistNefError (some err) = true
      · obtain ⟨hdone, hend, _⟩ := DestroyFilesystem_blocked p path params log log1 err hd
          hblocked.1 hblocked.2
        obtain ⟨_, hlog1, _⟩ := destroyFilesystem_answered p path params.DestroySnapshots
          log log1 (some err) hd (by
            intro h
            have he := hblocked.2
            rw [Option.some.inj h] at he
            simp [IsAlreadyExistNefError] at he)
        rcases hl : DestroyFilesystem.loop p path params 3 none log1 with ⟨r, final⟩
        cases r with
        | returnedNil =>
          obtain ⟨sent, hlast⟩ := loop_success p path params 3 none log1 final hl
          obtain ⟨_, hfinal, hanswer⟩ := destroyFilesystem_answered p path
            params.DestroySnapshots (log1 ++ sent) final none hlast (by simp)
          refine ⟨[destroyFilesystemRequest path params.DestroySnapshots] ++ sent, ?_, ?_⟩
          · rw [hdone final hl, hfinal, hlog1]
            simp
          · rw [← List.append_assoc, ← hlog1]
            exact hanswer
        | ended m =>
          obtain ⟨e, he⟩ := hsome log1 m final hl
          subst he
          rw [hend e final hl] at hnil
          simp at hnil
      · have hres : DestroyFilesystem p path params log = (some err, log1) := by
          unfold DestroyFilesystem
          rw [hd]
          simp only [not_and_or, Bool.not_eq_true] at hblocked
          rcases hblocked with h | h <;> simp [h]
        rw [hres] at hnil
        simp at hnil
  · intro log1 m final hloop
    obtain ⟨e, he⟩ := hsome log1 m final hloop
    exact ⟨e, he, by rw [he]; rfl⟩
  · intro err log1 m final hfirst hpromote hexists hloop
    obtain ⟨e, he⟩ := hsome log1 m final hloop
    subst he
    exact ⟨e, rfl, (DestroyFilesystem_blocked p path params log log1 err hfirst hpromote
      hexists).2.1 e final hloop⟩

theorem success_only_after_destroy_witness :
    ∃ sent, (DestroyFilesystem cloneBlockedAppliance "pool/fs" ⟨true, true⟩ []).2
        = [] ++ sent ++ [destroyFilesystemRequest "pool/fs" true] ∧
      (cloneBlockedAppliance.respond ([] ++ sent) (destroyFilesystemRequest "pool/fs" true)).err
        = none :=
  (success_only_after_destroy cloneBlockedAppliance "pool/fs" ⟨true, true⟩ []).1 (by rfl)

/-! ## Claims on the parent record and on the next token -/

/-- C24 (as amended): over a listing whose first record is the parent and none of whose
other records is the parent, served by offset and limit, `GetFilesystems(parent)` ends and
returns exactly the records of the listing that are not the parent, each once and in
listing order. -/
theorem GetFilesystems_parent_first (p : Provider) (parent : String)
    (listing : List Filesystem) (parentRecord : Filesystem) (others : List Filesystem)
    (hlisting : listing = parentRecord :: others) (hparent : parentRecord.Path = parent)
    (hothers : ∀ c ∈ others, c.Path ≠ parent)
    (hserve : ServesFilesystems p parent listing) (log : Trace) (fuel : Nat)
    (hfuel : others.length / 99 < fuel) :
    (GetFilesystems p parent fuel log).1
      = some (.ok (listing.filter (fun fs => decide (fs.Path ≠ parent)))) := by
  subst hlisting
  have hkeep : others.filter (fun fs => decide (fs.Path ≠ parent)) = others :=
    List.filter_eq_self.mpr (fun c hc => by simpa using hothers c hc)
  have hfilter : (parentRecord :: others).filter (fun fs => decide (fs.Path ≠ parent))
      = others := by
    rw [List.filter_cons_of_neg (by simp [hparent]), hkeep]
  rw [hfilter]
  unfold GetFilesystems
  rw [GetFilesystems_loop_eq_walkAll]
  have hfetch : ∀ (o : Nat) (log : Trace), 1 ≤ o →
      GetFilesystemsSlice p parent (nsFilesystemListLimit - 1) (o : Int) log
        = (.ok (((parentRecord :: others).drop o).take 100),
           log ++ [filesystemsRequest parent 100 o]) := by
    intro o log ho
    rw [GetFilesystemsSlice_served p parent _ hserve o log]
    congr 2
    apply List.filter_eq_self.mpr
    intro c hc
    obtain ⟨k, rfl⟩ : ∃ k, o = k + 1 := ⟨o - 1, by omega⟩
    have hmem : c ∈ others := by
      rw [List.drop_succ_cons] at hc
      exact List.mem_of_mem_drop (List.mem_of_mem_take hc)
    simpa using hothers c hmem
  have h := walkAll_served (GetFilesystemsSlice p parent (nsFilesystemListLimit - 1))
    (fun o => filesystemsRequest parent 100 o) (parentRecord :: others) 100 1 (by decide)
    hfetch fuel 1 [] nsFilesystemListLimit log (le_refl 1) (by decide)
    (by simp only [List.length_cons]; omega)
  simpa using h

theorem GetFilesystems_parent_first_witness :
    (GetFilesystems sampleAppliance "pool/fs" 1 []).1
      = some (.ok ((filesystemAt "pool/fs" :: sampleChildren).filter
          (fun fs => decide (fs.Path ≠ "pool/fs")))) :=
  GetFilesystems_parent_first sampleAppliance "pool/fs" (filesystemAt "pool/fs" :: sampleChildren)
    (filesystemAt "pool/fs") sampleChildren rfl rfl (by decide)
    (storageAppliance_servesFilesystems _ _ _) [] 1 (by decide)

/-- C24 (as stated) fails: when the listing served for `pool/fs` does not contain the
parent record, or contains it after another record, `GetFilesystems` starts at offset 1
all the same and the first record of the listing, which is not the parent, is missing
from the result. -/
theorem GetFilesystems_loses_first_record :
    (GetFilesystems (storageAppliance [] sampleChildren) "pool/fs" 2 []).1
        = some (.ok (sampleChildren.drop 1)) ∧
      sampleChildren.filter (fun fs => decide (fs.Path ≠ "pool/fs")) = sampleChildren ∧
      sampleChildren.drop 1 ≠ sampleChildren ∧
      (GetFilesystems
          (storageAppliance []
            (filesystemAt "pool/fs/child-0" :: filesystemAt "pool/fs" :: sampleChildren))
          "pool/fs" 2 []).1
        = some (.ok sampleChildren) ∧
      (filesystemAt "pool/fs/child-0" :: filesystemAt "pool/fs" :: sampleChildren).filter
          (fun fs => decide (fs.Path ≠ "pool/fs"))
        = filesystemAt "pool/fs/child-0" :: sampleChildren :=
  ⟨by rfl, by decide, by decide, by rfl, by decide⟩

/-- C25 fails on the code: the volume group `pool/vg` holds exactly three volumes.
`GetVolumesWithStartingToken("pool/vg", "", 3)` returns the three of them together with
the next token `pool/vg/v3`, although no volume follows: the following call with that
token returns no record. The same holds for the five children of `pool/fs` and
`GetFilesystemsWithStartingToken`. -/
theorem nextToken_without_more_records :
    (GetVolumesWithStartingToken (storageAppliance sampleVolumes []) "pool/vg" "" 3 2 []).1
        = some (.ok (sampleVolumes, "pool/vg/v3")) ∧
      (GetVolumesWithStartingToken (storageAppliance sampleVolumes []) "pool/vg" "pool/vg/v3"
          3 2 []).1
        = some (.ok ([], "")) ∧
      (GetFilesystemsWithStartingToken sampleAppliance "pool/fs" "" 5 2 []).1
        = some (.ok (sampleChildren, "pool/fs/child-5")) ∧
      (GetFilesystemsWithStartingToken sampleAppliance "pool/fs" "pool/fs/child-5" 5 2 []).1
        = some (.ok ([], "")) :=
  ⟨by rfl, by rfl, by rfl, by rfl⟩

/-! ## The candidate of a scan -/

theorem selectClone_append (detail : String → Snapshot) (txg : String → Int) :
    ∀ (l1 l2 : List Snapshot) (st : Int × String),
      selectClone detail txg (l1 ++ l2) st
        = selectClone detail txg l2 (selectClone detail txg l1 st) := by
  intro l1
  induction l1 with
  | nil => intro l2 st; simp [selectClone]
  | cons s rest ih =>
    intro l2 st
    obtain ⟨m, c⟩ := st
    simp only [List.cons_append, selectClone]
    split
    · exact ih l2 _
    · exact ih l2 _

/-- Snapshots that do not exceed the candidate leave it as it is. -/
theorem selectClone_unchanged (detail : String → Snapshot) (txg : String → Int) :
    ∀ (l : List Snapshot) (m : Int) (c : String),
      (∀ s ∈ l, (detail s.Path).Clones ≠ [] → txg s.Path ≤ m) →
      selectClone detail txg l (m, c) = (m, c) := by
  intro l
  induction l with
  | nil => intro m c _; simp [selectClone]
  | cons s rest ih =>
    intro m c h
    simp only [selectClone]
    have hs := h s (List.mem_cons_self s rest)
    have hnot : ¬ ((detail s.Path).Clones.length > 0 ∧ txg s.Path > m) := by
      intro hc
      have := hs (List.length_pos.mp hc.1)
      omega
    rw [if_neg hnot]
    exact ih m c (fun x hx => h x (List.mem_cons_of_mem s hx))

/-- Snapshots below a bound leave a candidate below that bound. -/
theorem selectClone_lt (detail : String → Snapshot) (txg : String → Int) (bound : Int) :
    ∀ (l : List Snapshot) (m : Int) (c : String),
      (∀ s ∈ l, (detail s.Path).Clones ≠ [] → txg s.Path < bound) → m < bound →
      (selectClone detail txg l (m, c)).1 < bound := by
  intro l
  induction l with
  | nil => intro m c _ hm; simpa [selectClone] using hm
  | cons s rest ih =>
    intro m c h hm
    simp only [selectClone]
    split
    · rename_i hc
      exact ih _ _ (fun x hx => h x (List.mem_cons_of_mem s hx))
        (h s (List.mem_cons_self s rest) (List.length_pos.mp hc.1))
    · exact ih _ _ (fun x hx => h x (List.mem_cons_of_mem s hx)) hm

/-- The candidate after the whole listing is the first clone of the first snapshot that
reaches the greatest positive creation-transaction number among those with clones. -/
theorem selectClone_first_greatest (detail : String → Snapshot) (txg : String → Int)
    (before after : List Snapshot) (first : Snapshot)
    (hclones : (detail first.Path).Clones ≠ []) (hpos : 0 < txg first.Path)
    (hbefore : ∀ s ∈ before, (detail s.Path).Clones ≠ [] → txg s.Path < txg first.Path)
    (hafter : ∀ s ∈ after, (detail s.Path).Clones ≠ [] → txg s.Path ≤ txg first.Path) :
    selectClone detail txg (before ++ first :: after) (0, "")
      = (txg first.Path, (detail first.Path).Clones.headD "") := by
  rw [selectClone_append]
  have hlt := selectClone_lt detail txg (txg first.Path) before 0 "" hbefore hpos
  rcases hst : selectClone detail txg before (0, "") with ⟨m, c⟩
  rw [hst] at hlt
  simp only at hlt
  simp only [selectClone]
  rw [if_pos ⟨List.length_pos.mpr hclones, hlt⟩]
  exact selectClone_unchanged detail txg after _ _ hafter

/-- A round over a served listing, by the candidate the scan selects: with a candidate
the round sends the listing, the detail fetches and the promotion of the candidate;
without one it sends the listing, the detail fetches and then the plain destroy. -/
theorem round_of_selected (p : Provider) (path : String) (params : DestroyFilesystemParams)
    (log : Trace) (listed : List Snapshot) (detail : String → Snapshot) (txg : String → Int)
    (hpath : path ≠ "") (hserve : ServesSnapshots p path listed detail)
    (htxg : ∀ s ∈ listed, Atoi (detail s.Path).CreationTxg = .ok (txg s.Path)) :
    ((selectClone detail txg listed (0, "")).2 ≠ "" →
      ∃ rest, (DestroyFilesystem.round p path params log).2
          = log ++ promotionBlock path listed (selectClone detail txg listed (0, "")).2 ++ rest ∧
        Tally rest 0 0 1) ∧
    ((selectClone detail txg listed (0, "")).2 = "" →
      (DestroyFilesystem.round p path params log).2
        = log ++ snapshotsRequest path true :: listed.map (fun s => snapshotRequest s.Path)
          ++ [destroyFilesystemRequest path params.DestroySnapshots]) := by
  have hscan := scanSnapshots_served p detail txg listed (0, "")
    (log ++ [snapshotsRequest path true]) hserve.2 htxg
  rcases hsel : selectClone detail txg listed (0, "") with ⟨m, clone⟩
  rw [hsel] at hscan
  have hbefore : log ++ [snapshotsRequest path true]
        ++ listed.map (fun s => snapshotRequest s.Path)
      = log ++ snapshotsRequest path true :: listed.map (fun s => snapshotRequest s.Path) := by
    simp
  refine ⟨?_, ?_⟩
  · intro hne
    simp only at hne
    have hblock : log ++ promotionBlock path listed clone
        = log ++ [snapshotsRequest path true] ++ listed.map (fun s => snapshotRequest s.Path)
          ++ [promoteFilesystemRequest clone] := by
      simp [promotionBlock]
    unfold DestroyFilesystem.round
    rw [GetSnapshots_sent p path true log hpath, hserve.1 log]
    simp only [Payload.asStorageSnapshots, hscan, if_pos hne]
    rw [PromoteFilesystem_sent p clone _ hne, hblock]
    cases (p.respond
      (log ++ [snapshotsRequest path true] ++ listed.map (fun s => snapshotRequest s.Path))
      (promoteFilesystemRequest clone)).err with
    | some err => exact ⟨[], by simp, Tally_mono Tally_nil (by omega) (by omega) (by omega)⟩
    | none =>
      simp only
      obtain ⟨sent, h4, t4⟩ := destroyFilesystem_trace p path params.DestroySnapshots
        (log ++ [snapshotsRequest path true] ++ listed.map (fun s => snapshotRequest s.Path)
          ++ [promoteFilesystemRequest clone])
      rcases hd : destroyFilesystem p path params.DestroySnapshots
        (log ++ [snapshotsRequest path true] ++ listed.map (fun s => snapshotRequest s.Path)
          ++ [promoteFilesystemRequest clone]) with ⟨derr, log4⟩
      rw [hd] at h4
      simp only at h4
      subst h4
      cases derr with
      | none => exact ⟨sent, rfl, t4⟩
      | some err =>
        simp only
        split
        · exact ⟨sent, rfl, t4⟩
        · exact ⟨sent, rfl, t4⟩
  · intro heq
    simp only at heq
    subst heq
    unfold DestroyFilesystem.round
    rw [GetSnapshots_sent p path true log hpath, hserve.1 log]
    simp only [Payload.asStorageSnapshots, hscan, ne_eq, not_true_eq_false, if_false]
    rw [destroyFilesystem_sent p path params.DestroySnapshots _ hpath, hbefore]
    cases (p.respond
      (log ++ snapshotsRequest path true :: listed.map (fun s => snapshotRequest s.Path))
      (destroyFilesystemRequest path params.DestroySnapshots)).err with
    | none => rfl
    | some err =>
      simp only
      split <;> rfl

theorem Candidate_mono (p : Provider) (seen seen1 : List Snapshot) (st : Int × String)
    (hsub : ∀ s ∈ seen, s ∈ seen1) (h : Candidate p seen st) : Candidate p seen1 st := by
  rcases h with h | ⟨s, hs, rest⟩
  · exact Or.inl h
  · exact Or.inr ⟨s, hsub s hs, rest⟩

/-- A scan that succeeds takes a candidate to a candidate. -/
theorem scanSnapshots_candidate (p : Provider) :
    ∀ (l seen : List Snapshot) (st : Int × String) (log : Trace) (st1 : Int × String)
      (final : Trace), Candidate p seen st →
      DestroyFilesystem.scanSnapshots p l st log = ((none, st1), final) →
      Candidate p (seen ++ l) st1 := by
  intro l
  induction l with
  | nil =>
    intro seen st log st1 final hc h
    obtain ⟨m, c⟩ := st
    simp only [DestroyFilesystem.scanSnapshots, Prod.mk.injEq, true_and] at h
    rw [List.append_nil, ← h.1]
    exact hc
  | cons s rest ih =>
    intro seen st log st1 final hc h
    obtain ⟨m, c⟩ := st
    simp only [DestroyFilesystem.scanSnapshots] at h
    rcases hg : GetSnapshot p s.Path log with ⟨⟨snapshot, e⟩, log1⟩
    rw [hg] at h
    cases e with
    | some e => simp at h
    | none =>
      simp only at h
      cases ha : Atoi snapshot.CreationTxg with
      | error e =>
        rw [ha] at h
        simp at h
      | ok t =>
        rw [ha] at h
        simp only at h
        have hm : 0 ≤ m := by
          rcases hc with hc | ⟨_, _, _, _, _, t0, _, _, ht0, _, hst⟩
          · have := (Prod.mk.inj hc).1
            omega
          · have := (Prod.mk.inj hst).1
            omega
        have hnext : ∀ st2, Candidate p (seen ++ [s]) st2 →
            DestroyFilesystem.scanSnapshots p rest st2 log1 = ((none, st1), final) →
            Candidate p (seen ++ s :: rest) st1 := by
          intro st2 hc2 h2
          have := ih (seen ++ [s]) st2 log1 st1 final hc2 h2
          simpa using this
        split at h
        · rename_i hcond
          refine hnext _ (Or.inr ⟨s, by simp, log, snapshot, log1, t, hg, ha, by omega,
            List.length_pos.mp hcond.1, rfl⟩) h
        · exact hnext _ (Candidate_mono p seen _ _ (fun x hx => by simp [hx]) hc) h

/-! ## Claims on the candidate of a scan -/

/-- C26 (as amended): on equal creation-transaction numbers the snapshot encountered
earlier wins. When the listing is served with the details of its snapshots, two of its
snapshots, `first` before `later`, both have clones and carry the same positive
creation-transaction number, and every other snapshot with clones carries a smaller one,
the round promotes the first clone of `first`, and no other clone after it. -/
theorem earlier_snapshot_wins_tie (p : Provider) (path : String)
    (params : DestroyFilesystemParams) (log : Trace) (before middle after : List Snapshot)
    (first later : Snapshot) (detail : String → Snapshot) (txg : String → Int)
    (clone : String) (clones : List String) (hpath : path ≠ "")
    (hserve : ServesSnapshots p path (before ++ first :: (middle ++ later :: after)) detail)
    (htxg : ∀ s ∈ before ++ first :: (middle ++ later :: after),
      Atoi (detail s.Path).CreationTxg = .ok (txg s.Path))
    (hfirst : (detail first.Path).Clones = clone :: clones) (hnonempty : clone ≠ "")
    (_hlater : (detail later.Path).Clones ≠ [])
    (htie : txg later.Path = txg first.Path) (hpos : 0 < txg first.Path)
    (hothers : ∀ s ∈ before ++ middle ++ after,
      (detail s.Path).Clones ≠ [] → txg s.Path < txg first.Path) :
    ∃ rest, (DestroyFilesystem.round p path params log).2
        = log ++ promotionBlock path (before ++ first :: (middle ++ later :: after)) clone
          ++ rest ∧
      Tally rest 0 0 1 := by
  have hsel : selectClone detail txg (before ++ first :: (middle ++ later :: after)) (0, "")
      = (txg first.Path, clone) := by
    rw [selectClone_first_greatest detail txg before (middle ++ later :: after) first
      (by rw [hfirst]; simp) hpos
      (fun s hs hc => hothers s (by simp [hs]) hc)
      (fun s hs hc => by
        rcases List.mem_append.mp hs with hs | hs
        · exact le_of_lt (hothers s (by simp [hs]) hc)
        · rcases List.mem_cons.mp hs with hs | hs
          · rw [hs, htie]
          · exact le_of_lt (hothers s (by simp [hs]) hc)),
      hfirst]
    rfl
  have h := (round_of_selected p path params log _ detail txg hpath hserve htxg).1
  rw [hsel] at h
  exact h hnonempty

theorem earlier_snapshot_wins_tie_witness :
    ∃ rest, (DestroyFilesystem.round (tiedAppliance "5") "pool/fs" ⟨true, true⟩ []).2
        = [] ++ promotionBlock "pool/fs" tiedSnapshots "pool/ca" ++ rest ∧
      Tally rest 0 0 1 := by
  have hmem : ∀ s ∈ tiedSnapshots, s = ⟨"pool/fs@a", "a", "pool/fs", [], "", ""⟩ ∨
      s = ⟨"pool/fs@b", "b", "pool/fs", [], "", ""⟩ := by
    intro s hs
    simpa [tiedSnapshots] using hs
  exact (earlier_snapshot_wins_tie (tiedAppliance "5") "pool/fs" ⟨true, true⟩ [] [] [] []
    ⟨"pool/fs@a", "a", "pool/fs", [], "", ""⟩ ⟨"pool/fs@b", "b", "pool/fs", [], "", ""⟩
    (tiedDetail "5") (fun _ => 5) "pool/ca" [] (by decide)
    ⟨fun _ => rfl,
     fun s hs => by rcases hmem s hs with h | h <;> subst h <;> exact ⟨by decide, fun _ => rfl⟩⟩
    (fun s hs => by rcases hmem s hs with h | h <;> subst h <;> rfl)
    rfl (by decide) (by decide) rfl (by decide) (by simp))

/-- C26 (as stated) fails: the snapshots `a` and `b` of `pool/fs`, listed in this order,
both carry the creation-transaction number 5, `a` with the clone `pool/ca` and `b` with
the clone `pool/cb`. The round promotes `pool/ca`, the clone of the snapshot encountered
first, and never `pool/cb`. When both carry the number 0 instead, the round promotes
nothing. -/
theorem later_snapshot_loses_tie :
    (DestroyFilesystem.round (tiedAppliance "5") "pool/fs" ⟨true, true⟩ []).2
        = [snapshotsRequest "pool/fs" true, snapshotRequest "pool/fs@a",
           snapshotRequest "pool/fs@b", promoteFilesystemRequest "pool/ca",
           destroyFilesystemRequest "pool/fs" true] ∧
      (tiedDetail "5" "pool/fs@b").Clones = ["pool/cb"] ∧
      promoteFilesystemRequest "pool/cb"
        ∉ (DestroyFilesystem.round (tiedAppliance "5") "pool/fs" ⟨true, true⟩ []).2 ∧
      (DestroyFilesystem.round (tiedAppliance "0") "pool/fs" ⟨true, true⟩ []).2
        = [snapshotsRequest "pool/fs" true, snapshotRequest "pool/fs@a",
           snapshotRequest "pool/fs@b", destroyFilesystemRequest "pool/fs" true] :=
  ⟨by rfl, by rfl, by decide, by rfl⟩

/-- C29: snapshots with a non-positive creation-transaction number are never candidates.
Whatever the appliance answers, the candidate a successful scan ends with is the initial
one, with no clone, or the number and first clone of a listed snapshot that has clones
and whose `creationTxg` converts to a positive number. Over a served listing in which
every snapshot with clones has a number that is 0 or negative, the round sends the
listing, the detail fetches and then the plain destroy, without a promotion. In every
round whose listing and scan succeed without a candidate, the next request is the plain
destroy and the round ends as that destroy decides. -/
theorem nonpositive_txg_never_candidate (p : Provider) (path : String)
    (params : DestroyFilesystemParams) (log : Trace) :
    (∀ snapshots log1 maxCreationTxg mostRecentClone log2,
      DestroyFilesystem.scanSnapshots p snapshots (0, "") log1
        = ((none, maxCreationTxg, mostRecentClone), log2) →
      Candidate p snapshots (maxCreationTxg, mostRecentClone)) ∧
    (∀ (listed : List Snapshot) (detail : String → Snapshot) (txg : String → Int),
      path ≠ "" → ServesSnapshots p path listed detail →
      (∀ s ∈ listed, Atoi (detail s.Path).CreationTxg = .ok (txg s.Path)) →
      (∀ s ∈ listed, (detail s.Path).Clones ≠ [] → txg s.Path ≤ 0) →
      (DestroyFilesystem.round p path params log).2
        = log ++ snapshotsRequest path true :: listed.map (fun s => snapshotRequest s.Path)
          ++ [destroyFilesystemRequest path params.DestroySnapshots]) ∧
    (∀ snapshots log1 maxCreationTxg log2,
      GetSnapshots p path true log = (.ok snapshots, log1) →
      DestroyFilesystem.scanSnapshots p snapshots (0, "") log1
        = ((none, maxCreationTxg, ""), log2) →
      (DestroyFilesystem.round p path params log).2
        = log2 ++ [destroyFilesystemRequest path params.DestroySnapshots] ∧
      DestroyFilesystem.round p path params log
        = (match destroyFilesystem p path params.DestroySnapshots log2 with
          | (none, log4) => (.returnedNil, log4)
          | (some mostRecentError, log4) =>
            if !IsAlreadyExistNefError (some mostRecentError) then
              (.broke (some mostRecentError), log4)
            else (.continued (some mostRecentError), log4))) := by
  refine ⟨?_, ?_, ?_⟩
  · intro snapshots log1 m clone log2 hscan
    have := scanSnapshots_candidate p snapshots [] (0, "") log1 (m, clone) log2 (Or.inl rfl) hscan
    simpa using this
  · intro listed detail txg hpath hserve htxg hnonpos
    have hsel := selectClone_unchanged detail txg listed 0 "" hnonpos
    have h := (round_of_selected p path params log listed detail txg hpath hserve htxg).2
    rw [hsel] at h
    exact h rfl
  · intro snapshots log1 m log2 hlist hscan
    have hpath : path ≠ "" := by
      intro hp
      subst hp
      simp [GetSnapshots] at hlist
    have hreach : ReachesDestroy p path log log2 :=
      ⟨snapshots, log1, m, "", log2, hlist, hscan, by simp⟩
    have hround := round_reaches_destroy p path params log log2 hreach
    refine ⟨?_, hround⟩
    rw [hround, destroyFilesystem_sent p path params.DestroySnapshots log2 hpath]
    cases (p.respond log2 (destroyFilesystemRequest path params.DestroySnapshots)).err with
    | none => rfl
    | some err =>
      simp only
      split <;> rfl

theorem nonpositive_txg_never_candidate_witness :
    (DestroyFilesystem.round (tiedAppliance "-4") "pool/fs" ⟨true, true⟩ []).2
      = [] ++ snapshotsRequest "pool/fs" true
          :: tiedSnapshots.map (fun s => snapshotRequest s.Path)
        ++ [destroyFilesystemRequest "pool/fs" true] := by
  have hmem : ∀ s ∈ tiedSnapshots, s = ⟨"pool/fs@a", "a", "pool/fs", [], "", ""⟩ ∨
      s = ⟨"pool/fs@b", "b", "pool/fs", [], "", ""⟩ := by
    intro s hs
    simpa [tiedSnapshots] using hs
  exact (nonpositive_txg_never_candidate (tiedAppliance "-4") "pool/fs" ⟨true, true⟩ []).2.1
    tiedSnapshots (tiedDetail "-4") (fun _ => -4) (by decide)
    ⟨fun _ => rfl,
     fun s hs => by rcases hmem s hs with h | h <;> subst h <;> exact ⟨by decide, fun _ => rfl⟩⟩
    (fun s hs => by rcases hmem s hs with h | h <;> subst h <;> rfl)
    (fun _ _ _ => by simp)

/-! ## The two destroy state machines -/

theorem destroyVolume_sent (p : Provider) (path : String) (destroySnapshots : Bool)
    (log : Trace) (hpath : path ≠ "") :
    destroyVolume p path destroySnapshots log
      = ((p.respond log (destroyVolumeRequest path destroySnapshots)).err,
         log ++ [destroyVolumeRequest path destroySnapshots]) := by
  simp [destroyVolume, hpath, Provider.sendRequest, destroyVolumeRequest]

theorem PromoteVolume_sent (p : Provider) (path : String) (log : Trace) (hpath : path ≠ "") :
    PromoteVolume p path log
      = ((p.respond log (promoteVolumeRequest path)).err,
         log ++ [promoteVolumeRequest path]) := by
  simp [PromoteVolume, hpath, Provider.sendRequest, promoteVolumeRequest]

theorem SameStep_extend {α : Type} (calls sent : List PrimitiveCall) (f v : α × Trace)
    (h : SameStep (calls ++ sent) f v) : SameStep calls f v := by
  obtain ⟨r, sent1, hf, hv⟩ := h
  exact ⟨r, sent ++ sent1, by rw [hf, List.append_assoc], by rw [hv, List.append_assoc]⟩

theorem SameStep_here {α : Type} (calls : List PrimitiveCall) (r : α) :
    SameStep calls (r, calls.map PrimitiveCall.ofFilesystem)
      (r, calls.map PrimitiveCall.ofVolume) :=
  ⟨r, [], by simp, by simp⟩

theorem SameStep_call {α : Type} (calls : List PrimitiveCall) (c : PrimitiveCall) (r : α) :
    SameStep calls (r, calls.map PrimitiveCall.ofFilesystem ++ [c.ofFilesystem])
      (r, calls.map PrimitiveCall.ofVolume ++ [c.ofVolume]) :=
  ⟨r, [c], by simp, by simp⟩

theorem destroy_same_step (pf pv : Provider) (hsame : SameOutcomes pf pv) (path : String)
    (destroySnapshots : Bool) (calls : List PrimitiveCall) :
    SameStep calls
      (destroyFilesystem pf path destroySnapshots (calls.map PrimitiveCall.ofFilesystem))
      (destroyVolume pv path destroySnapshots (calls.map PrimitiveCall.ofVolume)) := by
  by_cases hpath : path = ""
  · subst hpath
    simp only [destroyFilesystem, destroyVolume, if_true]
    exact SameStep_here calls _
  · rw [destroyFilesystem_sent pf path destroySnapshots _ hpath,
      destroyVolume_sent pv path destroySnapshots _ hpath]
    have h := hsame calls (.destroy path destroySnapshots)
    simp only [PrimitiveCall.ofVolume, PrimitiveCall.ofFilesystem] at h
    rw [h]
    exact SameStep_call calls (.destroy path destroySnapshots) _

theorem promote_same_step (pf pv : Provider) (hsame : SameOutcomes pf pv) (clone : String)
    (hclone : clone ≠ "") (calls : List PrimitiveCall) :
    SameStep calls (PromoteFilesystem pf clone (calls.map PrimitiveCall.ofFilesystem))
      (PromoteVolume pv clone (calls.map PrimitiveCall.ofVolume)) := by
  rw [PromoteFilesystem_sent pf clone _ hclone, PromoteVolume_sent pv clone _ hclone]
  have h := hsame calls (.promote clone)
  simp only [PrimitiveCall.ofVolume, PrimitiveCall.ofFilesystem] at h
  rw [h]
  exact SameStep_call calls (.promote clone) _

theorem GetSnapshots_same_step (pf pv : Provider) (hsame : SameOutcomes pf pv) (path : String)
    (calls : List PrimitiveCall) :
    SameStep calls (GetSnapshots pf path true (calls.map PrimitiveCall.ofFilesystem))
      (GetSnapshots pv path true (calls.map PrimitiveCall.ofVolume)) := by
  by_cases hpath : path = ""
  · subst hpath
    simp only [GetSnapshots, if_true]
    exact SameStep_here calls _
  · rw [GetSnapshots_sent pf path true _ hpath, GetSnapshots_sent pv path true _ hpath]
    have h := hsame calls (.listSnapshots path)
    simp only [PrimitiveCall.ofVolume, PrimitiveCall.ofFilesystem] at h
    rw [h]
    exact SameStep_call calls (.listSnapshots path) _

theorem GetSnapshot_same_step (pf pv : Provider) (hsame : SameOutcomes pf pv) (path : String)
    (calls : List PrimitiveCall) :
    SameStep calls (GetSnapshot pf path (calls.map PrimitiveCall.ofFilesystem))
      (GetSnapshot pv path (calls.map PrimitiveCall.ofVolume)) := by
  by_cases hpath : path = ""
  · subst hpath
    simp only [GetSnapshot, if_true]
    exact SameStep_here calls _
  · rw [GetSnapshot_sent pf path _ hpath, GetSnapshot_sent pv path _ hpath]
    have h := hsame calls (.getSnapshot path)
    simp only [PrimitiveCall.ofVolume, PrimitiveCall.ofFilesystem] at h
    rw [h]
    exact SameStep_call calls (.getSnapshot path) _

theorem scanSnapshots_same_step (pf pv : Provider) (hsame : SameOutcomes pf pv) :
    ∀ (snapshots : List Snapshot) (st : Int × String) (calls : List PrimitiveCall),
      SameStep calls
        (DestroyFilesystem.scanSnapshots pf snapshots st (calls.map PrimitiveCall.ofFilesystem))
        (DestroyVolume.scanSnapshots pv snapshots st (calls.map PrimitiveCall.ofVolume)) := by
  intro snapshots
  induction snapshots with
  | nil =>
    intro st calls
    obtain ⟨m, c⟩ := st
    simp only [DestroyFilesystem.scanSnapshots, DestroyVolume.scanSnapshots]
    exact SameStep_here calls _
  | cons s rest ih =>
    intro st calls
    obtain ⟨m, c⟩ := st
    obtain ⟨r, sent, hf, hv⟩ := GetSnapshot_same_step pf pv hsame s.Path calls
    obtain ⟨snapshot, e⟩ := r
    simp only [DestroyFilesystem.scanSnapshots, DestroyVolume.scanSnapshots, hf, hv]
    cases e with
    | some e => exact ⟨_, sent, rfl, rfl⟩
    | none =>
      simp only
      cases Atoi snapshot.CreationTxg with
      | error e => exact ⟨_, sent, rfl, rfl⟩
      | ok t =>
        simp only
        split
        · exact SameStep_extend calls sent _ _ (ih _ (calls ++ sent))
        · exact SameStep_extend calls sent _ _ (ih _ (calls ++ sent))

theorem round_same_step (pf pv : Provider) (hsame : SameOutcomes pf pv) (path : String)
    (destroySnapshots promote : Bool) (calls : List PrimitiveCall) :
    SameStep calls
      (DestroyFilesystem.round pf path ⟨destroySnapshots, promote⟩
        (calls.map PrimitiveCall.ofFilesystem))
      (DestroyVolume.round pv path ⟨destroySnapshots, promote⟩
        (calls.map PrimitiveCall.ofVolume)) := by
  obtain ⟨r1, sent1, hf1, hv1⟩ := GetSnapshots_same_step pf pv hsame path calls
  simp only [DestroyFilesystem.round, DestroyVolume.round, hf1, hv1]
  cases r1 with
  | error err => exact ⟨_, sent1, rfl, rfl⟩
  | ok snapshots =>
    simp only
    obtain ⟨r2, sent2, hf2, hv2⟩ :=
      scanSnapshots_same_step pf pv hsame snapshots (0, "") (calls ++ sent1)
    obtain ⟨serr, m, clone⟩ := r2
    rw [hf2, hv2]
    cases serr with
    | some err => exact SameStep_extend calls sent1 _ _ ⟨_, sent2, rfl, rfl⟩
    | none =>
      simp only
      have hp : SameStep (calls ++ sent1 ++ sent2)
          (if clone ≠ "" then
            PromoteFilesystem pf clone ((calls ++ sent1 ++ sent2).map PrimitiveCall.ofFilesystem)
           else (none, (calls ++ sent1 ++ sent2).map PrimitiveCall.ofFilesystem))
          (if clone ≠ "" then
            PromoteVolume pv clone ((calls ++ sent1 ++ sent2).map PrimitiveCall.ofVolume)
           else (none, (calls ++ sent1 ++ sent2).map PrimitiveCall.ofVolume)) := by
        by_cases hc : clone = ""
        · simp only [hc, ne_eq, not_true_eq_false, if_false]
          exact SameStep_here _ _
        · rw [if_pos hc, if_pos hc]
          exact promote_same_step pf pv hsame clone hc _
      obtain ⟨perr, sent3, hf3, hv3⟩ := hp
      rw [hf3, hv3]
      cases perr with
      | some err =>
        exact SameStep_extend calls sent1 _ _
          (SameStep_extend (calls ++ sent1) sent2 _ _ ⟨_, sent3, rfl, rfl⟩)
      | none =>
        simp only
        obtain ⟨derr, sent4, hf4, hv4⟩ := destroy_same_step pf pv hsame path destroySnapshots
          (calls ++ sent1 ++ sent2 ++ sent3)
        rw [hf4, hv4]
        have hback : ∀ r : Round, SameStep calls
            (r, (calls ++ sent1 ++ sent2 ++ sent3 ++ sent4).map PrimitiveCall.ofFilesystem)
            (r, (calls ++ sent1 ++ sent2 ++ sent3 ++ sent4).map PrimitiveCall.ofVolume) :=
          fun r => ⟨r, sent1 ++ sent2 ++ sent3 ++ sent4, by simp, by simp⟩
        cases derr with
        | none => exact hback _
        | some err =>
          simp only
          split
          · exact hback _
          · exact hback _

theorem loop_same_step (pf pv : Provider) (hsame : SameOutcomes pf pv) (path : String)
    (destroySnapshots promote : Bool) :
    ∀ (remaining : Nat) (m : Option GoError) (calls : List PrimitiveCall),
      SameStep calls
        (DestroyFilesystem.loop pf path ⟨destroySnapshots, promote⟩ remaining m
          (calls.map PrimitiveCall.ofFilesystem))
        (DestroyVolume.loop pv path ⟨destroySnapshots, promote⟩ remaining m
          (calls.map PrimitiveCall.ofVolume)) := by
  intro remaining
  induction remaining with
  | zero =>
    intro m calls
    simp only [DestroyFilesystem.loop, DestroyVolume.loop]
    exact SameStep_here calls _
  | succ n ih =>
    intro m calls
    obtain ⟨r, sent, hf, hv⟩ := round_same_step pf pv hsame path destroySnapshots promote calls
    simp only [DestroyFilesystem.loop, DestroyVolume.loop, hf, hv]
    cases r with
    | returnedNil => exact ⟨_, sent, rfl, rfl⟩
    | broke e => exact ⟨_, sent, rfl, rfl⟩
    | continued e =>
      simp only
      exact SameStep_extend calls sent _ _ (ih e (calls ++ sent))

/-- C27: `DestroyVolume` and `DestroyFilesystem` implement the same state machine. When
the primitives of the two appliances have the same outcomes after the same calls, then
for the same path and flags, started after the same calls, the two functions make the
same further calls of their primitives, with the same arguments and in the same order,
and return the same outcome: `nil`, the same error returned as it is, or the same text
wrapped into "Failed to delete filesystem" by the one and into "Failed to delete volume"
by the other. -/
theorem destroy_state_machines_agree (pf pv : Provider) (path : String)
    (destroySnapshots promote : Bool) (calls : List PrimitiveCall)
    (hsame : SameOutcomes pf pv) :
    ∃ (sent : List PrimitiveCall) (outcome : ReaperOutcome),
      DestroyFilesystem pf path ⟨destroySnapshots, promote⟩
          (calls.map PrimitiveCall.ofFilesystem)
        = (outcome.render "filesystem" path,
           (calls ++ sent).map PrimitiveCall.ofFilesystem) ∧
      DestroyVolume pv path ⟨destroySnapshots, promote⟩ (calls.map PrimitiveCall.ofVolume)
        = (outcome.render "volume" path, (calls ++ sent).map PrimitiveCall.ofVolume) := by
  have hfs : ∀ text : String, "Failed to delete filesystem '" ++ path ++ "': " ++ text
      = "Failed to delete " ++ "filesystem" ++ " '" ++ path ++ "': " ++ text := by
    intro text
    have : "Failed to delete filesystem '" = "Failed to delete " ++ "filesystem" ++ " '" := by
      decide
    rw [this]
  have hvol : ∀ text : String, "Failed to delete volume '" ++ path ++ "': " ++ text
      = "Failed to delete " ++ "volume" ++ " '" ++ path ++ "': " ++ text := by
    intro text
    have : "Failed to delete volume '" = "Failed to delete " ++ "volume" ++ " '" := by
      decide
    rw [this]
  obtain ⟨r1, sent1, hf1, hv1⟩ := destroy_same_step pf pv hsame path destroySnapshots calls
  simp only [DestroyFilesystem, DestroyVolume, hf1, hv1]
  cases r1 with
  | none => exact ⟨sent1, .done, rfl, rfl⟩
  | some err =>
    simp only
    by_cases hcond : (!promote || !IsAlreadyExistNefError (some err)) = true
    · rw [if_pos hcond, if_pos hcond]
      exact ⟨sent1, .failed err, rfl, rfl⟩
    · rw [if_neg hcond, if_neg hcond]
      obtain ⟨r2, sent2, hf2, hv2⟩ := loop_same_step pf pv hsame path destroySnapshots promote
        3 none (calls ++ sent1)
      rw [hf2, hv2]
      cases r2 with
      | returnedNil =>
        exact ⟨sent1 ++ sent2, .done, by simp [ReaperOutcome.render],
          by simp [ReaperOutcome.render]⟩
      | ended m =>
        simp only
        by_cases hn : (!IsNefError m) = true
        · rw [if_pos hn, if_pos hn]
          exact ⟨sent1 ++ sent2, .wrapped (sprintError m),
            by simp only [ReaperOutcome.render, hfs, List.append_assoc],
            by simp only [ReaperOutcome.render, hvol, List.append_assoc]⟩
        · rw [if_neg hn, if_neg hn]
          cases m with
          | none => simp [IsNefError] at hn
          | some e =>
            exact ⟨sent1 ++ sent2, .failed e, by simp [ReaperOutcome.render],
              by simp [ReaperOutcome.render]⟩

theorem destroy_state_machines_agree_witness :
    ∃ (sent : List PrimitiveCall) (outcome : ReaperOutcome),
      DestroyFilesystem blockedAppliance "pool/fs" ⟨true, true⟩
          (([] : List PrimitiveCall).map PrimitiveCall.ofFilesystem)
        = (outcome.render "filesystem" "pool/fs",
           ([] ++ sent).map PrimitiveCall.ofFilesystem) ∧
      DestroyVolume blockedAppliance "pool/fs" ⟨true, true⟩
          (([] : List PrimitiveCall).map PrimitiveCall.ofVolume)
        = (outcome.render "volume" "pool/fs", ([] ++ sent).map PrimitiveCall.ofVolume) :=
  destroy_state_machines_agree blockedAppliance blockedAppliance "pool/fs" true true []
    (fun _ c => by cases c <;> rfl)

/-! ## A detail fetch that fails -/

/-- When the detail fetches of the snapshots `before` succeed and that of `s` fails, the
scan of a listing that holds `before`, then `s`, ends at the failed fetch with its error,
whatever candidate it started from and whatever follows `s` in the listing. -/
theorem scanSnapshots_detail_fails (p : Provider) (s : Snapshot) (after : List Snapshot)
    (final : Trace) (err : GoError) :
    ∀ (before : List Snapshot) (st : Int × String) (log mid : Trace),
      DetailsFetched p before log mid → DetailFails p s mid final err →
      ∃ st1, DestroyFilesystem.scanSnapshots p (before ++ s :: after) st log
        = ((some err, st1), final) := by
  intro before
  induction before with
  | nil =>
    intro st log mid hbefore hfail
    obtain ⟨m, c⟩ := st
    simp only [DetailsFetched] at hbefore
    subst hbefore
    simp only [List.nil_append, DestroyFilesystem.scanSnapshots]
    rcases hfail with ⟨snapshot, e, hg, herr⟩ | ⟨snapshot, e, hg, ha, herr⟩
    · rw [hg, herr]
      exact ⟨_, rfl⟩
    · rw [hg]
      simp only [ha, herr]
      exact ⟨_, rfl⟩
  | cons b rest ih =>
    intro st log mid hbefore hfail
    obtain ⟨m, c⟩ := st
    simp only [DetailsFetched] at hbefore
    obtain ⟨snapshot, log1, t, hg, ha, hrest⟩ := hbefore
    simp only [List.cons_append, DestroyFilesystem.scanSnapshots, hg, ha]
    split
    · exact ih _ log1 mid hrest hfail
    · exact ih _ log1 mid hrest hfail

/-- A round whose listing succeeds and in which a detail fetch fails, after the fetches
before it succeeded, goes on to the next round with the error of the failed fetch; its
trace ends at the failed fetch and holds GET requests only. -/
theorem round_detail_fails (p : Provider) (path : String) (params : DestroyFilesystemParams)
    (log log1 mid final : Trace) (before after : List Snapshot) (s : Snapshot) (err : GoError)
    (hlist : GetSnapshots p path true log = (.ok (before ++ s :: after), log1))
    (hbefore : DetailsFetched p before log1 mid) (hfail : DetailFails p s mid final err) :
    DestroyFilesystem.round p path params log = (.continued (some err), final) ∧
    ∃ sent, final = log ++ sent ∧ ∀ r ∈ sent, r.method = .GET := by
  obtain ⟨st1, hscan⟩ := scanSnapshots_detail_fails p s after final err before (0, "") log1 mid
    hbefore hfail
  refine ⟨?_, ?_⟩
  · unfold DestroyFilesystem.round
    rw [hlist]
    simp only [hscan]
  · obtain ⟨sent1, h1, _, g1⟩ := GetSnapshots_trace p path true log
    obtain ⟨sent2, h2, _, g2⟩ := scanSnapshots_trace p (before ++ s :: after) (0, "") log1
    rw [hlist] at h1
    rw [hscan] at h2
    simp only at h1 h2
    refine ⟨sent1 ++ sent2, by rw [h2, h1, List.append_assoc], ?_⟩
    intro r hr
    rcases List.mem_append.mp hr with hr | hr
    · exact g1 r hr
    · exact g2 r hr

/-! ## Claims on a detail fetch that fails -/

/-- C20: a failed snapshot detail fetch abandons the attempt without trusting a partial
candidate. Take a round of the promotion loop of `DestroyFilesystem` whose listing
succeeds, and a snapshot `s` of the listing: the detail fetches of the snapshots before
`s` succeed, whatever candidate they yield, and the fetch of `s` fails, by an error of
`GetSnapshot` or by a `creationTxg` that is not an integer. Then the round ends at that
fetch and goes on to the next one with its error: the requests of the round are GET
requests only, so no promotion and no plain destroy, and nothing is sent after the
failed fetch. The round uses up one of the rounds of the loop, which ends with that
error when none remains and otherwise starts the next round with a fresh snapshot
listing. -/
theorem failed_detail_abandons_round (p : Provider) (path : String)
    (params : DestroyFilesystemParams) (log log1 mid final : Trace)
    (before after : List Snapshot) (s : Snapshot) (err : GoError)
    (hlist : GetSnapshots p path true log = (.ok (before ++ s :: after), log1))
    (hbefore : DetailsFetched p before log1 mid) (hfail : DetailFails p s mid final err) :
    DestroyFilesystem.round p path params log = (.continued (some err), final) ∧
    (∃ sent, final = log ++ sent ∧ (∀ r ∈ sent, r.method = .GET) ∧
      sent.countP isPromotion = 0 ∧ sent.countP isPlainDestroy = 0) ∧
    (∀ remaining m, DestroyFilesystem.loop p path params (remaining + 1) m log
      = DestroyFilesystem.loop p path params remaining (some err) final) ∧
    DestroyFilesystem.loop p path params 0 (some err) final = (.ended (some err), final) ∧
    (∀ remaining, ∃ rest,
      (DestroyFilesystem.loop p path params (remaining + 1) (some err) final).2
        = final ++ snapshotsRequest path true :: rest) := by
  obtain ⟨hround, sent, hsent, hget⟩ := round_detail_fails p path params log log1 mid final
    before after s err hlist hbefore hfail
  have hpath : path ≠ "" := by
    intro h
    subst h
    simp [GetSnapshots] at hlist
  refine ⟨hround, ⟨sent, hsent, hget, ?_, ?_⟩, ?_, rfl, ?_⟩
  · rw [List.countP_eq_zero]
    intro r hr
    simp [isPromotion, hget r hr]
  · rw [List.countP_eq_zero]
    intro r hr
    simp [isPlainDestroy, hget r hr]
  · intro remaining m
    simp only [DestroyFilesystem.loop, hround]
  · intro remaining
    exact loop_starts_with_listing p path params hpath remaining (some err) final

theorem failed_detail_abandons_round_witness :
    DestroyFilesystem.round detailFailsAppliance "pool/fs" ⟨true, true⟩
        [destroyFilesystemRequest "pool/fs" true]
      = (.continued
          (some (.errorf "failed to get 'pool/fs@s3' snapshost's info: not found [code: ENOENT]")),
         [destroyFilesystemRequest "pool/fs" true, snapshotsRequest "pool/fs" true,
          snapshotRequest "pool/fs@s1", snapshotRequest "pool/fs@s2",
          snapshotRequest "pool/fs@s3"]) :=
  (failed_detail_abandons_round detailFailsAppliance "pool/fs" ⟨true, true⟩
    [destroyFilesystemRequest "pool/fs" true]
    [destroyFilesystemRequest "pool/fs" true, snapshotsRequest "pool/fs" true]
    [destroyFilesystemRequest "pool/fs" true, snapshotsRequest "pool/fs" true,
     snapshotRequest "pool/fs@s1", snapshotRequest "pool/fs@s2"]
    [destroyFilesystemRequest "pool/fs" true, snapshotsRequest "pool/fs" true,
     snapshotRequest "pool/fs@s1", snapshotRequest "pool/fs@s2", snapshotRequest "pool/fs@s3"]
    [⟨"pool/fs@s1", "s1", "pool/fs", [], "", ""⟩, ⟨"pool/fs@s2", "s2", "pool/fs", [], "", ""⟩]
    [] ⟨"pool/fs@s3", "s3", "pool/fs", [], "", ""⟩
    (.errorf "failed to get 'pool/fs@s3' snapshost's info: not found [code: ENOENT]")
    (by rfl)
    ⟨snapshotDetail "pool/fs@s1",
     [destroyFilesystemRequest "pool/fs" true, snapshotsRequest "pool/fs" true,
      snapshotRequest "pool/fs@s1"], 1, by rfl, by rfl,
     snapshotDetail "pool/fs@s2",
     [destroyFilesystemRequest "pool/fs" true, snapshotsRequest "pool/fs" true,
      snapshotRequest "pool/fs@s1", snapshotRequest "pool/fs@s2"], 2, by rfl, by rfl, rfl⟩
    (Or.inl ⟨⟨"", "", "", [], "", ""⟩, .nef "ENOENT" "not found", by rfl, by rfl⟩)).1

/-- C22 (as amended): detail fetch errors inside the promotion loop are retryable, a
failed snapshot listing is not. In a call of `DestroyFilesystem` whose first plain
destroy is refused with an already-exists error and that requests promotion, take an
iteration `i` of the loop. When its listing succeeds, the detail fetches of the
snapshots before a snapshot `s` of the listing succeed and `GetSnapshot` of `s` returns
an error, the round ends at that fetch and goes on with its error: when `i + 1 < 3`,
iteration `i + 1` begins and the next request is a snapshot listing, and when
`i + 1 = 3` the call fails with that error, wrapped with the context naming the
filesystem. When its listing fails, the call fails at once with the wrapped error of the
listing and the trace of that listing, whatever the number of iterations left. -/
theorem detail_fetch_retryable (p : Provider) (path : String)
    (params : DestroyFilesystemParams) (log log1 : Trace) (err : GoError) (i : Nat)
    (m : Option GoError) (current : Trace)
    (hfirst : destroyFilesystem p path params.DestroySnapshots log = (some err, log1))
    (hpromote : params.PromoteMostRecentCloneIfExists = true)
    (hexists : IsAlreadyExistNefError (some err) = true)
    (hiter : Iteration p path params log1 i m current) :
    (∀ (before after : List Snapshot) (s : Snapshot) (t1 mid t2 : Trace) (snapshot : Snapshot)
      (e : GoError),
      GetSnapshots p path true current = (.ok (before ++ s :: after), t1) →
      DetailsFetched p before t1 mid →
      GetSnapshot p s.Path mid = ((snapshot, some e), t2) →
      DestroyFilesystem.round p path params current
        = (.continued (some (.errorf ("failed to get '" ++ s.Path ++ "' snapshost's info: "
            ++ e.Error))), t2) ∧
      (i + 1 < 3 →
        Iteration p path params log1 (i + 1)
          (some (.errorf ("failed to get '" ++ s.Path ++ "' snapshost's info: " ++ e.Error)))
          t2 ∧
        ∃ rest, (DestroyFilesystem p path params log).2
          = t2 ++ snapshotsRequest path true :: rest) ∧
      (i + 1 = 3 → DestroyFilesystem p path params log
        = (some (.errorf ("Failed to delete filesystem '" ++ path ++ "': "
            ++ ("failed to get '" ++ s.Path ++ "' snapshost's info: " ++ e.Error))), t2))) ∧
    (∀ e t1, GetSnapshots p path true current = (.error e, t1) →
      t1 = current ++ [snapshotsRequest path true] ∧
      DestroyFilesystem p path params log
        = (some (.errorf ("Failed to delete filesystem '" ++ path ++ "': "
            ++ ("failed to get snapshot list: " ++ e.Error))), t1)) := by
  obtain ⟨hi, hloop⟩ := iteration_loop p path params log1 i m current hiter
  obtain ⟨_, hend, htrace⟩ := DestroyFilesystem_blocked p path params log log1 err hfirst
    hpromote hexists
  have hpath : path ≠ "" :=
    (destroyFilesystem_answered p path params.DestroySnapshots log log1 (some err) hfirst
      (by
        intro h
        rw [Option.some.inj h] at hexists
        simp [IsAlreadyExistNefError] at hexists)).1
  have hcurrent : DestroyFilesystem.loop p path params (3 - i) m current
      = (match DestroyFilesystem.round p path params current with
        | (.returnedNil, log1) => (.returnedNil, log1)
        | (.broke mostRecentError, log1) => (.ended mostRecentError, log1)
        | (.continued mostRecentError, log1) =>
          DestroyFilesystem.loop p path params (3 - (i + 1)) mostRecentError log1) := by
    have h3 : 3 - i = (3 - (i + 1)) + 1 := by omega
    rw [h3, loop_succ]
  rw [hcurrent] at hloop
  refine ⟨?_, ?_⟩
  · intro before after s t1 mid t2 snapshot e hlist hbefore hfetch
    have hround := (round_detail_fails p path params current t1 mid t2 before after s _ hlist
      hbefore (Or.inl ⟨snapshot, e, hfetch, rfl⟩)).1
    rw [hround] at hloop
    simp only at hloop
    refine ⟨hround, ?_, ?_⟩
    · intro hlt
      refine ⟨Iteration.next i m current _ t2 hiter hlt hround, ?_⟩
      have h4 : 3 - (i + 1) = (3 - (i + 2)) + 1 := by omega
      rw [htrace, hloop, h4]
      exact loop_starts_with_listing p path params hpath _ _ t2
    · intro heq
      have h0 : 3 - (i + 1) = 0 := by omega
      rw [h0] at hloop
      have := hend _ t2 hloop
      simpa [IsNefError, GoError.Error] using this
  · intro e t1 hlist
    have hround : DestroyFilesystem.round p path params current
        = (.broke (some (.errorf ("failed to get snapshot list: " ++ e.Error))), t1) := by
      unfold DestroyFilesystem.round
      rw [hlist]
    rw [hround] at hloop
    simp only at hloop
    have hs := GetSnapshots_sent p path true current hpath
    rw [hlist] at hs
    refine ⟨(Prod.mk.inj hs).2, ?_⟩
    have := hend _ t1 hloop
    simpa [IsNefError, GoError.Error] using this

theorem detail_fetch_retryable_witness :
    ∃ rest, (DestroyFilesystem detailFailsAppliance "pool/fs" ⟨true, true⟩ []).2
      = [destroyFilesystemRequest "pool/fs" true, snapshotsRequest "pool/fs" true,
         snapshotRequest "pool/fs@s1", snapshotRequest "pool/fs@s2",
         snapshotRequest "pool/fs@s3"] ++ snapshotsRequest "pool/fs" true :: rest :=
  (((detail_fetch_retryable detailFailsAppliance "pool/fs" ⟨true, true⟩ []
    [destroyFilesystemRequest "pool/fs" true] (.nef "EEXIST" "filesystem has dependent clones")
    0 none [destroyFilesystemRequest "pool/fs" true]
    (by rfl) rfl (by rfl) Iteration.first).1
    [⟨"pool/fs@s1", "s1", "pool/fs", [], "", ""⟩, ⟨"pool/fs@s2", "s2", "pool/fs", [], "", ""⟩]
    [] ⟨"pool/fs@s3", "s3", "pool/fs", [], "", ""⟩
    [destroyFilesystemRequest "pool/fs" true, snapshotsRequest "pool/fs" true]
    [destroyFilesystemRequest "pool/fs" true, snapshotsRequest "pool/fs" true,
     snapshotRequest "pool/fs@s1", snapshotRequest "pool/fs@s2"]
    [destroyFilesystemRequest "pool/fs" true, snapshotsRequest "pool/fs" true,
     snapshotRequest "pool/fs@s1", snapshotRequest "pool/fs@s2",
     snapshotRequest "pool/fs@s3"]
    ⟨"", "", "", [], "", ""⟩ (.nef "ENOENT" "not found")
    (by rfl)
    ⟨snapshotDetail "pool/fs@s1",
     [destroyFilesystemRequest "pool/fs" true, snapshotsRequest "pool/fs" true,
      snapshotRequest "pool/fs@s1"], 1, by rfl, by rfl,
     snapshotDetail "pool/fs@s2",
     [destroyFilesystemRequest "pool/fs" true, snapshotsRequest "pool/fs" true,
      snapshotRequest "pool/fs@s1", snapshotRequest "pool/fs@s2"], 2, by rfl, by rfl, rfl⟩
    (by rfl)).2.1 (by decide)).2

end ns
